import Mathlib

/-!
# fastify-todo / ecommerce-api: the gates, the validators and the two workflows

A shallow embedding of `src/middleware/auth.js`, `src/middleware/validation.js`,
`src/middleware/error.js`, `src/services/jwt.js`, `src/services/redis.js`, the protected
routes of `src/routes/authRoutes.js` and `src/routes/productRoutes.js`, the schemas of
`src/validators/` that the theorems need, `src/controllers/authController.js` and
`src/controllers/productController.js`.

JavaScript values that travel in replies and in the cache are `Json` trees.  The external
libraries (`jsonwebtoken`, `bcryptjs`, Joi, ajv, the Prisma client, the ioredis client) are
modelled by their contracts; everything else follows the source line by line.
-/

namespace Ecommerce

/-! ## JavaScript values -/

/-- A JSON value, the shape of every reply payload and of every cached value. -/
inductive Json where
  | null
  | bool (b : Bool)
  | num (n : Int)
  | str (s : String)
  | arr (items : List Json)
  | obj (fields : List (String × Json))

mutual
/-- Whether a field called `key` occurs anywhere in the value, at any depth. -/
def Json.hasKey (key : String) : Json → Bool
  | .null => false
  | .bool _ => false
  | .num _ => false
  | .str _ => false
  | .arr items => Json.hasKeyItems key items
  | .obj fields => Json.hasKeyFields key fields
/-- The `hasKey` search over the items of an array. -/
def Json.hasKeyItems (key : String) : List Json → Bool
  | [] => false
  | v :: rest => Json.hasKey key v || Json.hasKeyItems key rest
/-- The `hasKey` search over the fields of an object. -/
def Json.hasKeyFields (key : String) : List (String × Json) → Bool
  | [] => false
  | (k, v) :: rest => k == key || Json.hasKey key v || Json.hasKeyFields key rest
end

/-- JavaScript truthiness of a parsed JSON value (`if (!user)` is `!truthy`). -/
def Json.truthy : Json → Bool
  | .null => false
  | .bool b => b
  | .num n => n != 0
  | .str s => s != ""
  | .arr _ => true
  | .obj _ => true

/-- `String.prototype.startsWith`, on the sequence of characters. -/
def jsStartsWith (s pre : String) : Bool :=
  pre.data.isPrefixOf s.data

/-- `String.prototype.substring(n)`: the string without its first `n` characters. -/
def jsSubstring (s : String) (n : Nat) : String :=
  ⟨s.data.drop n⟩

/-- What `reply.code(c).send(body)` sends; `reply.send(body)` alone sends status 200. -/
structure Reply where
  code : Nat
  body : Json

/-- The error envelope `{ error, message }`. -/
def envelope (error message : String) : Json :=
  .obj [("error", .str error), ("message", .str message)]

/-! ## The jsonwebtoken library

A compact token is a string; what the library reads in it is a `Jws`: the claim set and the
secret under which its signature verifies (an ideal MAC: a signature verifies under exactly
one secret).  The wire format itself (`serialize`, `parse`) is a parameter. -/

/-- The claim set of a token: the identity claims of the application and the registered
claims `iat`, `nbf`, `exp`, `iss`, `aud` (times in seconds). -/
structure Claims where
  id : String
  email : String
  role : String
  iat : Nat
  nbf : Option Nat
  exp : Option Nat
  iss : Option String
  aud : Option String
deriving DecidableEq, Repr

/-- A decoded token: the secret its signature verifies under, and its claim set. -/
structure Jws where
  key : String
  claims : Claims
deriving DecidableEq, Repr

/-- The wire format of `jsonwebtoken`: `parse` is `none` on a malformed string. -/
structure JwtLib where
  serialize : Jws → String
  parse : String → Option Jws

/-- The library reads back what it wrote. -/
def JwtLib.Lawful (lib : JwtLib) : Prop :=
  ∀ j : Jws, lib.parse (lib.serialize j) = some j

/-- The `name` of an error thrown by `jwt.verify`. -/
inductive JwtErrorName where
  | JsonWebTokenError
  | TokenExpiredError
  | NotBeforeError
deriving DecidableEq, Repr

/-- An error thrown by `jwt.verify`. -/
structure JwtError where
  name : JwtErrorName
  message : String
deriving DecidableEq, Repr

/-- The options of `jwt.verify` that the repository uses. -/
structure VerifyOptions where
  issuer : Option String := none
  audience : Option String := none

/-- The options of `jwt.sign` that the repository uses (`expiresIn` in seconds). -/
structure SignOptions where
  expiresIn : Nat
  issuer : String
  audience : String

/-- The contract of `jwt.verify(token, secret, options)` at clock time `now`: structure, then
signature, then `nbf`, then `exp`, then the requested audience, then the requested issuer. -/
def jwtVerify (lib : JwtLib) (now : Nat) (token secret : String) (options : VerifyOptions) :
    Except JwtError Claims :=
  match lib.parse token with
  | none => .error ⟨.JsonWebTokenError, "jwt malformed"⟩
  | some jws =>
    if jws.key ≠ secret then .error ⟨.JsonWebTokenError, "invalid signature"⟩
    else if jws.claims.nbf.any (fun nbf => nbf > now) then
      .error ⟨.NotBeforeError, "jwt not active"⟩
    else if jws.claims.exp.any (fun exp => now ≥ exp) then
      .error ⟨.TokenExpiredError, "jwt expired"⟩
    else if options.audience.any (fun audience => jws.claims.aud ≠ some audience) then
      .error ⟨.JsonWebTokenError, "jwt audience invalid"⟩
    else if options.issuer.any (fun issuer => jws.claims.iss ≠ some issuer) then
      .error ⟨.JsonWebTokenError, "jwt issuer invalid"⟩
    else .ok jws.claims

/-- The contract of `jwt.sign(payload, secret, options)` at clock time `now`, for the payload
`{ id, email, role }`. -/
def jwtSign (lib : JwtLib) (now : Nat) (id email role : String) (secret : String)
    (options : SignOptions) : String :=
  lib.serialize
    { key := secret
      claims :=
        { id := id, email := email, role := role, iat := now, nbf := none,
          exp := some (now + options.expiresIn),
          iss := some options.issuer, aud := some options.audience } }

/-- The part of `src/config/index.js` the token code reads: `config.jwt`. -/
structure Config where
  jwtSecret : String
  jwtExpiresIn : Nat

namespace JWTService

/-- `JWTService.generateToken(payload)` of `src/services/jwt.js`. -/
def generateToken (lib : JwtLib) (config : Config) (now : Nat) (id email role : String) :
    String :=
  jwtSign lib now id email role config.jwtSecret
    { expiresIn := config.jwtExpiresIn, issuer := "ecommerce-api",
      audience := "ecommerce-client" }

/-- `JWTService.verifyToken(token)` of `src/services/jwt.js`: the decoded claims, or the
message of the `Error` it throws. -/
def verifyToken (lib : JwtLib) (config : Config) (now : Nat) (token : String) :
    Except String Claims :=
  match jwtVerify lib now token config.jwtSecret
      { issuer := some "ecommerce-api", audience := some "ecommerce-client" } with
  | .ok decoded => .ok decoded
  | .error error =>
    if error.name = .TokenExpiredError then .error "Token expiré"
    else if error.name = .JsonWebTokenError then .error "Token invalide"
    else .error "Erreur lors de la vérification du token"

end JWTService

/-! ## The gates of `src/middleware/auth.js` -/

/-- What the gates and handlers read of a Fastify request: the `authorization` header, the
identity attached as `request.user`, and the body. -/
structure Request (β : Type) where
  authorization : Option String
  user : Option Claims
  body : β

/-- The function `authenticate(request, reply)`: the request as the gate leaves it, and the
reply it sent, if any.  The outer `catch` (status 500) guards statements that do not throw. -/
def authenticate {β : Type} (lib : JwtLib) (config : Config) (now : Nat)
    (request : Request β) : Request β × Option Reply :=
  match request.authorization with
  | none =>
    (request, some ⟨401, envelope "Unauthorized" "Token d'authentification manquant"⟩)
  | some authHeader =>
    if authHeader = "" || !jsStartsWith authHeader "Bearer " then
      (request, some ⟨401, envelope "Unauthorized" "Token d'authentification manquant"⟩)
    else
      let token := jsSubstring authHeader 7
      match jwtVerify lib now token config.jwtSecret {} with
      | .ok decoded => ({ request with user := some decoded }, none)
      | .error _ =>
        (request, some ⟨401, envelope "Unauthorized" "Token d'authentification invalide"⟩)

/-- The hook returned by `authorize(roles)`: the reply it sent, if any. -/
def authorize {β : Type} (roles : List String) (request : Request β) : Option Reply :=
  match request.user with
  | none => some ⟨401, envelope "Unauthorized" "Authentification requise"⟩
  | some user =>
    if roles.length ≠ 0 && !roles.contains user.role then
      some ⟨403, envelope "Forbidden" "Permissions insuffisantes"⟩
    else none

/-! ## The preHandler phase of the protected product routes (`src/routes/productRoutes.js`) -/

/-- A preHandler hook: the request as the hook leaves it, and the reply it sent, if any. -/
abbrev Hook (β : Type) := Request β → Request β × Option Reply

/-- How the preHandler phase of a route ends: a hook replied, or the route handler is called
with the request as the hooks left it. -/
inductive Served (β : Type) where
  | replied (reply : Reply)
  | handler (request : Request β)

/-- Fastify runs the preHandler hooks in order and stops at the first one that sends a reply;
when none does, it calls the handler. -/
def runPreHandlers {β : Type} : List (Hook β) → Request β → Served β
  | [], request => .handler request
  | hook :: rest, request =>
    match hook request with
    | (_, some reply) => .replied reply
    | (request', none) => runPreHandlers rest request'

/-- The hook `authorize(roles)` in a preHandler list: it never changes the request. -/
def authorizeHook {β : Type} (roles : List String) : Hook β :=
  fun request => (request, authorize roles request)

/-- The Joi schemas of `src/validators/productValidator.js` used on the admin routes. -/
inductive ProductSchema where
  | createProductSchema
  | updateProductSchema
  | productParamsSchema

/-- The admin-only routes registered in the protected group of `productRoutes`. -/
inductive AdminRoute where
  | postProducts
  | putProductsId
  | deleteProductsId
  | getStatsOverview

/-- The preHandler hooks of each admin-only route, in the order Fastify runs them: the hook
`authenticate` added to the group by `addHook`, then the route's own `preHandler` array.  The
hooks `validateSchema(schema, source)` are a parameter. -/
def adminPreHandlers {β : Type} (lib : JwtLib) (config : Config) (now : Nat)
    (validateSchema : ProductSchema → Hook β) : AdminRoute → List (Hook β)
  | .postProducts =>
    [authenticate lib config now, authorizeHook ["ADMIN"],
      validateSchema .createProductSchema]
  | .putProductsId =>
    [authenticate lib config now, authorizeHook ["ADMIN"],
      validateSchema .productParamsSchema, validateSchema .updateProductSchema]
  | .deleteProductsId =>
    [authenticate lib config now, authorizeHook ["ADMIN"],
      validateSchema .productParamsSchema]
  | .getStatsOverview =>
    [authenticate lib config now, authorizeHook ["ADMIN"]]

/-- The token a request bears: the rest of an `authorization` header that starts with
`Bearer `. -/
def bearerToken {β : Type} (request : Request β) : Option String :=
  match request.authorization with
  | none => none
  | some authHeader =>
    if jsStartsWith authHeader "Bearer " then some (jsSubstring authHeader 7) else none

/-! ## Errors and the top-level error translator (`src/middleware/error.js`) -/

/-- A thrown JavaScript error, with the properties `errorHandler` reads. -/
structure JsError where
  name : String
  message : String
  code : Option String := none
  statusCode : Option Nat := none
  validation : Option Json := none
  type : Option String := none

/-- How a route handler ends: it sends a reply, or it throws (every handler of the
controllers logs the error in its `catch` and rethrows it). -/
inductive Outcome where
  | reply (sent : Reply)
  | throw (error : JsError)

/-- The function `errorHandler(error, request, reply)`, set as Fastify's error handler. -/
def errorHandler (error : JsError) : Reply :=
  if error.code = some "P2002" then
    ⟨409, envelope "Conflict" "Cette ressource existe déjà"⟩
  else if error.code = some "P2025" then
    ⟨404, envelope "Not Found" "Ressource non trouvée"⟩
  else if error.validation.any Json.truthy then
    ⟨400, .obj [("error", .str "Validation Error"), ("message", .str "Données invalides"),
      ("details", error.validation.getD .null)]⟩
  else if error.type = some "entity.parse.failed" then
    ⟨400, envelope "Bad Request" "Format JSON invalide"⟩
  else
    let statusCode := match error.statusCode with
      | some c => if c = 0 then 500 else c
      | none => 500
    let message :=
      if statusCode = 500 then "Erreur interne du serveur"
      else if error.message = "" then "Une erreur est survenue" else error.message
    ⟨statusCode, envelope (if error.name = "" then "Error" else error.name) message⟩

/-- The reply the client receives: the handler's own, or the error handler's. -/
def Outcome.response : Outcome → Reply
  | .reply sent => sent
  | .throw error => errorHandler error

/-! ## The key-value store (`fastify.redis`) and `src/services/redis.js` -/

/-- A stored value (the JSON text, read back as the value it encodes) and the time at which
it expires, if it does. -/
structure CacheEntry where
  value : Json
  expiresAt : Option Nat

/-- The key-value store: whether it can be reached, and its entries. -/
structure Redis where
  reachable : Bool := true
  entries : List (String × CacheEntry) := []

/-- The error of a command sent to an unreachable store. -/
def redisUnavailable : JsError :=
  { name := "Error", message := "connect ECONNREFUSED", code := some "ECONNREFUSED" }

/-- The entry found under a key, expired or not. -/
def Redis.find (redis : Redis) (key : String) : Option CacheEntry :=
  (redis.entries.find? (fun kv => kv.1 == key)).map (fun kv => kv.2)

/-- The entries with `key` bound to `entry`. -/
def Redis.put (redis : Redis) (key : String) (entry : CacheEntry) : Redis :=
  { redis with entries := (key, entry) :: redis.entries.filter (fun kv => kv.1 != key) }

namespace RedisService

/-- `RedisService.set(key, value, ttl = null)`: `SETEX` when `ttl` is truthy, `SET`
otherwise; an error of the client is logged and rethrown. -/
def set (redis : Redis) (now : Nat) (key : String) (value : Json) (ttl : Option Nat) :
    Except JsError Redis :=
  if !redis.reachable then .error redisUnavailable
  else
    match ttl with
    | some (t + 1) => .ok (redis.put key ⟨value, some (now + (t + 1))⟩)
    | _ => .ok (redis.put key ⟨value, none⟩)

/-- `RedisService.get(key)`: the stored value, or `null` when the key is absent or expired. -/
def get (redis : Redis) (now : Nat) (key : String) : Except JsError Json :=
  if !redis.reachable then .error redisUnavailable
  else
    match redis.find key with
    | none => .ok .null
    | some entry =>
      if entry.expiresAt.any (fun t => t ≤ now) then .ok .null else .ok entry.value

/-- `RedisService.del(key)`: removes the one key `key`; `true` when a key was removed. -/
def del (redis : Redis) (key : String) : Except JsError (Redis × Bool) :=
  if !redis.reachable then .error redisUnavailable
  else
    .ok ({ redis with entries := redis.entries.filter (fun kv => kv.1 != key) },
      redis.entries.any (fun kv => kv.1 == key))

end RedisService

/-! ## The user table behind the Prisma client -/

/-- Modelled from the spec: the Prisma schema (`prisma/schema.prisma`) that declares the
`User` model is not among the sources.  The columns are those the controllers select and
write; that the email is unique and that the store keeps a creation and an update time come
from the data model of the specification. -/
structure User where
  id : String
  email : String
  password : String
  name : String
  role : String
  createdAt : Nat
  updatedAt : Nat
deriving DecidableEq, Repr

/-- Modelled from the spec: the Prisma schema (`prisma/schema.prisma`) that declares the
`Product` model is not among the sources.  The columns are those of `productSchema` in
`routes/productRoutes.js`; that the SKU is unique and that the store keeps a creation and an
update time come from the data model of the specification.  Prices are counted in
hundredths. -/
structure Product where
  id : String
  name : String
  description : Option String
  price : Nat
  quantity : Nat
  sku : String
  category : String
  isActive : Bool
  createdAt : Nat
  updatedAt : Nat
deriving DecidableEq, Repr

/-- The relational store: the user table and the product table. -/
structure Database where
  users : List User := []
  products : List Product := []

/-- A row as the JavaScript object the client returns when no `select` is given. -/
def User.row (user : User) : List (String × Json) :=
  [("id", .str user.id), ("email", .str user.email), ("password", .str user.password),
    ("name", .str user.name), ("role", .str user.role),
    ("createdAt", .num user.createdAt), ("updatedAt", .num user.updatedAt)]

/-- The object the client returns under `select`: the selected columns of the row. -/
def User.select (columns : List String) (user : User) : Json :=
  .obj (user.row.filter (fun kv => columns.contains kv.1))

/-- The error of a unique-constraint violation. -/
def prismaUniqueViolation : JsError :=
  { name := "PrismaClientKnownRequestError",
    message := "Unique constraint failed", code := some "P2002" }

/-- The error of an update of a record that does not exist. -/
def prismaRecordNotFound : JsError :=
  { name := "PrismaClientKnownRequestError",
    message := "Record to update not found", code := some "P2025" }

/-- The error of a query whose arguments do not fit the model. -/
def prismaValidationError : JsError :=
  { name := "PrismaClientValidationError", message := "Invalid invocation" }

namespace Database

/-- `db.user.findUnique({ where: { email } })`. -/
def findUniqueByEmail (db : Database) (email : String) : Option User :=
  db.users.find? (fun u => u.email == email)

/-- `db.user.findUnique({ where: { id } })`. -/
def findUniqueById (db : Database) (id : String) : Option User :=
  db.users.find? (fun u => u.id == id)

/-- `db.user.findFirst({ where: { email, NOT: { id } } })`. -/
def findFirstOtherWithEmail (db : Database) (email id : String) : Option User :=
  db.users.find? (fun u => u.email == email && u.id != id)

/-- `db.user.create({ data: { email, password, name, role } })` at time `now`, the store
drawing `newId` as the id of the row: the email is unique. -/
def create (db : Database) (now : Nat) (newId : String) (email password name role : String) :
    Except JsError (Database × User) :=
  if db.users.any (fun u => u.email == email) then .error prismaUniqueViolation
  else
    let user : User :=
      { id := newId, email := email, password := password, name := name, role := role,
        createdAt := now, updatedAt := now }
    .ok ({ db with users := db.users ++ [user] }, user)

/-- The columns that `data` sets on a row: `id`, `email`, `password`, `name` and `role` take
a string; any other key or value is refused by the client. -/
def applyData : List (String × Json) → User → Except JsError User
  | [], user => .ok user
  | ("id", .str v) :: rest, user => applyData rest { user with id := v }
  | ("email", .str v) :: rest, user => applyData rest { user with email := v }
  | ("password", .str v) :: rest, user => applyData rest { user with password := v }
  | ("name", .str v) :: rest, user => applyData rest { user with name := v }
  | ("role", .str v) :: rest, user => applyData rest { user with role := v }
  | _ :: _, _ => .error prismaValidationError

/-- `db.user.update({ where: { id }, data })` at time `now`: the row must exist, the new
email must not be the email of another row, and `updatedAt` is set to `now`. -/
def update (db : Database) (now : Nat) (id : String) (data : List (String × Json)) :
    Except JsError (Database × User) :=
  match db.findUniqueById id with
  | none => .error prismaRecordNotFound
  | some old =>
    match applyData data old with
    | .error e => .error e
    | .ok changed =>
      let user := { changed with updatedAt := now }
      if db.users.any (fun u => u.id != id && u.email == user.email) then
        .error prismaUniqueViolation
      else
        .ok ({ db with users := db.users.map (fun u => if u.id == id then user else u) },
          user)

end Database

/-! ## The bcryptjs library and `src/services/hash.js` -/

/-- The contract of `bcryptjs`: `hash` (with the salt it draws) and `compare`. -/
structure Bcrypt where
  hash : String → String
  compare : String → String → Bool

namespace HashService

/-- `HashService.hashPassword(password)`. -/
def hashPassword (bcrypt : Bcrypt) (password : String) : String :=
  bcrypt.hash password

/-- `HashService.verifyPassword(password, hashedPassword)`. -/
def verifyPassword (bcrypt : Bcrypt) (password hashedPassword : String) : Bool :=
  bcrypt.compare password hashedPassword

end HashService

/-- The libraries and configuration the controllers are built on. -/
structure Env where
  jwt : JwtLib
  bcrypt : Bcrypt
  config : Config

/-- The state the workflows read and write: the relational store and the key-value store. -/
structure World where
  db : Database
  redis : Redis

/-! ## The auth workflow (`src/controllers/authController.js`)

Each handler takes the state and the request (its body as `validateSchema` left it) and
returns the state after the request and how the handler ended. -/

/-- The body of `POST /auth/register`. -/
structure RegisterBody where
  email : String
  password : String
  name : String
  role : Option String

/-- The body of `POST /auth/login`. -/
structure LoginBody where
  email : String
  password : String

/-- The body of `PUT /auth/change-password`, as far as the handler reads it. -/
structure ChangePasswordBody where
  currentPassword : String
  newPassword : String

/-- The expression `value || fallback` on an optional string. -/
def jsOrString (value : Option String) (fallback : String) : String :=
  match value with
  | some v => if v = "" then fallback else v
  | none => fallback

/-- The schema `registerSchema.role` of `src/validators/authValidator.js`, which is
`Joi.string().valid('USER', 'ADMIN').default('USER')`: the validated role for the role the
caller supplied, or the error message. -/
def registerSchemaRole (supplied : Option String) : Except String (Option String) :=
  match supplied with
  | none => .ok (some "USER")
  | some role =>
    if role = "USER" ∨ role = "ADMIN" then .ok (some role)
    else .error "Le rôle doit être USER ou ADMIN"

/-- The `TypeError` of reading `request.user.id` when no identity is attached. -/
def nullUserError : JsError :=
  { name := "TypeError", message := "Cannot read properties of null (reading 'id')" }

namespace AuthController

/-- The handler `register(request, reply)`. -/
def register (env : Env) (now : Nat) (newId : String) (w : World)
    (request : Request RegisterBody) : World × Outcome :=
  let email := request.body.email
  let password := request.body.password
  let name := request.body.name
  let role := request.body.role
  match w.db.findUniqueByEmail email with
  | some _ =>
    (w, .reply ⟨409, envelope "Conflict" "Un utilisateur avec cet email existe déjà"⟩)
  | none =>
    let hashedPassword := HashService.hashPassword env.bcrypt password
    match w.db.create now newId email hashedPassword name (jsOrString role "USER") with
    | .error e => (w, .throw e)
    | .ok (db, created) =>
      let user := created.select ["id", "email", "name", "role", "createdAt"]
      let token :=
        JWTService.generateToken env.jwt env.config now created.id created.email created.role
      match RedisService.set w.redis now ("user:" ++ created.id) user (some 3600) with
      | .error e => ({ w with db := db }, .throw e)
      | .ok redis =>
        ({ w with db := db, redis := redis },
          .reply ⟨201, .obj [("message", .str "Inscription réussie"), ("user", user),
            ("token", .str token)]⟩)

/-- The handler `login(request, reply)`. -/
def login (env : Env) (now : Nat) (w : World) (request : Request LoginBody) :
    World × Outcome :=
  let email := request.body.email
  let password := request.body.password
  match w.db.findUniqueByEmail email with
  | none => (w, .reply ⟨401, envelope "Unauthorized" "Email ou mot de passe incorrect"⟩)
  | some user =>
    let isPasswordValid := HashService.verifyPassword env.bcrypt password user.password
    if !isPasswordValid then
      (w, .reply ⟨401, envelope "Unauthorized" "Email ou mot de passe incorrect"⟩)
    else
      let token :=
        JWTService.generateToken env.jwt env.config now user.id user.email user.role
      let userData : Json :=
        .obj [("id", .str user.id), ("email", .str user.email), ("name", .str user.name),
          ("role", .str user.role), ("createdAt", .num user.createdAt)]
      match RedisService.set w.redis now ("user:" ++ user.id) userData (some 3600) with
      | .error e => (w, .throw e)
      | .ok redis =>
        ({ w with redis := redis },
          .reply ⟨200, .obj [("message", .str "Connexion réussie"), ("user", userData),
            ("token", .str token)]⟩)

/-- The handler `getProfile(request, reply)`. -/
def getProfile {β : Type} (now : Nat) (w : World) (request : Request β) : World × Outcome :=
  match request.user with
  | none => (w, .throw nullUserError)
  | some identity =>
    let userId := identity.id
    match RedisService.get w.redis now ("user:" ++ userId) with
    | .error e => (w, .throw e)
    | .ok cached =>
      if cached.truthy then (w, .reply ⟨200, .obj [("user", cached)]⟩)
      else
        match w.db.findUniqueById userId with
        | none => (w, .reply ⟨404, envelope "Not Found" "Utilisateur non trouvé"⟩)
        | some found =>
          let user := found.select ["id", "email", "name", "role", "createdAt", "updatedAt"]
          match RedisService.set w.redis now ("user:" ++ userId) user (some 3600) with
          | .error e => (w, .throw e)
          | .ok redis => ({ w with redis := redis }, .reply ⟨200, .obj [("user", user)]⟩)

/-- The check of `updateProfile` that the new email is not used by another user: the reply
it sends or the error it throws, if any.  It runs only when `updateData.email` is truthy. -/
def emailConflict (w : World) (userId : String) (updateData : List (String × Json)) :
    Option Outcome :=
  match updateData.lookup "email" with
  | none => none
  | some (.str email) =>
    if email = "" then none
    else
      match w.db.findFirstOtherWithEmail email userId with
      | some _ => some (.reply ⟨409, envelope "Conflict" "Cet email est déjà utilisé"⟩)
      | none => none
  | some other => if other.truthy then some (.throw prismaValidationError) else none

/-- The handler `updateProfile(request, reply)`; `request.body` is the object `updateData`. -/
def updateProfile (now : Nat) (w : World) (request : Request (List (String × Json))) :
    World × Outcome :=
  match request.user with
  | none => (w, .throw nullUserError)
  | some identity =>
    let userId := identity.id
    let updateData := request.body
    match emailConflict w userId updateData with
    | some ended => (w, ended)
    | none =>
      match w.db.update now userId updateData with
      | .error e => (w, .throw e)
      | .ok (db, updated) =>
        let user :=
          updated.select ["id", "email", "name", "role", "createdAt", "updatedAt"]
        match RedisService.set w.redis now ("user:" ++ userId) user (some 3600) with
        | .error e => ({ w with db := db }, .throw e)
        | .ok redis =>
          ({ w with db := db, redis := redis },
            .reply ⟨200, .obj [("message", .str "Profil mis à jour avec succès"),
              ("user", user)]⟩)

/-- The handler `changePassword(request, reply)`. -/
def changePassword (env : Env) (now : Nat) (w : World)
    (request : Request ChangePasswordBody) : World × Outcome :=
  match request.user with
  | none => (w, .throw nullUserError)
  | some identity =>
    let userId := identity.id
    let currentPassword := request.body.currentPassword
    let newPassword := request.body.newPassword
    match w.db.findUniqueById userId with
    | none => (w, .reply ⟨404, envelope "Not Found" "Utilisateur non trouvé"⟩)
    | some user =>
      let isCurrentPasswordValid :=
        HashService.verifyPassword env.bcrypt currentPassword user.password
      if !isCurrentPasswordValid then
        (w, .reply ⟨400, envelope "Bad Request" "Mot de passe actuel incorrect"⟩)
      else
        let hashedNewPassword := HashService.hashPassword env.bcrypt newPassword
        match w.db.update now userId [("password", .str hashedNewPassword)] with
        | .error e => (w, .throw e)
        | .ok (db, _) =>
          ({ w with db := db },
            .reply ⟨200, .obj [("message", .str "Mot de passe changé avec succès")]⟩)

/-- The handler `logout(request, reply)`. -/
def logout {β : Type} (w : World) (request : Request β) : World × Outcome :=
  match request.user with
  | none => (w, .throw nullUserError)
  | some identity =>
    let userId := identity.id
    match RedisService.del w.redis ("user:" ++ userId) with
    | .error e => (w, .throw e)
    | .ok (redis, _) =>
      ({ w with redis := redis }, .reply ⟨200, .obj [("message", .str "Déconnexion réussie")]⟩)

end AuthController

/-- A request to the auth workflow. -/
inductive AuthOp where
  | register (newId : String) (request : Request RegisterBody)
  | login (request : Request LoginBody)
  | getProfile (request : Request Unit)
  | updateProfile (request : Request (List (String × Json)))
  | changePassword (request : Request ChangePasswordBody)
  | logout (request : Request Unit)

/-- The handler of the request, run at time `now`. -/
def AuthOp.run (env : Env) (now : Nat) (w : World) : AuthOp → World × Outcome
  | .register newId request => AuthController.register env now newId w request
  | .login request => AuthController.login env now w request
  | .getProfile request => AuthController.getProfile now w request
  | .updateProfile request => AuthController.updateProfile now w request
  | .changePassword request => AuthController.changePassword env now w request
  | .logout request => AuthController.logout w request

/-- The states the system reaches from an empty cache: by the handlers of the auth workflow
run on any request at any time; by the other writers of the cache, the catalog workflow,
whose keys all start with `product` and so never with `user:`; and by the key-value store
becoming unreachable or reachable again. -/
inductive Reachable (env : Env) : World → Prop where
  | init (db : Database) (reachable : Bool) :
    Reachable env { db := db, redis := { reachable := reachable, entries := [] } }
  | auth (now : Nat) (op : AuthOp) (w : World) :
    Reachable env w → Reachable env (op.run env now w).1
  | catalogWrite (key : String) (entry : CacheEntry) (w : World) :
    jsStartsWith key "user:" = false → Reachable env w →
    Reachable env { w with redis := w.redis.put key entry }
  | catalogDelete (key : String) (w : World) :
    Reachable env w →
    Reachable env
      { w with redis := { w.redis with entries := w.redis.entries.filter (fun kv => kv.1 != key) } }
  | connection (reachable : Bool) (w : World) :
    Reachable env w → Reachable env { w with redis := { w.redis with reachable := reachable } }

/-! ## `JSON.stringify` -/

/-- The hexadecimal digit of a number below 16. -/
def hexDigit (n : Nat) : Char :=
  if n < 10 then Char.ofNat (48 + n) else Char.ofNat (87 + n)

/-- How `JSON.stringify` writes one character of a string. -/
def jsonEscapeChar (c : Char) : List Char :=
  if c.toNat = 34 then [Char.ofNat 92, Char.ofNat 34]
  else if c.toNat = 92 then [Char.ofNat 92, Char.ofNat 92]
  else if c.toNat = 10 then [Char.ofNat 92, 'n']
  else if c.toNat = 13 then [Char.ofNat 92, 'r']
  else if c.toNat = 9 then [Char.ofNat 92, 't']
  else if c.toNat = 8 then [Char.ofNat 92, 'b']
  else if c.toNat = 12 then [Char.ofNat 92, 'f']
  else if c.toNat < 32 then
    [Char.ofNat 92, 'u', '0', '0', hexDigit (c.toNat / 16), hexDigit (c.toNat % 16)]
  else [c]

/-- A string between double quotes, as `JSON.stringify` writes it. -/
def jsonQuote (s : String) : String :=
  ⟨Char.ofNat 34 :: (s.data.flatMap jsonEscapeChar ++ [Char.ofNat 34])⟩

mutual
/-- The text `JSON.stringify(value)`. -/
def Json.stringify : Json → String
  | .null => "null"
  | .bool b => if b then "true" else "false"
  | .num n => toString n
  | .str s => jsonQuote s
  | .arr items => "[" ++ Json.stringifyItems items ++ "]"
  | .obj fields => "\x7b" ++ Json.stringifyFields fields ++ "\x7d"
/-- The items of an array, separated by commas. -/
def Json.stringifyItems : List Json → String
  | [] => ""
  | v :: [] => Json.stringify v
  | v :: w :: rest => Json.stringify v ++ "," ++ Json.stringifyItems (w :: rest)
/-- The fields of an object, separated by commas. -/
def Json.stringifyFields : List (String × Json) → String
  | [] => ""
  | (k, v) :: [] => jsonQuote k ++ ":" ++ Json.stringify v
  | (k, v) :: kv :: rest =>
    jsonQuote k ++ ":" ++ Json.stringify v ++ "," ++ Json.stringifyFields (kv :: rest)
end

/-! ## The product table behind the Prisma client -/

/-- A product row as the JavaScript object the client returns. -/
def Product.row (product : Product) : Json :=
  .obj [("id", .str product.id), ("name", .str product.name),
    ("description", match product.description with
      | some text => .str text
      | none => .null),
    ("price", .num product.price), ("quantity", .num product.quantity),
    ("sku", .str product.sku), ("category", .str product.category),
    ("isActive", .bool product.isActive), ("createdAt", .num product.createdAt),
    ("updatedAt", .num product.updatedAt)]

/-- The text columns a `contains` filter can name. -/
def Product.text (product : Product) (column : String) : Option String :=
  if column = "name" then some product.name
  else if column = "description" then product.description
  else if column = "sku" then some product.sku
  else if column = "category" then some product.category
  else none

/-- The characters of a string, letters in lower case. -/
def lowerChars (s : String) : List Char :=
  s.data.map Char.toLower

/-- The filter `{ contains: needle, mode: 'insensitive' }` on a text. -/
def containsInsensitive (text needle : String) : Bool :=
  (lowerChars text).tails.any (fun rest => (lowerChars needle).isPrefixOf rest)

/-- The `where` argument of the product queries the controller issues: `OR` is a list of
`{ column: { contains, mode: 'insensitive' } }`, `category` is
`{ contains, mode: 'insensitive' }`, `isActive` is an exact value and `quantityLt` is
`quantity: { lt }`.  An absent key puts no condition. -/
structure ProductWhere where
  OR : Option (List (String × String)) := none
  category : Option String := none
  isActive : Option Bool := none
  quantityLt : Option Nat := none
deriving DecidableEq, Repr

/-- Whether a row satisfies a `where` argument. -/
def ProductWhere.holds (filter : ProductWhere) (product : Product) : Bool :=
  (match filter.OR with
    | none => true
    | some conditions =>
      conditions.any (fun condition =>
        (product.text condition.1).any (fun text => containsInsensitive text condition.2))) &&
  (match filter.category with
    | none => true
    | some category => containsInsensitive product.category category) &&
  (match filter.isActive with
    | none => true
    | some isActive => product.isActive == isActive) &&
  (match filter.quantityLt with
    | none => true
    | some bound => decide (product.quantity < bound))

/-- The columns `getProductsQuerySchema` lets a list be sorted by. -/
inductive SortField where
  | name
  | price
  | quantity
  | category
  | createdAt
  | updatedAt
deriving DecidableEq, Repr

/-- The sort orders `getProductsQuerySchema` allows. -/
inductive SortOrder where
  | asc
  | desc
deriving DecidableEq, Repr

/-- The name of a sort column, as the query string carries it. -/
def SortField.toString : SortField → String
  | .name => "name"
  | .price => "price"
  | .quantity => "quantity"
  | .category => "category"
  | .createdAt => "createdAt"
  | .updatedAt => "updatedAt"

/-- The name of a sort order, as the query string carries it. -/
def SortOrder.toString : SortOrder → String
  | .asc => "asc"
  | .desc => "desc"

/-- Whether `a` may come before `b` when rows are sorted upwards by the column. -/
def SortField.le (field : SortField) (a b : Product) : Bool :=
  match field with
  | .name => !decide (b.name < a.name)
  | .price => decide (a.price ≤ b.price)
  | .quantity => decide (a.quantity ≤ b.quantity)
  | .category => !decide (b.category < a.category)
  | .createdAt => decide (a.createdAt ≤ b.createdAt)
  | .updatedAt => decide (a.updatedAt ≤ b.updatedAt)

/-- Whether `a` may come before `b` under `orderBy: { [field]: order }`. -/
def orderedBefore (field : SortField) (order : SortOrder) (a b : Product) : Bool :=
  match order with
  | .asc => field.le a b
  | .desc => field.le b a

/-- The arguments of `db.product.findMany`. -/
structure FindManyArgs where
  filter : ProductWhere
  skip : Nat
  take : Nat
  orderBy : SortField × SortOrder
deriving DecidableEq, Repr

/-- The body of `POST /products`, as `validateSchema(createProductSchema)` leaves it. -/
structure CreateProductBody where
  name : String
  description : Option String
  price : Nat
  quantity : Nat
  sku : String
  category : String
  isActive : Bool

/-- The body of `PUT /products/:id`, as `validateSchema(updateProductSchema)` leaves it. -/
structure UpdateProductBody where
  name : Option String := none
  description : Option String := none
  price : Option Nat := none
  quantity : Option Nat := none
  sku : Option String := none
  category : Option String := none
  isActive : Option Bool := none

/-- The row after `data` is written on it at time `now`. -/
def UpdateProductBody.apply (data : UpdateProductBody) (now : Nat) (product : Product) :
    Product :=
  { product with
    name := data.name.getD product.name
    description := match data.description with
      | some text => some text
      | none => product.description
    price := data.price.getD product.price
    quantity := data.quantity.getD product.quantity
    sku := data.sku.getD product.sku
    category := data.category.getD product.category
    isActive := data.isActive.getD product.isActive
    updatedAt := now }

namespace Database

/-- `db.product.findUnique({ where: { id } })`. -/
def findProductById (db : Database) (id : String) : Option Product :=
  db.products.find? (fun p => p.id == id)

/-- `db.product.findUnique({ where: { sku } })`. -/
def findProductBySku (db : Database) (sku : String) : Option Product :=
  db.products.find? (fun p => p.sku == sku)

/-- `db.product.findFirst({ where: { sku, NOT: { id } } })`. -/
def findOtherProductWithSku (db : Database) (sku id : String) : Option Product :=
  db.products.find? (fun p => p.sku == sku && p.id != id)

/-- `db.product.create({ data })` at time `now`, the store drawing `newId` as the id of the
row: the SKU is unique. -/
def createProduct (db : Database) (now : Nat) (newId : String) (data : CreateProductBody) :
    Except JsError (Database × Product) :=
  if db.products.any (fun p => p.sku == data.sku) then .error prismaUniqueViolation
  else
    let product : Product :=
      { id := newId, name := data.name, description := data.description,
        price := data.price, quantity := data.quantity, sku := data.sku,
        category := data.category, isActive := data.isActive,
        createdAt := now, updatedAt := now }
    .ok ({ db with products := db.products ++ [product] }, product)

/-- `db.product.update({ where: { id }, data })` at time `now`: the row must exist and the
new SKU must not be the SKU of another row. -/
def updateProduct (db : Database) (now : Nat) (id : String) (data : UpdateProductBody) :
    Except JsError (Database × Product) :=
  match db.findProductById id with
  | none => .error prismaRecordNotFound
  | some old =>
    let product := data.apply now old
    if db.products.any (fun p => p.id != id && p.sku == product.sku) then
      .error prismaUniqueViolation
    else
      .ok ({ db with products := db.products.map (fun p => if p.id == id then product else p) },
        product)

/-- `db.product.delete({ where: { id } })`: the row must exist. -/
def deleteProduct (db : Database) (id : String) : Except JsError Database :=
  match db.findProductById id with
  | none => .error prismaRecordNotFound
  | some _ => .ok { db with products := db.products.filter (fun p => p.id != id) }

/-- `db.product.count({ where })`. -/
def countProducts (db : Database) (filter : ProductWhere) : Nat :=
  (db.products.filter filter.holds).length

/-- `db.product.findMany({ where, skip, take, orderBy })`. -/
def findManyProducts (db : Database) (args : FindManyArgs) : List Product :=
  (((db.products.filter args.filter.holds).insertionSort
    (fun a b => orderedBefore args.orderBy.1 args.orderBy.2 a b = true)).drop args.skip).take
    args.take

/-- `db.product.aggregate({ _sum: { price: true } })._sum.price`: `null` on an empty table. -/
def sumProductPrices (db : Database) : Option Nat :=
  if db.products.isEmpty then none else some (db.products.map (fun p => p.price)).sum

/-- `db.product.groupBy({ by: ['category'], _count: { category: true } })`: each category
that occurs, once, with the number of its rows. -/
def groupProductsByCategory (db : Database) : List (String × Nat) :=
  (db.products.map (fun p => p.category)).dedup.map
    (fun category => (category, db.products.countP (fun p => p.category == category)))

end Database

/-! ## The catalog workflow (`src/controllers/productController.js`)

The path parameter `request.params.id` and the query `request.query` are arguments of their
own; the body and the attached identity come with the request. -/

/-- The keys of the query of `GET /products` (`getProductsQuerySchema`). -/
inductive QueryKey where
  | page
  | limit
  | search
  | category
  | isActive
  | sortBy
  | sortOrder
deriving DecidableEq, Repr

/-- The name of a key. -/
def QueryKey.toString : QueryKey → String
  | .page => "page"
  | .limit => "limit"
  | .search => "search"
  | .category => "category"
  | .isActive => "isActive"
  | .sortBy => "sortBy"
  | .sortOrder => "sortOrder"

/-- The query of `GET /products`, as `validateSchema(getProductsQuerySchema, 'query')` leaves
it: the values the handler reads out of `request.query`, and in `order` the order in which
that object holds its keys.  The object keeps the keys of the URL in the order of the URL and
the validators append the keys they fill with a default; a key that has no value is not in
the object, wherever `order` names it. -/
structure ProductsQuery where
  page : Nat
  limit : Nat
  search : Option String := none
  category : Option String := none
  isActive : Option Bool := none
  sortBy : SortField
  sortOrder : SortOrder
  order : List QueryKey := [.page, .limit, .search, .category, .isActive, .sortBy, .sortOrder]
deriving DecidableEq, Repr

/-- The value the object `request.query` holds under a key, if it holds the key. -/
def ProductsQuery.value (query : ProductsQuery) : QueryKey → Option Json
  | .page => some (.num query.page)
  | .limit => some (.num query.limit)
  | .search => query.search.map Json.str
  | .category => query.category.map Json.str
  | .isActive => query.isActive.map Json.bool
  | .sortBy => some (.str query.sortBy.toString)
  | .sortOrder => some (.str query.sortOrder.toString)

/-- The object `request.query`: the keys that have a value, in the order `order` gives. -/
def ProductsQuery.toJson (query : ProductsQuery) : Json :=
  .obj (query.order.filterMap
    (fun key => (query.value key).map (fun value => (key.toString, value))))

/-- The handler reads its values out of the object `request.query`, so the object holds each
of them: every key that has a value is named in `order`. -/
def ProductsQuery.Complete (query : ProductsQuery) : Prop :=
  ∀ key, (query.value key).isSome = true → key ∈ query.order

/-- The number of binary digits of `n`, for every `n` that is at most `fuel`. -/
def binaryDigits : Nat → Nat → Nat
  | 0, _ => 0
  | fuel + 1, n => if n = 0 then 0 else binaryDigits fuel (n / 2) + 1

/-- The double nearest to a natural number, as a natural number: a JavaScript number keeps 53
significant binary digits and rounds to the nearest value, a tie to the even significand.
Every natural number up to `2 ^ 53` is exact.  (No number here comes near the largest
double.) -/
def roundToDouble (n : Nat) : Nat :=
  if n < 2 ^ 53 then n
  else
    let scale := 2 ^ (binaryDigits n n - 53)
    let significand := n / scale
    let rest := n % scale
    if 2 * rest < scale ∨ (2 * rest = scale ∧ significand % 2 = 0) then significand * scale
    else (significand + 1) * scale

/-- The double nearest to an integer, as an integer. -/
def jsRound (x : Int) : Int :=
  if x < 0 then -((roundToDouble x.natAbs : Nat) : Int)
  else ((roundToDouble x.natAbs : Nat) : Int)

/-- `Math.ceil(count / limit)` for a count and a limit of at least 1. -/
def mathCeilDiv (count limit : Nat) : Nat :=
  (count + limit - 1) / limit

namespace ProductController

/-- The key of the list cache, `products:` followed by `JSON.stringify(request.query)`. -/
def listCacheKey (query : ProductsQuery) : String :=
  "products:" ++ query.toJson.stringify

/-- The `where` argument `getProducts` builds from the query. -/
def listFilter (query : ProductsQuery) : ProductWhere :=
  { OR := match query.search with
      | some search =>
        if search = "" then none
        else some [("name", search), ("description", search), ("sku", search)]
      | none => none
    category := match query.category with
      | some category => if category = "" then none else some category
      | none => none
    isActive := query.isActive }

/-- The number `skip` of `getProducts`, `(page - 1) * limit`: the difference and the product
are JavaScript numbers, so each is rounded to the nearest double. -/
def listSkip (query : ProductsQuery) : Int :=
  jsRound (jsRound ((query.page : Int) - 1) * (query.limit : Int))

/-- The argument `{ where, skip, take: limit, orderBy }` that `getProducts` passes to
`db.product.findMany`, for a `skip` that is not negative. -/
def listArgs (query : ProductsQuery) : FindManyArgs :=
  { filter := listFilter query, skip := (listSkip query).toNat, take := query.limit,
    orderBy := (query.sortBy, query.sortOrder) }

/-- The object `result` that `getProducts` computes on a cache miss, from the rows
`findMany` returns and the number `count` returns for the same `where`. -/
def listResult (db : Database) (query : ProductsQuery) : Json :=
  let products := db.findManyProducts (listArgs query)
  let totalCount := db.countProducts (listFilter query)
  let totalPages := mathCeilDiv totalCount query.limit
  let hasNextPage := decide (query.page < totalPages)
  let hasPrevPage := decide (query.page > 1)
  .obj [("products", .arr (products.map Product.row)),
    ("pagination", .obj [("currentPage", .num query.page), ("totalPages", .num totalPages),
      ("totalCount", .num totalCount), ("limit", .num query.limit),
      ("hasNextPage", .bool hasNextPage), ("hasPrevPage", .bool hasPrevPage)])]

/-- The handler `createProduct(request, reply)`. -/
def createProduct (now : Nat) (newId : String) (w : World)
    (request : Request CreateProductBody) : World × Outcome :=
  let productData := request.body
  match request.user with
  | none => (w, .throw nullUserError)
  | some _ =>
    match w.db.findProductBySku productData.sku with
    | some _ =>
      (w, .reply ⟨409, envelope "Conflict" "Un produit avec ce SKU existe déjà"⟩)
    | none =>
      match w.db.createProduct now newId productData with
      | .error e => (w, .throw e)
      | .ok (db, product) =>
        match RedisService.del w.redis "products:*" with
        | .error e => ({ w with db := db }, .throw e)
        | .ok (redis, _) =>
          ({ w with db := db, redis := redis },
            .reply ⟨201, .obj [("message", .str "Produit créé avec succès"),
              ("product", product.row)]⟩)

/-- The handler `getProducts(request, reply)`.  The Prisma client refuses a negative `skip`
(`Invalid value for skip argument: Value can only be positive`), which `(page - 1) * limit`
is for the page 0 only; the handler rethrows the error. -/
def getProducts (now : Nat) (w : World) (query : ProductsQuery) : World × Outcome :=
  let cacheKey := listCacheKey query
  match RedisService.get w.redis now cacheKey with
  | .error e => (w, .throw e)
  | .ok cachedResult =>
    if cachedResult.truthy then (w, .reply ⟨200, cachedResult⟩)
    else if listSkip query < 0 then (w, .throw prismaValidationError)
    else
      let result := listResult w.db query
      match RedisService.set w.redis now cacheKey result (some 300) with
      | .error e => (w, .throw e)
      | .ok redis => ({ w with redis := redis }, .reply ⟨200, result⟩)

/-- The handler `getProductById(request, reply)`. -/
def getProductById (now : Nat) (w : World) (id : String) : World × Outcome :=
  let cacheKey := "product:" ++ id
  match RedisService.get w.redis now cacheKey with
  | .error e => (w, .throw e)
  | .ok cached =>
    if cached.truthy then (w, .reply ⟨200, .obj [("product", cached)]⟩)
    else
      match w.db.findProductById id with
      | none => (w, .reply ⟨404, envelope "Not Found" "Produit non trouvé"⟩)
      | some found =>
        let product := found.row
        match RedisService.set w.redis now cacheKey product (some 600) with
        | .error e => (w, .throw e)
        | .ok redis => ({ w with redis := redis }, .reply ⟨200, .obj [("product", product)]⟩)

/-- The two deletions `updateProduct` and `deleteProduct` await together,
`del('product:' + id)` and `del('products:*')`: both are sent, and an error of either is
thrown. -/
def invalidate (redis : Redis) (id : String) : Except JsError Redis :=
  match RedisService.del redis ("product:" ++ id) with
  | .error e => .error e
  | .ok (redis₁, _) =>
    match RedisService.del redis₁ "products:*" with
    | .error e => .error e
    | .ok (redis₂, _) => .ok redis₂

/-- The handler `updateProduct(request, reply)`. -/
def updateProduct (now : Nat) (w : World) (id : String)
    (request : Request UpdateProductBody) : World × Outcome :=
  let updateData := request.body
  match request.user with
  | none => (w, .throw nullUserError)
  | some _ =>
    match w.db.findProductById id with
    | none => (w, .reply ⟨404, envelope "Not Found" "Produit non trouvé"⟩)
    | some existingProduct =>
      let duplicateSku :=
        match updateData.sku with
        | some sku =>
          if sku ≠ "" ∧ sku ≠ existingProduct.sku then w.db.findOtherProductWithSku sku id
          else none
        | none => none
      match duplicateSku with
      | some _ =>
        (w, .reply ⟨409, envelope "Conflict" "Un produit avec ce SKU existe déjà"⟩)
      | none =>
        match w.db.updateProduct now id updateData with
        | .error e => (w, .throw e)
        | .ok (db, product) =>
          match invalidate w.redis id with
          | .error e => ({ w with db := db }, .throw e)
          | .ok redis =>
            ({ w with db := db, redis := redis },
              .reply ⟨200, .obj [("message", .str "Produit mis à jour avec succès"),
                ("product", product.row)]⟩)

/-- The handler `deleteProduct(request, reply)`. -/
def deleteProduct {β : Type} (w : World) (id : String) (request : Request β) :
    World × Outcome :=
  match request.user with
  | none => (w, .throw nullUserError)
  | some _ =>
    match w.db.findProductById id with
    | none => (w, .reply ⟨404, envelope "Not Found" "Produit non trouvé"⟩)
    | some _ =>
      match w.db.deleteProduct id with
      | .error e => (w, .throw e)
      | .ok db =>
        match invalidate w.redis id with
        | .error e => ({ w with db := db }, .throw e)
        | .ok redis =>
          ({ w with db := db, redis := redis },
            .reply ⟨200, .obj [("message", .str "Produit supprimé avec succès")]⟩)

/-- The object `stats` that `getProductStats` computes on a cache miss. -/
def statsResult (db : Database) : Json :=
  let totalProducts := db.countProducts {}
  let activeProducts := db.countProducts { isActive := some true }
  let inactiveProducts := db.countProducts { isActive := some false }
  let totalValue := db.sumProductPrices
  let categories := db.groupProductsByCategory
  let lowStock := db.countProducts { quantityLt := some 10, isActive := some true }
  .obj [("totalProducts", .num totalProducts), ("activeProducts", .num activeProducts),
    ("inactiveProducts", .num inactiveProducts),
    ("totalValue", .num (match totalValue with
      | some sum => sum
      | none => 0)),
    ("categoriesCount", .num categories.length),
    ("categories", .arr (categories.map (fun cat =>
      .obj [("name", .str cat.1), ("count", .num cat.2)]))),
    ("lowStockProducts", .num lowStock)]

/-- The handler `getProductStats(request, reply)`. -/
def getProductStats {β : Type} (now : Nat) (w : World) (request : Request β) :
    World × Outcome :=
  match request.user with
  | none => (w, .throw nullUserError)
  | some _ =>
    let cacheKey := "product:stats"
    match RedisService.get w.redis now cacheKey with
    | .error e => (w, .throw e)
    | .ok cached =>
      if cached.truthy then (w, .reply ⟨200, .obj [("stats", cached)]⟩)
      else
        let stats := statsResult w.db
        match RedisService.set w.redis now cacheKey stats (some 900) with
        | .error e => (w, .throw e)
        | .ok redis => ({ w with redis := redis }, .reply ⟨200, .obj [("stats", stats)]⟩)

end ProductController

/-- A request that changes the catalog. -/
inductive CatalogMutation where
  | createProduct (newId : String) (request : Request CreateProductBody)
  | updateProduct (id : String) (request : Request UpdateProductBody)
  | deleteProduct (id : String) (request : Request Unit)

/-- The handler of the request, run at time `now`. -/
def CatalogMutation.run (now : Nat) (w : World) : CatalogMutation → World × Outcome
  | .createProduct newId request => ProductController.createProduct now newId w request
  | .updateProduct id request => ProductController.updateProduct now w id request
  | .deleteProduct id request => ProductController.deleteProduct w id request

/-! ## The Joi library and `src/middleware/validation.js` -/

/-- What the validators read and replace in a Fastify request: `request.body`,
`request.query` and `request.params`. -/
structure Payload where
  body : Json
  query : Json
  params : Json

/-- A segment of the path of a validation error: a key of an object or a position in an
array. -/
inductive PathSegment where
  | key (name : String)
  | index (position : Nat)
deriving DecidableEq, Repr

/-- How `Array.prototype.join` writes a segment. -/
def PathSegment.toString : PathSegment → String
  | .key name => name
  | .index position => Nat.repr position

/-- The text `path.join('.')`. -/
def joinPath (path : List PathSegment) : String :=
  ".".intercalate (path.map PathSegment.toString)

/-- An item of `error.details`: the message and the path of one reported error. -/
structure JoiDetail where
  message : String
  path : List PathSegment
deriving DecidableEq, Repr

/-- The options of `schema.validate` that the repository sets. -/
structure JoiOptions where
  abortEarly : Bool := true
  stripUnknown : Bool := false

/-- The object `{ error, value }` that `schema.validate` returns: `error` holds the details of
the errors the schema reports, when it reports any. -/
structure JoiResult where
  error : Option (List JoiDetail)
  value : Json

/-- A Joi schema, as the function `schema.validate(data, options)`, which returns a result or
throws. -/
abbrev JoiSchema := Json → JoiOptions → Except JsError JoiResult

/-- The data `validateSchema` reads for a source (the first `switch`, with its default). -/
def Payload.read (payload : Payload) (source : String) : Json :=
  if source = "body" then payload.body
  else if source = "query" then payload.query
  else if source = "params" then payload.params
  else payload.body

/-- The data with the validated value written back for a source (the second `switch`, which
has no default). -/
def Payload.replace (payload : Payload) (source : String) (value : Json) : Payload :=
  if source = "body" then { payload with body := value }
  else if source = "query" then { payload with query := value }
  else if source = "params" then { payload with params := value }
  else payload

/-- The hook returned by `validateSchema(schema, source)`. -/
def validateSchema (schema : JoiSchema) (source : String) : Hook Payload :=
  fun request =>
    let dataToValidate := request.body.read source
    match schema dataToValidate { abortEarly := false, stripUnknown := true } with
    | .error _ =>
      (request, some ⟨500, envelope "Internal Server Error" "Erreur lors de la validation"⟩)
    | .ok result =>
      match result.error with
      | some details =>
        let validationErrors := details.map (fun detail =>
          Json.obj [("field", .str (joinPath detail.path)), ("message", .str detail.message)])
        (request,
          some ⟨400, .obj [("error", .str "Validation Error"),
            ("message", .str "Données invalides"), ("details", .arr validationErrors)]⟩)
      | none => ({ request with body := request.body.replace source result.value }, none)

/-- A rule of a `Joi.string()` schema (`min`, `max`, `pattern`, `email`), with the message it
reports when the text fails it. -/
structure JoiStringRule where
  holds : String → Bool
  message : String

/-- A key of a `Joi.object({...})` whose schema is `Joi.string()` followed by rules;
`required` holds the message of `.required()` when the key is required. -/
structure JoiStringKey where
  name : String
  rules : List JoiStringRule
  required : Option String := none

/-- The errors Joi reports for one string key of an object, all rules being tried: a missing
key fails only when required, a value that is not a string and the empty string fail for
themselves, and a text fails each rule it does not satisfy, in the order of the rules. -/
def JoiStringKey.check (key : JoiStringKey) (fields : List (String × Json)) :
    List JoiDetail :=
  match fields.lookup key.name with
  | none =>
    match key.required with
    | some message => [⟨message, [.key key.name]⟩]
    | none => []
  | some (.str text) =>
    if text = "" then [⟨"\"" ++ key.name ++ "\" is not allowed to be empty", [.key key.name]⟩]
    else
      (key.rules.filter (fun rule => !rule.holds text)).map
        (fun rule => ⟨rule.message, [.key key.name]⟩)
  | some _ => [⟨"\"" ++ key.name ++ "\" must be a string", [.key key.name]⟩]

/-- The contract of `Joi.object({...}).validate(data, options)` for an object schema of string
keys.  The keys are checked in the order of the schema; a key the schema does not name is
removed from the value under `stripUnknown` and is an error otherwise; under `abortEarly` only
the first error is reported. -/
def joiObject (keys : List JoiStringKey) : JoiSchema :=
  fun data options =>
    match data with
    | .obj fields =>
      let named := fun (kv : String × Json) => keys.any (fun key => key.name == kv.1)
      let known := keys.flatMap (fun key => key.check fields)
      let unknown :=
        if options.stripUnknown then []
        else
          (fields.filter (fun kv => !named kv)).map
            (fun kv => (⟨"\"" ++ kv.1 ++ "\" is not allowed", [.key kv.1]⟩ : JoiDetail))
      let details := known ++ unknown
      let reported := if options.abortEarly then details.take 1 else details
      .ok { error := if reported.isEmpty then none else some reported
            value := if options.stripUnknown then .obj (fields.filter named) else data }
    | _ => .ok { error := some [⟨"\"value\" must be of type object", []⟩], value := data }

/-- The property `length` of a JavaScript string: its number of UTF-16 code units. -/
def jsLength (s : String) : Nat :=
  (s.data.map (fun c => if c.toNat < 65536 then 1 else 2)).sum

/-- The characters the class `\s` of a regular expression matches. -/
def jsWhiteSpace (c : Char) : Bool :=
  let n := c.toNat
  (9 ≤ n && n ≤ 13) || n = 32 || n = 160 || n = 5760 || (8192 ≤ n && n ≤ 8202) ||
    n = 8232 || n = 8233 || n = 8239 || n = 8287 || n = 12288 || n = 65279

/-- The pattern `^[a-zA-ZÀ-ÿ\s-]+$` of the name rules. -/
def matchesNamePattern (s : String) : Bool :=
  !s.data.isEmpty && s.data.all (fun c =>
    ('a' ≤ c && c ≤ 'z') || ('A' ≤ c && c ≤ 'Z') || (192 ≤ c.toNat && c.toNat ≤ 255) ||
      jsWhiteSpace c || c = '-')

/-- The schema `updateProfileSchema` of `src/validators/authValidator.js`; the test of
`Joi.string().email()` is a parameter. -/
def updateProfileSchema (isEmail : String → Bool) : JoiSchema :=
  joiObject
    [{ name := "name",
       rules :=
         [⟨fun s => decide (2 ≤ jsLength s), "Le nom doit contenir au moins 2 caractères"⟩,
           ⟨fun s => decide (jsLength s ≤ 100), "Le nom ne peut pas dépasser 100 caractères"⟩,
           ⟨matchesNamePattern, "Le nom ne peut contenir que des lettres, espaces et tirets"⟩] },
     { name := "email", rules := [⟨isEmail, "L'email doit être valide"⟩] }]

/-- The schema `productParamsSchema` of `src/validators/productValidator.js`; the test of
`Joi.string().uuid()` is a parameter. -/
def productParamsSchema (isUuid : String → Bool) : JoiSchema :=
  joiObject
    [{ name := "id", rules := [⟨isUuid, "L'ID doit être un UUID valide"⟩],
       required := some "L'ID du produit est requis" }]

/-- The Joi schemas of `src/validators/authValidator.js` used on the protected auth routes. -/
inductive AuthSchema where
  | updateProfileSchema
  | changePasswordSchema

/-- The routes registered in the protected group of `authRoutes`. -/
inductive ProtectedAuthRoute where
  | getProfile
  | putProfile
  | putChangePassword
  | postLogout

/-- The preHandler hooks of each protected auth route, in the order Fastify runs them: the
hook `authenticate` added to the group by `addHook`, then the route's own `preHandler` array.
The hooks `validateSchema(schema)` are a parameter. -/
def protectedAuthPreHandlers {β : Type} (lib : JwtLib) (config : Config) (now : Nat)
    (validateSchema : AuthSchema → Hook β) : ProtectedAuthRoute → List (Hook β)
  | .getProfile => [authenticate lib config now]
  | .putProfile => [authenticate lib config now, validateSchema .updateProfileSchema]
  | .putChangePassword => [authenticate lib config now, validateSchema .changePasswordSchema]
  | .postLogout => [authenticate lib config now]

/-- The own properties of a value: the fields of an object; any other value has none. -/
def Json.ownFields : Json → List (String × Json)
  | .obj fields => fields
  | _ => []

/-- The profile update behind the gate: the hook `validateSchema(updateProfileSchema)` and
then, when the hook sent no reply, the handler `updateProfile` on the request as the hook
left it. -/
def putProfile (isEmail : String → Bool) (now : Nat) (w : World) (request : Request Payload) :
    World × Outcome :=
  match validateSchema (updateProfileSchema isEmail) "body" request with
  | (_, some reply) => (w, .reply reply)
  | (validated, none) =>
    AuthController.updateProfile now w
      ⟨validated.authorization, validated.user, validated.body.body.ownFields⟩

/-! ## The JSON schema of a route and Fastify's validation of it

Fastify compiles the `params` and `body` schemas a route declares
(`src/routes/productRoutes.js`) with ajv and checks every request against them before it runs
the preHandler hooks; the error of a request that fails goes to the error handler. -/

/-- What the schema of a route says of one property. -/
structure PropertySchema where
  type : String
  minLength : Option Nat := none
  maxLength : Option Nat := none
  minimum : Option Int := none
  pattern : Option String := none
  format : Option String := none
  default : Option Json := none

/-- A schema of `type: 'object'`. -/
structure ObjectSchema where
  required : List String := []
  minProperties : Option Nat := none
  properties : List (String × PropertySchema) := []

/-- The schemas of a route that Fastify checks a request against. -/
structure RouteSchema where
  params : Option ObjectSchema := none
  body : Option ObjectSchema := none

/-- The `params` schema of `PUT /products/:id` and `DELETE /products/:id`. -/
def productIdParams : ObjectSchema :=
  { required := ["id"]
    properties := [("id", { type := "string", format := some "uuid" })] }

/-- The `body` schema of `POST /products`. -/
def createProductBody : ObjectSchema :=
  { required := ["name", "price", "sku", "category"]
    properties :=
      [("name", { type := "string", minLength := some 2, maxLength := some 255 }),
        ("description", { type := "string", maxLength := some 2000 }),
        ("price", { type := "number", minimum := some 0 }),
        ("quantity", { type := "integer", minimum := some 0, default := some (.num 0) }),
        ("sku",
          { type := "string", pattern := some "^[A-Z0-9-_]+$", minLength := some 3,
            maxLength := some 50 }),
        ("category", { type := "string", minLength := some 2, maxLength := some 100 }),
        ("isActive", { type := "boolean", default := some (.bool true) })] }

/-- The `body` schema of `PUT /products/:id`. -/
def updateProductBody : ObjectSchema :=
  { minProperties := some 1
    properties :=
      [("name", { type := "string", minLength := some 2, maxLength := some 255 }),
        ("description", { type := "string", maxLength := some 2000 }),
        ("price", { type := "number", minimum := some 0 }),
        ("quantity", { type := "integer", minimum := some 0 }),
        ("sku",
          { type := "string", pattern := some "^[A-Z0-9-_]+$", minLength := some 3,
            maxLength := some 50 }),
        ("category", { type := "string", minLength := some 2, maxLength := some 100 }),
        ("isActive", { type := "boolean" })] }

/-- The schemas each admin-only route declares for the request; `GET /products/stats/overview`
declares none. -/
def adminRouteSchema : AdminRoute → RouteSchema
  | .postProducts => { body := some createProductBody }
  | .putProductsId => { params := some productIdParams, body := some updateProductBody }
  | .deleteProductsId => { params := some productIdParams }
  | .getStatsOverview => {}

/-- An error object of ajv. -/
structure AjvError where
  instancePath : String
  schemaPath : String
  keyword : String
  params : Json
  message : String

/-- The error object as the reply carries it. -/
def AjvError.toJson (error : AjvError) : Json :=
  .obj [("instancePath", .str error.instancePath), ("schemaPath", .str error.schemaPath),
    ("keyword", .str error.keyword), ("params", error.params),
    ("message", .str error.message)]

/-- The ajv library as Fastify sets it up: `validate schema data` is the data as the compiled
validator leaves it (types coerced, defaults filled in), or the errors it reports.  The
library is a parameter. -/
structure Ajv where
  validate : ObjectSchema → Json → Except (List AjvError) Json

/-- The part of the contract of ajv that the proofs use: data that lacks a key the schema
requires is rejected. -/
def Ajv.Lawful (ajv : Ajv) : Prop :=
  ∀ schema data key, key ∈ schema.required → data.ownFields.lookup key = none →
    ∃ errors, ajv.validate schema data = .error errors

/-- The message of Fastify's default `schemaErrorFormatter`. -/
def schemaErrorText (errors : List AjvError) (dataVar : String) : String :=
  ", ".intercalate
    (errors.map (fun error => dataVar ++ error.instancePath ++ " " ++ error.message))

/-- Fastify's `wrapValidationError(result, dataVar, schemaErrorFormatter)`: the error of a
request that fails its schema, with the errors of ajv as `error.validation`. -/
def wrapValidationError (errors : List AjvError) (dataVar : String) : JsError :=
  { name := "Error", message := schemaErrorText errors dataVar,
    code := some "FST_ERR_VALIDATION", statusCode := some 400,
    validation := some (.arr (errors.map AjvError.toJson)) }

/-- The check of one part of the request against its schema, if the route declares one. -/
def validatePart (ajv : Ajv) (part : Option ObjectSchema) (dataVar : String)
    (request : Request Payload) : Except JsError (Request Payload) :=
  match part with
  | none => .ok request
  | some schema =>
    match ajv.validate schema (request.body.read dataVar) with
    | .error errors => .error (wrapValidationError errors dataVar)
    | .ok data => .ok { request with body := request.body.replace dataVar data }

/-- Fastify's validation of a request against the schemas of its route: the `params`, then the
`body`; the first failure is the error. -/
def validateRequest (ajv : Ajv) (schema : RouteSchema) (request : Request Payload) :
    Except JsError (Request Payload) :=
  match validatePart ajv schema.params "params" request with
  | .error error => .error error
  | .ok checked => validatePart ajv schema.body "body" checked

/-- An admin-only route as Fastify serves a parsed request, up to the call of the handler:
the validation of the request against the schemas of the route, whose error the error handler
answers, and then the preHandler hooks.  The phases before the validation (the `onRequest`
hook of the rate limiter, the body parser) are not part of it. -/
def adminRoute (ajv : Ajv) (lib : JwtLib) (config : Config) (now : Nat)
    (validateSchema : ProductSchema → Hook Payload) (route : AdminRoute)
    (request : Request Payload) : Served Payload :=
  match validateRequest ajv (adminRouteSchema route) request with
  | .error error => .replied (errorHandler error)
  | .ok checked =>
    runPreHandlers (adminPreHandlers lib config now validateSchema route) checked

/-- One instance of `Ajv` that keeps the contract: it checks the required keys in the order
of the schema, reports the first that is missing as ajv does, and checks nothing else. -/
def requiredKeysAjv : Ajv where
  validate schema data :=
    match schema.required.find? (fun key => (data.ownFields.lookup key).isNone) with
    | some key =>
      .error
        [{ instancePath := "", schemaPath := "#/required", keyword := "required",
           params := .obj [("missingProperty", .str key)],
           message := "must have required property '" ++ key ++ "'" }]
    | none => .ok data

/-! ## The inverse of the JSON string escape -/

/-- The value of a hexadecimal digit, the inverse of `hexDigit`. -/
def hexValue (c : Char) : Nat :=
  if c.toNat < 58 then c.toNat - 48 else c.toNat - 87

/-- The character that a text written by `jsonEscapeChar` starts with, and the rest of the
text: the inverse of `jsonEscapeChar`, used to show that `JSON.stringify` loses nothing.  A
text that starts with a bare double quote starts with no escaped character. -/
def jsonUnescape : List Char → Option (Char × List Char)
  | [] => none
  | c :: rest =>
    if c.toNat = 34 then none
    else if c.toNat = 92 then
      match rest with
      | [] => none
      | d :: rest' =>
        if d.toNat = 34 then some (Char.ofNat 34, rest')
        else if d.toNat = 92 then some (Char.ofNat 92, rest')
        else if d = 'n' then some (Char.ofNat 10, rest')
        else if d = 'r' then some (Char.ofNat 13, rest')
        else if d = 't' then some (Char.ofNat 9, rest')
        else if d = 'b' then some (Char.ofNat 8, rest')
        else if d = 'f' then some (Char.ofNat 12, rest')
        else
          match rest' with
          | _ :: _ :: high :: low :: rest'' =>
            some (Char.ofNat (16 * hexValue high + hexValue low), rest'')
          | _ => none
    else some (c, rest)

/-- The invariant of the cache: no value stored under a `user:` key has a `password` field,
at any depth. -/
def CacheClean (redis : Redis) : Prop :=
  ∀ key entry, (key, entry) ∈ redis.entries → jsStartsWith key "user:" = true →
    entry.value.hasKey "password" = false

/-- What one run of a handler from the state `w` must satisfy: the reply the client receives
has no `password` field, and every cache entry after the run was there before or has no
`password` field. -/
def RunClean (w : World) (result : World × Outcome) : Prop :=
  result.2.response.body.hasKey "password" = false ∧
  ∀ key entry, (key, entry) ∈ result.1.redis.entries →
    (key, entry) ∈ w.redis.entries ∨ entry.value.hasKey "password" = false

/-! ## A wire format for tokens

One instance of `JwtLib` that reads back what it writes: the token of a `Jws` is its code
number written in unary. -/

instance : Encodable Char :=
  Encodable.ofLeftInverse Char.toNat Char.ofNat Char.ofNat_toNat

instance : Encodable String :=
  Encodable.ofLeftInverse String.data String.mk (fun _ => rfl)

/-- The fields of a `Jws`, as a tuple. -/
def Jws.toTuple (j : Jws) :
    String × String × String × String × Nat × Option Nat × Option Nat ×
      Option String × Option String :=
  (j.key, j.claims.id, j.claims.email, j.claims.role, j.claims.iat, j.claims.nbf,
    j.claims.exp, j.claims.iss, j.claims.aud)

/-- The `Jws` of a tuple of fields. -/
def Jws.ofTuple :
    String × String × String × String × Nat × Option Nat × Option Nat ×
      Option String × Option String → Jws
  | (key, id, email, role, iat, nbf, exp, iss, aud) =>
    { key := key
      claims :=
        { id := id, email := email, role := role, iat := iat, nbf := nbf, exp := exp,
          iss := iss, aud := aud } }

instance : Encodable Jws :=
  Encodable.ofLeftInverse Jws.toTuple Jws.ofTuple (fun _ => rfl)

/-- The unary token of a `Jws`: as many letters as its code number. -/
@[irreducible] def unarySerialize (j : Jws) : String :=
  ⟨List.replicate (Encodable.encode j) (Char.ofNat 120)⟩

/-- The `Jws` whose code number is the length of the string, if there is one. -/
@[irreducible] def unaryParse (s : String) : Option Jws :=
  Encodable.decode s.length

/-- The unary wire format. -/
def unaryJwt : JwtLib where
  serialize := unarySerialize
  parse := unaryParse

/-! ## Concrete tokens used at concrete inputs -/

/-- A token of another service that shares the secret: signed with it, not expired at time
10, issuer `billing-service`, no audience. -/
def foreignJws : Jws :=
  ⟨"s3cret", ⟨"u1", "eve@x.com", "ADMIN", 0, none, some 1000, some "billing-service", none⟩⟩

/-- A token of the application that expired at time 1000. -/
def expiredJws : Jws :=
  ⟨"s3cret", ⟨"u1", "ann@x.com", "USER", 0, none, some 1000, some "ecommerce-api",
    some "ecommerce-client"⟩⟩

/-- A token signed with another secret. -/
def forgedJws : Jws :=
  ⟨"guess", ⟨"u1", "ann@x.com", "ADMIN", 0, none, some 5000, some "ecommerce-api",
    some "ecommerce-client"⟩⟩

/-- A token of the application that is not active before time 5000. -/
def embargoedJws : Jws :=
  ⟨"s3cret", ⟨"u1", "ann@x.com", "USER", 0, some 5000, some 9000, some "ecommerce-api",
    some "ecommerce-client"⟩⟩

/-- The token Ann got when she logged in at time 7: it expires seven days later. -/
def annJws : Jws :=
  ⟨"s3cret", ⟨"u1", "ann@x.com", "USER", 7, none, some 604807, some "ecommerce-api",
    some "ecommerce-client"⟩⟩

/-- A `bcryptjs` without salt: the digest is the password behind a fixed header. -/
def saltlessBcrypt : Bcrypt where
  hash password := "$2a$12$" ++ password
  compare password digest := digest == "$2a$12$" ++ password

/-- The environment of the concrete inputs: the unary wire format, the saltless digest, the
secret `s3cret` and tokens that live seven days. -/
def demoEnv : Env :=
  { jwt := unaryJwt, bcrypt := saltlessBcrypt, config := ⟨"s3cret", 604800⟩ }

/-- The user Ann, registered at time 1 with the password `Passw0rd!`. -/
def ann : User :=
  { id := "u1", email := "ann@x.com", password := "$2a$12$Passw0rd!", name := "Ann",
    role := "USER", createdAt := 1, updatedAt := 1 }

/-- A state with the one user Ann and an empty, reachable cache. -/
def demoWorld : World :=
  { db := { users := [ann] }, redis := { reachable := true, entries := [] } }

/-- The state `demoWorld` after Ann logged in at time 7, with one more entry in the cache. -/
def demoWorldSession : World :=
  { db := { users := [ann] },
    redis :=
      { reachable := true,
        entries :=
          [("user:u1",
              ⟨.obj [("id", .str "u1"), ("email", .str "ann@x.com"), ("name", .str "Ann"),
                ("role", .str "USER"), ("createdAt", .num 1)], some 3607⟩),
            ("product:stats", ⟨.obj [("totalProducts", .num 0)], some 905⟩)] } }

/-- A laptop in stock. -/
def laptop : Product :=
  { id := "p1", name := "Laptop", description := some "A thin laptop", price := 99900,
    quantity := 5, sku := "LAP-1", category := "Computers", isActive := true,
    createdAt := 1, updatedAt := 1 }

/-- A mouse in stock. -/
def mouse : Product :=
  { id := "p2", name := "Mouse", description := none, price := 1999, quantity := 40,
    sku := "MOU-1", category := "Accessories", isActive := true, createdAt := 2,
    updatedAt := 2 }

/-- A cable that is no longer sold. -/
def cable : Product :=
  { id := "p3", name := "Cable", description := some "USB cable", price := 499,
    quantity := 0, sku := "CAB-1", category := "Accessories", isActive := false,
    createdAt := 3, updatedAt := 3 }

/-- A state with three products, the user Ann and an empty, reachable cache. -/
def demoShop : World :=
  { db := { users := [ann], products := [laptop, mouse, cable] },
    redis := { reachable := true, entries := [] } }

/-- The state `demoShop` with the cache out of reach. -/
def demoShopOffline : World :=
  { db := { users := [ann], products := [laptop, mouse, cable] },
    redis := { reachable := false, entries := [] } }

/-- The state `demoShop` after the laptop was read at time 5: the cache holds its row. -/
def demoShopWarm : World :=
  { db := { users := [ann], products := [laptop, mouse, cable] },
    redis := { reachable := true, entries := [("product:p1", ⟨laptop.row, some 605⟩)] } }

/-- The body of a request that adds a keyboard to the catalog. -/
def keyboardBody : CreateProductBody :=
  { name := "Keyboard", description := none, price := 4999, quantity := 12, sku := "KEY-1",
    category := "Accessories", isActive := true }

/-- The first page of the catalog, two products a page, newest first. -/
def firstPage : ProductsQuery :=
  { page := 1, limit := 2, sortBy := .createdAt, sortOrder := .desc }

/-- A page so deep that its offset is no double: page 3002399751580332, three products a
page, newest first. -/
def deepPage : ProductsQuery :=
  { page := 3002399751580332, limit := 3, sortBy := .createdAt, sortOrder := .desc }

/-- The first page with the limit written before the page in the URL, as in
`?limit=2&page=1`: the validators append `sortBy` and `sortOrder` with their defaults. -/
def limitFirst : ProductsQuery :=
  { page := 1, limit := 2, sortBy := .createdAt, sortOrder := .desc,
    order := [.limit, .page, .sortBy, .sortOrder] }

/-- The identity of an administrator. -/
def adminIdentity : Claims :=
  ⟨"u9", "root@x.com", "ADMIN", 0, none, none, none, none⟩

/-- A simple test of an address for the concrete inputs: the text holds an `@`. -/
def demoEmail (s : String) : Bool :=
  s.data.contains '@'

/-- A request to change the name to `R2`, with no token. -/
def anonymousRename : Request Payload :=
  ⟨none, none, ⟨.obj [("name", .str "R2")], .obj [], .obj []⟩⟩

/-- A request with no token and the body `{}`. -/
def anonymousEmpty : Request Payload :=
  ⟨none, none, ⟨.obj [], .obj [], .obj []⟩⟩

/-- A request with the token of Ann, whose role is USER, and the body `{}`. -/
def annEmpty : Request Payload :=
  ⟨some ("Bearer " ++ unaryJwt.serialize annJws), none, ⟨.obj [], .obj [], .obj []⟩⟩

/-- A request with no token and a body that fits the schema of `POST /products`. -/
def anonymousKeyboard : Request Payload :=
  ⟨none, none,
    ⟨.obj [("name", .str "Keyboard"), ("price", .num 50), ("sku", .str "KEY-1"),
        ("category", .str "Accessories")],
      .obj [], .obj []⟩⟩

/-- A test of the canonical form of a UUID for the concrete inputs: 36 characters, hyphens at
the positions 8, 13, 18 and 23 and hexadecimal digits elsewhere. -/
def demoUuid (s : String) : Bool :=
  s.length == 36 && (List.range 36).all (fun i =>
    let c := s.data.getD i ' '
    if i = 8 ∨ i = 13 ∨ i = 18 ∨ i = 23 then c == '-'
    else c.isDigit || ('a' ≤ c && c ≤ 'f') || ('A' ≤ c && c ≤ 'F'))

/-! ## Lemmas shared by the proofs -/

theorem unaryJwt_lawful : unaryJwt.Lawful := by
  intro j
  show unaryParse (unarySerialize j) = some j
  unfold unaryParse unarySerialize
  have hlen : (String.mk (List.replicate (Encodable.encode j) (Char.ofNat 120))).length
      = Encodable.encode j := List.length_replicate _ _
  rw [hlen]
  exact Encodable.encodek j

theorem unaryJwt_parse_serialize (j : Jws) : unaryJwt.parse (unaryJwt.serialize j) = some j :=
  unaryJwt_lawful j

theorem bearer_append_data (s : String) :
    ("Bearer " ++ s).data = 'B' :: 'e' :: 'a' :: 'r' :: 'e' :: 'r' :: ' ' :: s.data := by
  rw [String.data_append]
  rfl

theorem jsStartsWith_bearer_append (s : String) :
    jsStartsWith ("Bearer " ++ s) "Bearer " = true := by
  unfold jsStartsWith
  rw [bearer_append_data]
  simp [List.isPrefixOf]

theorem jsSubstring_bearer_append (s : String) : jsSubstring ("Bearer " ++ s) 7 = s := by
  unfold jsSubstring
  rw [bearer_append_data]
  rfl

theorem bearerToken_bearer_append {β : Type} (request : Request β) (s : String)
    (h : request.authorization = some ("Bearer " ++ s)) : bearerToken request = some s := by
  simp [bearerToken, h, jsStartsWith_bearer_append, jsSubstring_bearer_append]

/-- On a token a lawful library wrote, `jwt.verify` runs its checks on what was signed. -/
theorem jwtVerify_serialize (lib : JwtLib) (hlaw : lib.Lawful) (now : Nat) (j : Jws)
    (secret : String) (options : VerifyOptions) :
    jwtVerify lib now (lib.serialize j) secret options =
      if j.key ≠ secret then .error ⟨.JsonWebTokenError, "invalid signature"⟩
      else if j.claims.nbf.any (fun nbf => nbf > now) then
        .error ⟨.NotBeforeError, "jwt not active"⟩
      else if j.claims.exp.any (fun exp => now ≥ exp) then
        .error ⟨.TokenExpiredError, "jwt expired"⟩
      else if options.audience.any (fun audience => j.claims.aud ≠ some audience) then
        .error ⟨.JsonWebTokenError, "jwt audience invalid"⟩
      else if options.issuer.any (fun issuer => j.claims.iss ≠ some issuer) then
        .error ⟨.JsonWebTokenError, "jwt issuer invalid"⟩
      else .ok j.claims := by
  unfold jwtVerify
  rw [hlaw j]

theorem jsStartsWith_empty : jsStartsWith "" "Bearer " = false := rfl

/-- What `authenticate` does, by the three ways a request can arrive. -/
theorem authenticate_eq {β : Type} (lib : JwtLib) (config : Config) (now : Nat)
    (request : Request β) :
    authenticate lib config now request =
      match bearerToken request with
      | none =>
        (request, some ⟨401, envelope "Unauthorized" "Token d'authentification manquant"⟩)
      | some token =>
        match jwtVerify lib now token config.jwtSecret {} with
        | .ok decoded => ({ request with user := some decoded }, none)
        | .error _ =>
          (request,
            some ⟨401, envelope "Unauthorized" "Token d'authentification invalide"⟩) := by
  unfold authenticate bearerToken
  cases hauth : request.authorization with
  | none => rfl
  | some authHeader =>
    by_cases hpre : jsStartsWith authHeader "Bearer " = true
    · have hne : authHeader ≠ "" := by
        intro h
        rw [h, jsStartsWith_empty] at hpre
        exact Bool.noConfusion hpre
      simp [hpre, hne]
    · simp [hpre]

/-- Every admin-only route starts with `authenticate`, then `authorize(['ADMIN'])`. -/
theorem adminPreHandlers_shape {β : Type} (lib : JwtLib) (config : Config) (now : Nat)
    (validateSchema : ProductSchema → Hook β) (route : AdminRoute) :
    ∃ rest, adminPreHandlers lib config now validateSchema route
      = authenticate lib config now :: authorizeHook ["ADMIN"] :: rest := by
  cases route <;> exact ⟨_, rfl⟩

/-- A token signed with the shared secret, not expired, whose audience or issuer is not the
one `verifyToken` asks for: the gate accepts it, the Token service rejects it. -/
theorem gate_accepts_service_rejects {β : Type} (lib : JwtLib) (hlaw : lib.Lawful)
    (config : Config) (now : Nat) (j : Jws) (request : Request β)
    (hreq : request.authorization = some ("Bearer " ++ lib.serialize j))
    (hkey : j.key = config.jwtSecret) (hnbf : j.claims.nbf = none)
    (hexp : j.claims.exp.any (fun exp => now ≥ exp) = false)
    (hforeign : j.claims.aud ≠ some "ecommerce-client" ∨
      j.claims.iss ≠ some "ecommerce-api") :
    authenticate lib config now request = ({ request with user := some j.claims }, none) ∧
    JWTService.verifyToken lib config now (lib.serialize j) = .error "Token invalide" := by
  constructor
  · rw [authenticate_eq, bearerToken_bearer_append _ _ hreq]
    simp only []
    rw [jwtVerify_serialize lib hlaw]
    simp [hkey, hnbf, hexp]
  · unfold JWTService.verifyToken
    rw [jwtVerify_serialize lib hlaw]
    rcases hforeign with h | h
    · simp [hkey, hnbf, hexp, h]
    · by_cases haud : j.claims.aud = some "ecommerce-client"
      · simp [hkey, hnbf, hexp, h, haud]
      · simp [hkey, hnbf, hexp, haud]

theorem findUniqueByEmail_of_mem (db : Database) (email : String)
    (h : ∃ u ∈ db.users, u.email = email) : ∃ u, db.findUniqueByEmail email = some u := by
  obtain ⟨u, hu, he⟩ := h
  cases hfind : db.findUniqueByEmail email with
  | some v => exact ⟨v, rfl⟩
  | none =>
    have hnone := List.find?_eq_none.mp hfind u hu
    simp [he] at hnone

theorem findUniqueByEmail_of_not_mem (db : Database) (email : String)
    (h : ∀ u ∈ db.users, u.email ≠ email) : db.findUniqueByEmail email = none := by
  apply List.find?_eq_none.mpr
  intro u hu
  simp [h u hu]

theorem any_email_of_not_mem (db : Database) (email : String)
    (h : ∀ u ∈ db.users, u.email ≠ email) :
    db.users.any (fun u => u.email == email) = false := by
  rw [List.any_eq_false]
  intro u hu
  simp [h u hu]

theorem registerSchemaRole_ok (supplied validated : Option String)
    (h : registerSchemaRole supplied = .ok validated) :
    jsOrString validated "USER" = if supplied = some "ADMIN" then "ADMIN" else "USER" := by
  unfold registerSchemaRole at h
  cases supplied with
  | none =>
    cases h
    rfl
  | some role =>
    by_cases hrole : role = "USER" ∨ role = "ADMIN"
    · simp only [hrole, if_true] at h
      cases h
      rcases hrole with hr | hr <;> subst hr <;> rfl
    · simp only [hrole, if_false] at h
      exact Except.noConfusion h

/-- A token `generateToken` issued verifies with `verifyToken` until it expires, and gives
back the identity claims it was issued for. -/
theorem verifyToken_generateToken (lib : JwtLib) (hlaw : lib.Lawful) (config : Config)
    (now later : Nat) (id email role : String) (hbefore : later < now + config.jwtExpiresIn) :
    JWTService.verifyToken lib config later (JWTService.generateToken lib config now id email role)
      = .ok { id := id, email := email, role := role, iat := now, nbf := none,
              exp := some (now + config.jwtExpiresIn), iss := some "ecommerce-api",
              aud := some "ecommerce-client" } := by
  unfold JWTService.verifyToken JWTService.generateToken jwtSign
  rw [jwtVerify_serialize lib hlaw]
  have hnot : ¬ (now + config.jwtExpiresIn ≤ later) := Nat.not_le.mpr hbefore
  simp [hnot]

/-! ### The cache invariant -/

theorem jsStartsWith_user_append (s : String) : jsStartsWith ("user:" ++ s) "user:" = true := by
  have hdata : ("user:" ++ s).data = 'u' :: 's' :: 'e' :: 'r' :: ':' :: s.data := by
    rw [String.data_append]
    rfl
  unfold jsStartsWith
  rw [hdata]
  simp [List.isPrefixOf]

theorem hasKey_obj (key : String) (fields : List (String × Json)) :
    (Json.obj fields).hasKey key = Json.hasKeyFields key fields := by
  rw [Json.hasKey]

theorem hasKey_str (key s : String) : (Json.str s).hasKey key = false := by
  rw [Json.hasKey]

theorem hasKeyFields_nil (key : String) : Json.hasKeyFields key [] = false := by
  rw [Json.hasKeyFields]

theorem hasKeyFields_cons (key k : String) (v : Json) (rest : List (String × Json)) :
    Json.hasKeyFields key ((k, v) :: rest)
      = (k == key || Json.hasKey key v || Json.hasKeyFields key rest) := by
  rw [Json.hasKeyFields]

theorem select_register_clean (user : User) :
    (user.select ["id", "email", "name", "role", "createdAt"]).hasKey "password" = false := by
  simp [User.select, User.row, List.filter, Json.hasKey, Json.hasKeyFields]

theorem select_profile_clean (user : User) :
    (user.select ["id", "email", "name", "role", "createdAt", "updatedAt"]).hasKey "password"
      = false := by
  simp [User.select, User.row, List.filter, Json.hasKey, Json.hasKeyFields]

theorem envelope_clean (error message : String) :
    (envelope error message).hasKey "password" = false := by
  simp [envelope, Json.hasKey, Json.hasKeyFields]

theorem errorHandler_clean (error : JsError) (h : error.validation = none) :
    (errorHandler error).body.hasKey "password" = false := by
  unfold errorHandler
  simp only [h, Option.any_none]
  split
  · exact envelope_clean _ _
  · split
    · exact envelope_clean _ _
    · split
      · rename_i hfalse
        exact absurd hfalse (by decide)
      · split
        · exact envelope_clean _ _
        · exact envelope_clean _ _

theorem mem_put (redis : Redis) (key : String) (entry : CacheEntry) (k : String)
    (e : CacheEntry) (h : (k, e) ∈ (redis.put key entry).entries) :
    (k, e) ∈ redis.entries ∨ (k = key ∧ e = entry) := by
  unfold Redis.put at h
  simp only [List.mem_cons, Prod.mk.injEq, List.mem_filter] at h
  rcases h with h | h
  · exact Or.inr h
  · exact Or.inl h.1

theorem mem_set (redis redis' : Redis) (now : Nat) (key : String) (value : Json)
    (ttl : Option Nat) (hset : RedisService.set redis now key value ttl = .ok redis')
    (k : String) (e : CacheEntry) (h : (k, e) ∈ redis'.entries) :
    (k, e) ∈ redis.entries ∨ (k = key ∧ e.value = value) := by
  unfold RedisService.set at hset
  split at hset
  · exact Except.noConfusion hset
  · split at hset
    · cases hset
      rcases mem_put _ _ _ _ _ h with h | ⟨hk, he⟩
      · exact Or.inl h
      · exact Or.inr ⟨hk, by rw [he]⟩
    · cases hset
      rcases mem_put _ _ _ _ _ h with h | ⟨hk, he⟩
      · exact Or.inl h
      · exact Or.inr ⟨hk, by rw [he]⟩

theorem mem_del (redis redis' : Redis) (key : String) (removed : Bool)
    (hdel : RedisService.del redis key = .ok (redis', removed))
    (k : String) (e : CacheEntry) (h : (k, e) ∈ redis'.entries) : (k, e) ∈ redis.entries := by
  unfold RedisService.del at hdel
  split at hdel
  · exact Except.noConfusion hdel
  · cases hdel
    exact (List.mem_filter.mp h).1

theorem get_clean (redis : Redis) (hclean : CacheClean redis) (now : Nat) (key : String)
    (hkey : jsStartsWith key "user:" = true) (value : Json)
    (hget : RedisService.get redis now key = .ok value) : value.hasKey "password" = false := by
  unfold RedisService.get at hget
  split at hget
  · exact Except.noConfusion hget
  · split at hget
    · cases hget
      rfl
    · rename_i entry hfind
      have hmem : (key, entry) ∈ redis.entries := by
        unfold Redis.find at hfind
        cases hf : redis.entries.find? (fun kv => kv.1 == key) with
        | none => simp [hf] at hfind
        | some kv =>
          simp only [hf, Option.map_some', Option.some.injEq] at hfind
          have hk := List.find?_some hf
          have hm := List.mem_of_find?_eq_some hf
          simp only [beq_iff_eq] at hk
          rw [← hfind, ← hk]
          exact hm
      split at hget
      · cases hget
        rfl
      · cases hget
        exact hclean key entry hmem hkey

theorem set_error (redis : Redis) (now : Nat) (key : String) (value : Json)
    (ttl : Option Nat) (e : JsError) (h : RedisService.set redis now key value ttl = .error e) :
    e.validation = none := by
  unfold RedisService.set at h
  split at h
  · cases h
    rfl
  · split at h <;> exact Except.noConfusion h

theorem get_error (redis : Redis) (now : Nat) (key : String) (e : JsError)
    (h : RedisService.get redis now key = .error e) : e.validation = none := by
  unfold RedisService.get at h
  split at h
  · cases h
    rfl
  · split at h
    · exact Except.noConfusion h
    · split at h <;> exact Except.noConfusion h

theorem del_error (redis : Redis) (key : String) (e : JsError)
    (h : RedisService.del redis key = .error e) : e.validation = none := by
  unfold RedisService.del at h
  split at h
  · cases h
    rfl
  · exact Except.noConfusion h

theorem create_error (db : Database) (now : Nat) (newId email password name role : String)
    (e : JsError) (h : db.create now newId email password name role = .error e) :
    e.validation = none := by
  unfold Database.create at h
  split at h
  · cases h
    rfl
  · exact Except.noConfusion h

theorem applyData_error (data : List (String × Json)) (user : User) (e : JsError)
    (h : Database.applyData data user = .error e) : e.validation = none := by
  induction data generalizing user with
  | nil => exact Except.noConfusion h
  | cons kv rest ih =>
    unfold Database.applyData at h
    split at h
    · exact Except.noConfusion h
    all_goals first
      | (rename_i heq; cases heq; exact ih _ h)
      | (cases h; rfl)

theorem update_error (db : Database) (now : Nat) (id : String) (data : List (String × Json))
    (e : JsError) (h : db.update now id data = .error e) : e.validation = none := by
  unfold Database.update at h
  split at h
  · cases h
    rfl
  · split at h
    · rename_i e' happly
      cases h
      exact applyData_error _ _ _ happly
    · dsimp only at h
      split at h
      · cases h
        rfl
      · exact Except.noConfusion h

theorem runClean_reply (w : World) (db : Database) (sent : Reply)
    (h : sent.body.hasKey "password" = false) :
    RunClean w ({ w with db := db }, .reply sent) :=
  ⟨h, fun _ _ hmem => Or.inl hmem⟩

theorem runClean_throw (w : World) (db : Database) (e : JsError) (h : e.validation = none) :
    RunClean w ({ w with db := db }, .throw e) :=
  ⟨errorHandler_clean e h, fun _ _ hmem => Or.inl hmem⟩

theorem runClean_set (w : World) (db : Database) (redis : Redis) (now : Nat) (key : String)
    (value : Json) (ttl : Option Nat) (sent : Reply)
    (hset : RedisService.set w.redis now key value ttl = .ok redis)
    (hvalue : value.hasKey "password" = false)
    (hsent : sent.body.hasKey "password" = false) :
    RunClean w ({ w with db := db, redis := redis }, .reply sent) := by
  refine ⟨hsent, fun k e hmem => ?_⟩
  rcases mem_set _ _ _ _ _ _ hset k e hmem with h | ⟨_, he⟩
  · exact Or.inl h
  · exact Or.inr (by rw [he]; exact hvalue)

theorem register_clean (env : Env) (now : Nat) (newId : String) (w : World)
    (request : Request RegisterBody) :
    RunClean w (AuthController.register env now newId w request) := by
  unfold AuthController.register
  dsimp only
  split
  · exact runClean_reply w w.db _ (envelope_clean _ _)
  · split
    · rename_i e he
      exact runClean_throw w w.db e (create_error _ _ _ _ _ _ _ e he)
    · rename_i db created hc
      split
      · rename_i e he
        exact runClean_throw w db e (set_error _ _ _ _ _ e he)
      · rename_i redis hs
        refine runClean_set w db redis _ _ _ _ _ hs (select_register_clean _) ?_
        simp [hasKey_obj, hasKeyFields_cons, hasKeyFields_nil, hasKey_str,
          select_register_clean]

theorem login_clean (env : Env) (now : Nat) (w : World) (request : Request LoginBody) :
    RunClean w (AuthController.login env now w request) := by
  unfold AuthController.login
  dsimp only
  split
  · exact runClean_reply w w.db _ (envelope_clean _ _)
  · split
    · exact runClean_reply w w.db _ (envelope_clean _ _)
    · split
      · rename_i e he
        exact runClean_throw w w.db e (set_error _ _ _ _ _ e he)
      · rename_i redis hs
        refine runClean_set w w.db redis _ _ _ _ _ hs ?_ ?_
        · simp [Json.hasKey, Json.hasKeyFields]
        · simp [Json.hasKey, Json.hasKeyFields]

theorem getProfile_clean {β : Type} (now : Nat) (w : World) (request : Request β)
    (hclean : CacheClean w.redis) : RunClean w (AuthController.getProfile now w request) := by
  unfold AuthController.getProfile
  split
  · exact runClean_throw w w.db _ rfl
  · dsimp only
    split
    · rename_i e he
      exact runClean_throw w w.db e (get_error _ _ _ e he)
    · rename_i cached hget
      have hcached := get_clean w.redis hclean now _ (jsStartsWith_user_append _) cached hget
      split
      · refine runClean_reply w w.db _ ?_
        simp [hasKey_obj, hasKeyFields_cons, hasKeyFields_nil, hcached]
      · split
        · exact runClean_reply w w.db _ (envelope_clean _ _)
        · split
          · rename_i e he
            exact runClean_throw w w.db e (set_error _ _ _ _ _ e he)
          · rename_i redis hs
            refine runClean_set w w.db redis _ _ _ _ _ hs (select_profile_clean _) ?_
            simp [hasKey_obj, hasKeyFields_cons, hasKeyFields_nil, select_profile_clean]

theorem emailConflict_clean (w : World) (userId : String) (updateData : List (String × Json))
    (ended : Outcome) (h : AuthController.emailConflict w userId updateData = some ended) :
    ended.response.body.hasKey "password" = false := by
  unfold AuthController.emailConflict at h
  split at h
  · exact Option.noConfusion h
  · split at h
    · exact Option.noConfusion h
    · split at h
      · cases h
        exact envelope_clean _ _
      · exact Option.noConfusion h
  · split at h
    · cases h
      exact errorHandler_clean _ rfl
    · exact Option.noConfusion h

theorem updateProfile_clean (now : Nat) (w : World)
    (request : Request (List (String × Json))) :
    RunClean w (AuthController.updateProfile now w request) := by
  unfold AuthController.updateProfile
  split
  · exact runClean_throw w w.db _ rfl
  · dsimp only
    split
    · rename_i ended hended
      exact ⟨emailConflict_clean _ _ _ _ hended, fun _ _ hmem => Or.inl hmem⟩
    · split
      · rename_i e he
        exact runClean_throw w w.db e (update_error _ _ _ _ e he)
      · rename_i db updated hu
        split
        · rename_i e he
          exact runClean_throw w db e (set_error _ _ _ _ _ e he)
        · rename_i redis hs
          refine runClean_set w db redis _ _ _ _ _ hs (select_profile_clean _) ?_
          simp [hasKey_obj, hasKeyFields_cons, hasKeyFields_nil, hasKey_str,
            select_profile_clean]

theorem changePassword_clean (env : Env) (now : Nat) (w : World)
    (request : Request ChangePasswordBody) :
    RunClean w (AuthController.changePassword env now w request) := by
  unfold AuthController.changePassword
  split
  · exact runClean_throw w w.db _ rfl
  · dsimp only
    split
    · exact runClean_reply w w.db _ (envelope_clean _ _)
    · split
      · exact runClean_reply w w.db _ (envelope_clean _ _)
      · split
        · rename_i e he
          exact runClean_throw w w.db e (update_error _ _ _ _ e he)
        · rename_i db updated hu
          refine runClean_reply w db _ ?_
          simp [Json.hasKey, Json.hasKeyFields]

theorem logout_clean {β : Type} (w : World) (request : Request β) :
    RunClean w (AuthController.logout w request) := by
  unfold AuthController.logout
  split
  · exact runClean_throw w w.db _ rfl
  · dsimp only
    split
    · rename_i e he
      exact runClean_throw w w.db e (del_error _ _ e he)
    · rename_i redis removed hd
      refine ⟨?_, fun k e hmem => Or.inl (mem_del _ _ _ _ hd k e hmem)⟩
      simp [Outcome.response, Json.hasKey, Json.hasKeyFields]

theorem run_clean (env : Env) (now : Nat) (w : World) (op : AuthOp)
    (hclean : CacheClean w.redis) : RunClean w (op.run env now w) := by
  cases op with
  | register newId request => exact register_clean env now newId w request
  | login request => exact login_clean env now w request
  | getProfile request => exact getProfile_clean now w request hclean
  | updateProfile request => exact updateProfile_clean now w request
  | changePassword request => exact changePassword_clean env now w request
  | logout request => exact logout_clean w request

theorem reachable_clean (env : Env) (w : World) (h : Reachable env w) : CacheClean w.redis := by
  induction h with
  | init db reachable =>
    intro key entry hmem
    exact absurd hmem (List.not_mem_nil _)
  | auth now op w _ ih =>
    intro key entry hmem hkey
    rcases (run_clean env now w op ih).2 key entry hmem with hold | hnew
    · exact ih key entry hold hkey
    · exact hnew
  | catalogWrite key entry w hkey _ ih =>
    intro k e hmem hk
    rcases mem_put _ _ _ _ _ hmem with hold | ⟨heq, _⟩
    · exact ih k e hold hk
    · rw [heq, hkey] at hk
      exact Bool.noConfusion hk
  | catalogDelete key w _ ih =>
    intro k e hmem hk
    exact ih k e (List.mem_filter.mp hmem).1 hk
  | connection reachable w _ ih =>
    intro k e hmem hk
    exact ih k e hmem hk

/-! ## Theorems: the gates -/

/-- C1: `authorize(roles)` depends only on the attached identity and the allow-list; it
replies 401 Unauthorized when no identity is attached, 403 Forbidden when an identity is
attached whose role is not in a non-empty allow-list, and sends no reply in every other case
(role in the list, or empty allow-list). -/
theorem authorize_contract {β γ : Type} (roles : List String) (request : Request β) :
    (∀ other : Request γ, other.user = request.user →
        authorize roles other = authorize roles request) ∧
    (request.user = none →
        authorize roles request
          = some ⟨401, envelope "Unauthorized" "Authentification requise"⟩) ∧
    (∀ user, request.user = some user → roles ≠ [] → user.role ∉ roles →
        authorize roles request
          = some ⟨403, envelope "Forbidden" "Permissions insuffisantes"⟩) ∧
    (∀ user, request.user = some user → (user.role ∈ roles ∨ roles = []) →
        authorize roles request = none) := by
  refine ⟨?_, ?_, ?_, ?_⟩
  · intro other h
    simp only [authorize, h]
  · intro h
    simp only [authorize, h]
  · intro user h hne hnot
    have hlen : roles.length ≠ 0 := by
      intro h0
      exact hne (List.length_eq_zero.mp h0)
    simp [authorize, h, hlen, hnot]
  · intro user h hin
    rcases hin with hin | hnil
    · simp [authorize, h, hin]
    · simp [authorize, h, hnil]

/-- The preHandler hooks of an admin-only route: a request without a valid bearer token is
answered 401 Unauthorized, a request whose valid token has a role other than ADMIN is
answered 403 Forbidden, and the hooks pass the request on to the handler only for a valid
token whose role claim is ADMIN. -/
theorem adminPreHandlers_gate {β : Type} (lib : JwtLib) (config : Config) (now : Nat)
    (validateSchema : ProductSchema → Hook β) (route : AdminRoute) (request : Request β) :
    ((∀ token decoded, bearerToken request = some token →
          jwtVerify lib now token config.jwtSecret {} ≠ .ok decoded) →
        ∃ message,
          runPreHandlers (adminPreHandlers lib config now validateSchema route) request
            = .replied ⟨401, envelope "Unauthorized" message⟩) ∧
    (∀ token decoded, bearerToken request = some token →
        jwtVerify lib now token config.jwtSecret {} = .ok decoded →
        decoded.role ≠ "ADMIN" →
        runPreHandlers (adminPreHandlers lib config now validateSchema route) request
          = .replied ⟨403, envelope "Forbidden" "Permissions insuffisantes"⟩) ∧
    (∀ request', runPreHandlers (adminPreHandlers lib config now validateSchema route) request
          = .handler request' →
        ∃ token decoded, bearerToken request = some token ∧
          jwtVerify lib now token config.jwtSecret {} = .ok decoded ∧
          decoded.role = "ADMIN") := by
  obtain ⟨rest, hshape⟩ := adminPreHandlers_shape lib config now validateSchema route
  rw [hshape]
  have hauth := authenticate_eq lib config now request
  cases htok : bearerToken request with
  | none =>
    simp only [htok] at hauth
    refine ⟨fun _ => ⟨"Token d'authentification manquant", ?_⟩, ?_, ?_⟩
    · simp only [runPreHandlers, hauth]
    · intro token decoded h
      exact Option.noConfusion h
    · intro request' h
      simp [runPreHandlers, hauth] at h
  | some token =>
    simp only [htok] at hauth
    cases hver : jwtVerify lib now token config.jwtSecret {} with
    | error e =>
      simp only [hver] at hauth
      refine ⟨fun _ => ⟨"Token d'authentification invalide", ?_⟩, ?_, ?_⟩
      · simp only [runPreHandlers, hauth]
      · intro token' decoded h hv
        cases h
        rw [hver] at hv
        exact Except.noConfusion hv
      · intro request' h
        simp [runPreHandlers, hauth] at h
    | ok claims =>
      simp only [hver] at hauth
      refine ⟨?_, ?_, ?_⟩
      · intro hno
        exact absurd hver (hno token claims rfl)
      · intro token' decoded h hv hrole
        cases h
        rw [hver] at hv
        cases hv
        simp [runPreHandlers, hauth, authorizeHook, authorize, hrole]
      · intro request' h
        refine ⟨token, claims, rfl, hver, ?_⟩
        by_contra hrole
        simp [runPreHandlers, hauth, authorizeHook, authorize, hrole] at h

theorem errorHandler_validation (errors : List AjvError) (dataVar : String) :
    errorHandler (wrapValidationError errors dataVar)
      = ⟨400, .obj [("error", .str "Validation Error"), ("message", .str "Données invalides"),
          ("details", .arr (errors.map AjvError.toJson))]⟩ := by
  simp [errorHandler, wrapValidationError, Json.truthy]

theorem validatePart_error (ajv : Ajv) (part : Option ObjectSchema) (dataVar : String)
    (request : Request Payload) (error : JsError)
    (h : validatePart ajv part dataVar request = .error error) :
    ∃ errors, error = wrapValidationError errors dataVar := by
  unfold validatePart at h
  cases part with
  | none => exact Except.noConfusion h
  | some schema =>
    simp only at h
    cases hrun : ajv.validate schema (request.body.read dataVar) with
    | error errors =>
      rw [hrun] at h
      exact ⟨errors, (Except.error.inj h).symm⟩
    | ok data =>
      rw [hrun] at h
      exact Except.noConfusion h

theorem validatePart_header (ajv : Ajv) (part : Option ObjectSchema) (dataVar : String)
    (request checked : Request Payload)
    (h : validatePart ajv part dataVar request = .ok checked) :
    checked.authorization = request.authorization := by
  unfold validatePart at h
  cases part with
  | none =>
    cases h
    rfl
  | some schema =>
    simp only at h
    cases hrun : ajv.validate schema (request.body.read dataVar) with
    | error errors =>
      rw [hrun] at h
      exact Except.noConfusion h
    | ok data =>
      rw [hrun] at h
      cases h
      rfl

/-- The error of a request that fails the schemas of its route is answered 400. -/
theorem validateRequest_error (ajv : Ajv) (schema : RouteSchema) (request : Request Payload)
    (error : JsError) (h : validateRequest ajv schema request = .error error) :
    ∃ details, errorHandler error
      = ⟨400, .obj [("error", .str "Validation Error"), ("message", .str "Données invalides"),
          ("details", .arr details)]⟩ := by
  unfold validateRequest at h
  cases hparams : validatePart ajv schema.params "params" request with
  | error e =>
    rw [hparams] at h
    cases h
    obtain ⟨errors, he⟩ := validatePart_error ajv _ _ _ _ hparams
    exact ⟨_, he ▸ errorHandler_validation errors "params"⟩
  | ok checked =>
    rw [hparams] at h
    obtain ⟨errors, he⟩ := validatePart_error ajv _ _ _ _ h
    exact ⟨_, he ▸ errorHandler_validation errors "body"⟩

/-- The validation of a request leaves its `authorization` header as it was. -/
theorem validateRequest_header (ajv : Ajv) (schema : RouteSchema)
    (request checked : Request Payload)
    (h : validateRequest ajv schema request = .ok checked) :
    bearerToken checked = bearerToken request := by
  unfold validateRequest at h
  cases hparams : validatePart ajv schema.params "params" request with
  | error e =>
    rw [hparams] at h
    exact Except.noConfusion h
  | ok middle =>
    rw [hparams] at h
    have h₁ := validatePart_header ajv _ _ _ _ hparams
    have h₂ := validatePart_header ajv _ _ _ _ h
    unfold bearerToken
    rw [h₂, h₁]

/-- A lawful ajv rejects a body of `POST /products` that lacks a required key. -/
theorem postProducts_required (ajv : Ajv) (hlaw : ajv.Lawful) (request : Request Payload)
    (key : String) (hkey : key ∈ ["name", "price", "sku", "category"])
    (hmissing : request.body.body.ownFields.lookup key = none) :
    ∃ error, validateRequest ajv (adminRouteSchema .postProducts) request = .error error := by
  obtain ⟨errors, herrors⟩ := hlaw createProductBody request.body.body key hkey hmissing
  have hread : request.body.read "body" = request.body.body := rfl
  refine ⟨wrapValidationError errors "body", ?_⟩
  simp only [validateRequest, adminRouteSchema, validatePart, hread, herrors]

theorem requiredKeysAjv_lawful : requiredKeysAjv.Lawful := by
  intro schema data key hkey hmissing
  cases hfind : schema.required.find? (fun key => (data.ownFields.lookup key).isNone) with
  | none =>
    have hnone := List.find?_eq_none.mp hfind key hkey
    simp [hmissing] at hnone
  | some found =>
    refine ⟨[⟨"", "#/required", "required", .obj [("missingProperty", .str found)],
      "must have required property '" ++ found ++ "'"⟩], ?_⟩
    simp only [requiredKeysAjv, hfind]

/-- C2, counterexample: `POST /products` with no token and the body `{}`.  The schema of the
route requires `name`, so Fastify answers 400 before any hook runs, not 401; and the same
body with the valid token of Ann, whose role is USER, is answered 400, not 403. -/
theorem admin_route_schema_first :
    (∀ token decoded, bearerToken anonymousEmpty = some token →
        jwtVerify unaryJwt 10 token "s3cret" {} ≠ .ok decoded) ∧
    adminRoute requiredKeysAjv unaryJwt ⟨"s3cret", 604800⟩ 10
        (fun _ request => (request, none)) .postProducts anonymousEmpty
      = .replied ⟨400, .obj [("error", .str "Validation Error"),
          ("message", .str "Données invalides"),
          ("details", .arr [.obj [("instancePath", .str ""),
            ("schemaPath", .str "#/required"), ("keyword", .str "required"),
            ("params", .obj [("missingProperty", .str "name")]),
            ("message", .str "must have required property 'name'")]])]⟩ ∧
    bearerToken annEmpty = some (unaryJwt.serialize annJws) ∧
    jwtVerify unaryJwt 10 (unaryJwt.serialize annJws) "s3cret" {} = .ok annJws.claims ∧
    annJws.claims.role ≠ "ADMIN" ∧
    adminRoute requiredKeysAjv unaryJwt ⟨"s3cret", 604800⟩ 10
        (fun _ request => (request, none)) .postProducts annEmpty
      = .replied ⟨400, .obj [("error", .str "Validation Error"),
          ("message", .str "Données invalides"),
          ("details", .arr [.obj [("instancePath", .str ""),
            ("schemaPath", .str "#/required"), ("keyword", .str "required"),
            ("params", .obj [("missingProperty", .str "name")]),
            ("message", .str "must have required property 'name'")]])]⟩ := by
  refine ⟨?_, rfl, bearerToken_bearer_append _ _ rfl, ?_, by decide, rfl⟩
  · intro token decoded h
    exact Option.noConfusion h
  · rw [jwtVerify_serialize unaryJwt unaryJwt_lawful]
    simp [annJws]

/-- C2, amended: on every admin-only product route Fastify first checks the request against
the schemas the route declares, and a request that fails them is answered 400 Validation
Error whatever its token; a lawful ajv rejects so every body of `POST /products` that lacks
`name`, `price`, `sku` or `category`.  For a request that passes the schemas of the route,
as every request to `GET /products/stats/overview` does, the gates decide: without a valid
bearer token the reply is 401 Unauthorized and never 403, with a valid token whose role is
not ADMIN it is 403 Forbidden.  The handler is reached only when the token is valid and its
role claim is ADMIN. -/
theorem admin_routes_gate_after_schema (ajv : Ajv) (lib : JwtLib) (config : Config)
    (now : Nat) (validateSchema : ProductSchema → Hook Payload) (route : AdminRoute)
    (request : Request Payload) :
    (∀ error, validateRequest ajv (adminRouteSchema route) request = .error error →
      ∃ details, adminRoute ajv lib config now validateSchema route request
        = .replied ⟨400, .obj [("error", .str "Validation Error"),
            ("message", .str "Données invalides"), ("details", .arr details)]⟩) ∧
    (ajv.Lawful → ∀ key ∈ ["name", "price", "sku", "category"],
      request.body.body.ownFields.lookup key = none →
      ∃ details, adminRoute ajv lib config now validateSchema .postProducts request
        = .replied ⟨400, .obj [("error", .str "Validation Error"),
            ("message", .str "Données invalides"), ("details", .arr details)]⟩) ∧
    (∀ checked, validateRequest ajv (adminRouteSchema route) request = .ok checked →
      ((∀ token decoded, bearerToken request = some token →
            jwtVerify lib now token config.jwtSecret {} ≠ .ok decoded) →
          ∃ message, adminRoute ajv lib config now validateSchema route request
            = .replied ⟨401, envelope "Unauthorized" message⟩) ∧
      (∀ token decoded, bearerToken request = some token →
          jwtVerify lib now token config.jwtSecret {} = .ok decoded →
          decoded.role ≠ "ADMIN" →
          adminRoute ajv lib config now validateSchema route request
            = .replied ⟨403, envelope "Forbidden" "Permissions insuffisantes"⟩)) ∧
    validateRequest ajv (adminRouteSchema .getStatsOverview) request = .ok request ∧
    (∀ request', adminRoute ajv lib config now validateSchema route request
          = .handler request' →
        ∃ token decoded, bearerToken request = some token ∧
          jwtVerify lib now token config.jwtSecret {} = .ok decoded ∧
          decoded.role = "ADMIN") := by
  have hfailed : ∀ (route : AdminRoute) (error : JsError),
      validateRequest ajv (adminRouteSchema route) request = .error error →
      ∃ details, adminRoute ajv lib config now validateSchema route request
        = .replied ⟨400, .obj [("error", .str "Validation Error"),
            ("message", .str "Données invalides"), ("details", .arr details)]⟩ := by
    intro route error h
    obtain ⟨details, hreply⟩ := validateRequest_error ajv _ request error h
    exact ⟨details, by simp only [adminRoute, h, hreply]⟩
  refine ⟨hfailed route, ?_, ?_, rfl, ?_⟩
  · intro hlaw key hkey hmissing
    obtain ⟨error, herror⟩ := postProducts_required ajv hlaw request key hkey hmissing
    exact hfailed .postProducts error herror
  · intro checked hchecked
    have hgate := adminPreHandlers_gate lib config now validateSchema route checked
    have htoken := validateRequest_header ajv _ request checked hchecked
    rw [htoken] at hgate
    have hroute : adminRoute ajv lib config now validateSchema route request
        = runPreHandlers (adminPreHandlers lib config now validateSchema route) checked := by
      simp only [adminRoute, hchecked]
    rw [hroute]
    exact ⟨hgate.1, hgate.2.1⟩
  · intro request' hreached
    cases hrun : validateRequest ajv (adminRouteSchema route) request with
    | error error =>
      simp only [adminRoute, hrun] at hreached
      exact Served.noConfusion hreached
    | ok checked =>
      have hgate := adminPreHandlers_gate lib config now validateSchema route checked
      rw [validateRequest_header ajv _ request checked hrun] at hgate
      simp only [adminRoute, hrun] at hreached
      exact hgate.2.2 request' hreached

/-- C2 at a concrete input: `POST /products` with no token and a body that has the four
required keys passes the schema of the route and is answered 401 by `authenticate`. -/
theorem admin_routes_gate_after_schema_witness :
    validateRequest requiredKeysAjv (adminRouteSchema .postProducts) anonymousKeyboard
      = .ok anonymousKeyboard ∧
    ∃ message, adminRoute requiredKeysAjv unaryJwt ⟨"s3cret", 604800⟩ 10
        (fun _ request => (request, none)) .postProducts anonymousKeyboard
      = .replied ⟨401, envelope "Unauthorized" message⟩ :=
  ⟨rfl,
    ((admin_routes_gate_after_schema requiredKeysAjv unaryJwt ⟨"s3cret", 604800⟩ 10
      (fun _ request => (request, none)) .postProducts anonymousKeyboard).2.2.1
        anonymousKeyboard rfl).1 (fun _ _ h => Option.noConfusion h)⟩

/-- C3: `authenticate` attaches the decoded claims as `request.user` and sends no reply exactly
when the `authorization` header is present, starts with `Bearer ` and the rest of the header
verifies; the claims attached are the verified ones; and when the header is missing or does
not start with `Bearer ` it replies 401 Unauthorized and leaves the request as it was. -/
theorem authenticate_contract {β : Type} (lib : JwtLib) (config : Config) (now : Nat)
    (request : Request β) :
    ((∃ decoded, authenticate lib config now request
          = ({ request with user := some decoded }, none)) ↔
      ∃ authHeader decoded, request.authorization = some authHeader ∧
        jsStartsWith authHeader "Bearer " = true ∧
        jwtVerify lib now (jsSubstring authHeader 7) config.jwtSecret {} = .ok decoded) ∧
    (∀ authHeader decoded, request.authorization = some authHeader →
        jsStartsWith authHeader "Bearer " = true →
        jwtVerify lib now (jsSubstring authHeader 7) config.jwtSecret {} = .ok decoded →
        authenticate lib config now request = ({ request with user := some decoded }, none)) ∧
    ((request.authorization = none ∨
        ∃ authHeader, request.authorization = some authHeader ∧
          jsStartsWith authHeader "Bearer " = false) →
      authenticate lib config now request
        = (request,
            some ⟨401, envelope "Unauthorized" "Token d'authentification manquant"⟩)) := by
  have hpass : ∀ authHeader decoded, request.authorization = some authHeader →
      jsStartsWith authHeader "Bearer " = true →
      jwtVerify lib now (jsSubstring authHeader 7) config.jwtSecret {} = .ok decoded →
      authenticate lib config now request
        = ({ request with user := some decoded }, none) := by
    intro authHeader decoded hh hpre hver
    rw [authenticate_eq]
    simp only [bearerToken, hh, hpre, if_true, hver]
  refine ⟨⟨?_, ?_⟩, hpass, ?_⟩
  · rintro ⟨decoded, hout⟩
    rw [authenticate_eq] at hout
    cases hauth : request.authorization with
    | none => simp [bearerToken, hauth] at hout
    | some authHeader =>
      by_cases hpre : jsStartsWith authHeader "Bearer " = true
      · cases hver : jwtVerify lib now (jsSubstring authHeader 7) config.jwtSecret {} with
        | error e => simp [bearerToken, hauth, hpre, hver] at hout
        | ok claims => exact ⟨authHeader, claims, rfl, hpre, hver⟩
      · simp [bearerToken, hauth, hpre] at hout
  · rintro ⟨authHeader, decoded, hh, hpre, hver⟩
    exact ⟨decoded, hpass authHeader decoded hh hpre hver⟩
  · intro h
    rw [authenticate_eq]
    rcases h with h | ⟨authHeader, hh, hpre⟩
    · simp only [bearerToken, h]
    · simp [bearerToken, hh, hpre]

/-- C4 (the code at the failing input): a token signed with the shared secret and not expired,
whose issuer is another service and whose audience is missing, passes `authenticate` (no
reply, its claims attached as `request.user`) although `JWTService.verifyToken` rejects it as
invalid. -/
theorem authenticate_accepts_foreign_issuer :
    authenticate unaryJwt ⟨"s3cret", 604800⟩ 10
        ⟨some ("Bearer " ++ unaryJwt.serialize foreignJws), none, ()⟩
      = (⟨some ("Bearer " ++ unaryJwt.serialize foreignJws), some foreignJws.claims, ()⟩,
          none) ∧
    JWTService.verifyToken unaryJwt ⟨"s3cret", 604800⟩ 10 (unaryJwt.serialize foreignJws)
      = .error "Token invalide" :=
  gate_accepts_service_rejects unaryJwt unaryJwt_lawful ⟨"s3cret", 604800⟩ 10 foreignJws
    ⟨some ("Bearer " ++ unaryJwt.serialize foreignJws), none, ()⟩ rfl rfl rfl rfl
    (Or.inl (by decide))

/-- C5: two requests with a well-formed `Bearer <token>` header, the first with a token that
fails verification as expired and the second with a token that fails as invalid, get the same
reply from `authenticate`: status 401 and the same body. -/
theorem authenticate_failures_indistinguishable {β γ : Type} (lib : JwtLib) (config : Config)
    (now : Nat) (request₁ : Request β) (request₂ : Request γ) (token₁ token₂ : String)
    (error₁ error₂ : JwtError)
    (hbearer₁ : bearerToken request₁ = some token₁)
    (hbearer₂ : bearerToken request₂ = some token₂)
    (hfail₁ : jwtVerify lib now token₁ config.jwtSecret {} = .error error₁)
    (_hexpired : error₁.name = .TokenExpiredError)
    (hfail₂ : jwtVerify lib now token₂ config.jwtSecret {} = .error error₂)
    (_hinvalid : error₂.name = .JsonWebTokenError) :
    (authenticate lib config now request₁).2 = (authenticate lib config now request₂).2 ∧
    (authenticate lib config now request₁).2
      = some ⟨401, envelope "Unauthorized" "Token d'authentification invalide"⟩ := by
  rw [authenticate_eq, authenticate_eq, hbearer₁, hbearer₂]
  simp only [hfail₁, hfail₂, and_self]

/-- C5 at a concrete input: at time 2000, a token that expired at 1000 and a token signed
with another secret get the same 401 reply. -/
theorem authenticate_failures_indistinguishable_witness :
    (authenticate unaryJwt ⟨"s3cret", 604800⟩ 2000
        (⟨some ("Bearer " ++ unaryJwt.serialize expiredJws), none, ()⟩ : Request Unit)).2
      = (authenticate unaryJwt ⟨"s3cret", 604800⟩ 2000
        (⟨some ("Bearer " ++ unaryJwt.serialize forgedJws), none, ()⟩ : Request Unit)).2 ∧
    (authenticate unaryJwt ⟨"s3cret", 604800⟩ 2000
        (⟨some ("Bearer " ++ unaryJwt.serialize expiredJws), none, ()⟩ : Request Unit)).2
      = some ⟨401, envelope "Unauthorized" "Token d'authentification invalide"⟩ :=
  authenticate_failures_indistinguishable unaryJwt ⟨"s3cret", 604800⟩ 2000 _ _
    (unaryJwt.serialize expiredJws) (unaryJwt.serialize forgedJws)
    ⟨.TokenExpiredError, "jwt expired"⟩ ⟨.JsonWebTokenError, "invalid signature"⟩
    (bearerToken_bearer_append _ _ rfl) (bearerToken_bearer_append _ _ rfl)
    ((jwtVerify_serialize unaryJwt unaryJwt_lawful 2000 expiredJws "s3cret" {}).trans
      (by simp [expiredJws]))
    rfl
    ((jwtVerify_serialize unaryJwt unaryJwt_lawful 2000 forgedJws "s3cret" {}).trans
      (by simp [forgedJws]))
    rfl

/-! ## Theorems: the auth workflow -/

/-- C6: when the email of a registration already belongs to a stored user, `register` replies
409 Conflict and leaves the whole state as it was (the users, each user's fields and the
cache), and the reply carries no token. -/
theorem register_duplicate_email (env : Env) (now : Nat) (newId : String) (w : World)
    (request : Request RegisterBody)
    (hdup : ∃ u ∈ w.db.users, u.email = request.body.email) :
    AuthController.register env now newId w request
      = (w, .reply ⟨409, envelope "Conflict" "Un utilisateur avec cet email existe déjà"⟩) ∧
    (AuthController.register env now newId w request).2.response.body.hasKey "token"
      = false := by
  obtain ⟨u, hfind⟩ := findUniqueByEmail_of_mem w.db request.body.email hdup
  have hrun : AuthController.register env now newId w request
      = (w, .reply ⟨409, envelope "Conflict" "Un utilisateur avec cet email existe déjà"⟩) := by
    simp only [AuthController.register, hfind]
  exact ⟨hrun, by rw [hrun]; rfl⟩

/-- C6 at a concrete input: a second registration with Ann's email. -/
theorem register_duplicate_email_witness :
    AuthController.register demoEnv 7 "u2" demoWorld
        ⟨none, none, ⟨"ann@x.com", "0therPass!", "Bob", some "ADMIN"⟩⟩
      = (demoWorld,
          .reply ⟨409, envelope "Conflict" "Un utilisateur avec cet email existe déjà"⟩) ∧
    (AuthController.register demoEnv 7 "u2" demoWorld
        ⟨none, none, ⟨"ann@x.com", "0therPass!", "Bob", some "ADMIN"⟩⟩).2.response.body.hasKey
        "token" = false :=
  register_duplicate_email demoEnv 7 "u2" demoWorld
    ⟨none, none, ⟨"ann@x.com", "0therPass!", "Bob", some "ADMIN"⟩⟩
    ⟨ann, List.mem_singleton.mpr rfl, rfl⟩

/-- C7: a valid registration with an unused email (and the cache reachable) is answered 201,
whatever the request's `authorization` header and attached identity are; the user is
created with role `USER` unless the caller supplied the role `ADMIN`, and then with role
`ADMIN`; the token of the reply is the one signed for exactly the id, email and role of the
created user. -/
theorem register_creates_user (env : Env) (now : Nat) (newId : String) (w : World)
    (request : Request RegisterBody) (supplied : Option String)
    (hvalid : registerSchemaRole supplied = .ok request.body.role)
    (hunused : ∀ u ∈ w.db.users, u.email ≠ request.body.email)
    (hcache : w.redis.reachable = true) :
    AuthController.register env now newId w request
      = ({ w with
            db := { w.db with users := w.db.users ++
              [{ id := newId, email := request.body.email,
                 password := env.bcrypt.hash request.body.password,
                 name := request.body.name,
                 role := if supplied = some "ADMIN" then "ADMIN" else "USER",
                 createdAt := now, updatedAt := now }] },
            redis := w.redis.put ("user:" ++ newId)
              ⟨.obj [("id", .str newId), ("email", .str request.body.email),
                  ("name", .str request.body.name),
                  ("role", .str (if supplied = some "ADMIN" then "ADMIN" else "USER")),
                  ("createdAt", .num now)],
                some (now + 3600)⟩ },
          .reply ⟨201, .obj [("message", .str "Inscription réussie"),
            ("user", .obj [("id", .str newId), ("email", .str request.body.email),
                  ("name", .str request.body.name),
                  ("role", .str (if supplied = some "ADMIN" then "ADMIN" else "USER")),
                  ("createdAt", .num now)]),
            ("token", .str (env.jwt.serialize
              { key := env.config.jwtSecret
                claims :=
                  { id := newId, email := request.body.email,
                    role := if supplied = some "ADMIN" then "ADMIN" else "USER",
                    iat := now, nbf := none, exp := some (now + env.config.jwtExpiresIn),
                    iss := some "ecommerce-api", aud := some "ecommerce-client" } }))]⟩) := by
  have hrole := registerSchemaRole_ok supplied request.body.role hvalid
  have hfind := findUniqueByEmail_of_not_mem w.db request.body.email hunused
  have hany := any_email_of_not_mem w.db request.body.email hunused
  simp only [AuthController.register, hfind, Database.create, hany, hrole,
    HashService.hashPassword, RedisService.set, hcache, JWTService.generateToken, jwtSign]
  rfl

/-- C7 at a concrete input: Bob registers as `ADMIN` with no `authorization` header. -/
theorem register_creates_user_witness :
    AuthController.register demoEnv 7 "u2" demoWorld
        ⟨none, none, ⟨"bob@x.com", "0therPass!", "Bob", some "ADMIN"⟩⟩
      = ({ demoWorld with
            db := { demoWorld.db with users := demoWorld.db.users ++
              [{ id := "u2", email := "bob@x.com",
                 password := demoEnv.bcrypt.hash "0therPass!", name := "Bob",
                 role := if some "ADMIN" = some "ADMIN" then "ADMIN" else "USER",
                 createdAt := 7, updatedAt := 7 }] },
            redis := demoWorld.redis.put ("user:" ++ "u2")
              ⟨.obj [("id", .str "u2"), ("email", .str "bob@x.com"), ("name", .str "Bob"),
                  ("role", .str (if some "ADMIN" = some "ADMIN" then "ADMIN" else "USER")),
                  ("createdAt", .num (7 : Nat))],
                some (7 + 3600)⟩ },
          .reply ⟨201, .obj [("message", .str "Inscription réussie"),
            ("user", .obj [("id", .str "u2"), ("email", .str "bob@x.com"),
                  ("name", .str "Bob"),
                  ("role", .str (if some "ADMIN" = some "ADMIN" then "ADMIN" else "USER")),
                  ("createdAt", .num (7 : Nat))]),
            ("token", .str (demoEnv.jwt.serialize
              { key := demoEnv.config.jwtSecret
                claims :=
                  { id := "u2", email := "bob@x.com",
                    role := if some "ADMIN" = some "ADMIN" then "ADMIN" else "USER",
                    iat := 7, nbf := none, exp := some (7 + demoEnv.config.jwtExpiresIn),
                    iss := some "ecommerce-api", aud := some "ecommerce-client" } }))]⟩) :=
  register_creates_user demoEnv 7 "u2" demoWorld
    ⟨none, none, ⟨"bob@x.com", "0therPass!", "Bob", some "ADMIN"⟩⟩ (some "ADMIN")
    rfl (by decide) rfl

/-- C8: a login with an email that matches no user and a login with an existing email and a
wrong password get the same reply, 401 Unauthorized with the same message and no token, and
both leave the whole state (store and cache) as it was. -/
theorem login_failures_indistinguishable (env : Env) (now₁ now₂ : Nat) (w : World)
    (unknown wrong : Request LoginBody) (user : User)
    (hunknown : ∀ u ∈ w.db.users, u.email ≠ unknown.body.email)
    (hfound : w.db.findUniqueByEmail wrong.body.email = some user)
    (hwrong : env.bcrypt.compare wrong.body.password user.password = false) :
    AuthController.login env now₁ w unknown
      = (w, .reply ⟨401, envelope "Unauthorized" "Email ou mot de passe incorrect"⟩) ∧
    AuthController.login env now₂ w wrong
      = (w, .reply ⟨401, envelope "Unauthorized" "Email ou mot de passe incorrect"⟩) ∧
    (envelope "Unauthorized" "Email ou mot de passe incorrect").hasKey "token" = false := by
  refine ⟨?_, ?_, rfl⟩
  · simp only [AuthController.login,
      findUniqueByEmail_of_not_mem w.db unknown.body.email hunknown]
  · simp [AuthController.login, hfound, HashService.verifyPassword, hwrong]

/-- C8 at a concrete input: an unknown email, and Ann's email with a wrong password. -/
theorem login_failures_indistinguishable_witness :
    AuthController.login demoEnv 7 demoWorld ⟨none, none, ⟨"bob@x.com", "Passw0rd!"⟩⟩
      = (demoWorld,
          .reply ⟨401, envelope "Unauthorized" "Email ou mot de passe incorrect"⟩) ∧
    AuthController.login demoEnv 9 demoWorld ⟨none, none, ⟨"ann@x.com", "guess"⟩⟩
      = (demoWorld,
          .reply ⟨401, envelope "Unauthorized" "Email ou mot de passe incorrect"⟩) ∧
    (envelope "Unauthorized" "Email ou mot de passe incorrect").hasKey "token" = false :=
  login_failures_indistinguishable demoEnv 7 9 demoWorld
    ⟨none, none, ⟨"bob@x.com", "Passw0rd!"⟩⟩ ⟨none, none, ⟨"ann@x.com", "guess"⟩⟩ ann
    (by decide) (by decide) (by decide)

/-- C9: for a stored user and valid credentials (and the cache reachable), `login` replies 200
with a token, and `verifyToken` on that token at any time before its expiry returns claims
whose id, email and role are those of the stored user. -/
theorem login_token_verifies (env : Env) (hlaw : env.jwt.Lawful) (now later : Nat) (w : World)
    (request : Request LoginBody) (user : User)
    (hfound : w.db.findUniqueByEmail request.body.email = some user)
    (hpassword : env.bcrypt.compare request.body.password user.password = true)
    (hcache : w.redis.reachable = true)
    (hbefore : later < now + env.config.jwtExpiresIn) :
    ∃ w' userData token claims,
      AuthController.login env now w request
        = (w', .reply ⟨200, .obj [("message", .str "Connexion réussie"), ("user", userData),
            ("token", .str token)]⟩) ∧
      JWTService.verifyToken env.jwt env.config later token = .ok claims ∧
      claims.id = user.id ∧ claims.email = user.email ∧ claims.role = user.role := by
  have hrun : AuthController.login env now w request
      = ({ w with
            redis := w.redis.put ("user:" ++ user.id)
              ⟨.obj [("id", .str user.id), ("email", .str user.email),
                  ("name", .str user.name), ("role", .str user.role),
                  ("createdAt", .num user.createdAt)], some (now + 3600)⟩ },
          .reply ⟨200, .obj [("message", .str "Connexion réussie"),
            ("user", .obj [("id", .str user.id), ("email", .str user.email),
                ("name", .str user.name), ("role", .str user.role),
                ("createdAt", .num user.createdAt)]),
            ("token", .str (JWTService.generateToken env.jwt env.config now user.id
              user.email user.role))]⟩) := by
    simp only [AuthController.login, hfound, HashService.verifyPassword, hpassword,
      RedisService.set, hcache]
    rfl
  exact ⟨_, _, _, _, hrun,
    verifyToken_generateToken env.jwt hlaw env.config now later _ _ _ hbefore, rfl, rfl, rfl⟩

/-- C9 at a concrete input: Ann logs in at time 7 and her token is verified at time 1000. -/
theorem login_token_verifies_witness :
    ∃ w' userData token claims,
      AuthController.login demoEnv 7 demoWorld ⟨none, none, ⟨"ann@x.com", "Passw0rd!"⟩⟩
        = (w', .reply ⟨200, .obj [("message", .str "Connexion réussie"), ("user", userData),
            ("token", .str token)]⟩) ∧
      JWTService.verifyToken demoEnv.jwt demoEnv.config 1000 token = .ok claims ∧
      claims.id = ann.id ∧ claims.email = ann.email ∧ claims.role = ann.role :=
  login_token_verifies demoEnv unaryJwt_lawful 7 1000 demoWorld
    ⟨none, none, ⟨"ann@x.com", "Passw0rd!"⟩⟩ ann (by decide) (by decide) rfl (by decide)

/-- C10: in every reachable state, for every request to the auth workflow (register, login,
getProfile on a cache hit or miss, updateProfile, changePassword, logout), the reply the
client receives has no `password` field at any depth, and every cache entry present after
the request either was there before it or holds a value with no `password` field: the
password column, which holds the digest, is never put in a reply or in the cache. -/
theorem password_never_exposed (env : Env) (w : World) (hreach : Reachable env w) (now : Nat)
    (op : AuthOp) :
    (op.run env now w).2.response.body.hasKey "password" = false ∧
    ∀ key entry, (key, entry) ∈ (op.run env now w).1.redis.entries →
      (key, entry) ∈ w.redis.entries ∨ entry.value.hasKey "password" = false :=
  run_clean env now w op (reachable_clean env w hreach)

/-- C10 at a concrete input: Ann reads her profile from the cache her login filled. -/
theorem password_never_exposed_witness :
    ((AuthOp.getProfile ⟨none, some ⟨"u1", "ann@x.com", "USER", 7, none, none, none, none⟩,
          ()⟩).run demoEnv 9
        ((AuthOp.login ⟨none, none, ⟨"ann@x.com", "Passw0rd!"⟩⟩).run demoEnv 7
          demoWorld).1).2.response.body.hasKey "password" = false ∧
    ∀ key entry,
      (key, entry) ∈
        ((AuthOp.getProfile ⟨none, some ⟨"u1", "ann@x.com", "USER", 7, none, none, none, none⟩,
            ()⟩).run demoEnv 9
          ((AuthOp.login ⟨none, none, ⟨"ann@x.com", "Passw0rd!"⟩⟩).run demoEnv 7
            demoWorld).1).1.redis.entries →
      (key, entry) ∈
          ((AuthOp.login ⟨none, none, ⟨"ann@x.com", "Passw0rd!"⟩⟩).run demoEnv 7
            demoWorld).1.redis.entries ∨
        entry.value.hasKey "password" = false :=
  password_never_exposed demoEnv _
    (Reachable.auth 7 (AuthOp.login ⟨none, none, ⟨"ann@x.com", "Passw0rd!"⟩⟩) demoWorld
      (Reachable.init { users := [ann] } true))
    9 (AuthOp.getProfile ⟨none, some ⟨"u1", "ann@x.com", "USER", 7, none, none, none, none⟩, ()⟩)

/-! ## Lemmas: arithmetic and the cache -/

theorem mathCeilDiv_eq_ceil (count limit : Nat) (hlimit : 0 < limit) :
    mathCeilDiv count limit = ⌈(count : ℚ) / (limit : ℚ)⌉₊ := by
  have hpos : (0 : ℚ) < (limit : ℚ) := by exact_mod_cast hlimit
  apply eq_of_forall_ge_iff
  intro n
  rw [Nat.ceil_le, div_le_iff₀ hpos]
  unfold mathCeilDiv
  rw [← Nat.lt_succ_iff, Nat.div_lt_iff_lt_mul hlimit]
  constructor
  · intro h
    have h' : count ≤ n * limit := by
      have : count + limit - 1 < n * limit + limit := by
        simpa [Nat.succ_mul] using h
      omega
    exact_mod_cast h'
  · intro h
    have h' : count ≤ n * limit := by exact_mod_cast h
    have : count + limit - 1 < n * limit + limit := by omega
    simpa [Nat.succ_mul] using this

theorem find_put_same (redis : Redis) (key : String) (entry : CacheEntry) :
    (redis.put key entry).find key = some entry := by
  simp [Redis.find, Redis.put]

theorem find_put_other (redis : Redis) (key other : String) (entry : CacheEntry)
    (h : other ≠ key) : (redis.put key entry).find other = redis.find other := by
  have hfilter : ∀ entries : List (String × CacheEntry),
      (entries.filter (fun kv => kv.1 != key)).find? (fun kv => kv.1 == other)
        = entries.find? (fun kv => kv.1 == other) := by
    intro entries
    induction entries with
    | nil => rfl
    | cons kv rest ih =>
      rw [List.filter_cons]
      by_cases hk : kv.1 = key
      · have hko : (kv.1 == other) = false := by simp [hk, Ne.symm h]
        have hkk : (kv.1 != key) = false := by simp [hk]
        simp only [hkk, Bool.false_eq_true, if_false, List.find?_cons, hko, ih]
      · have hkk : (kv.1 != key) = true := by simp [hk]
        simp only [hkk, if_true, List.find?_cons, ih]
  unfold Redis.find Redis.put
  simp only [List.find?_cons]
  have hne : (key == other) = false := by simp [Ne.symm h]
  simp only [hne, hfilter]

theorem find_erase_same (redis : Redis) (key : String) :
    ({ redis with entries := redis.entries.filter (fun kv => kv.1 != key) } : Redis).find key
      = none := by
  unfold Redis.find
  simp only [Option.map_eq_none']
  apply List.find?_eq_none.mpr
  intro kv hkv
  have := (List.mem_filter.mp hkv).2
  simpa using this

theorem find_erase_other (redis : Redis) (key other : String) (h : other ≠ key) :
    ({ redis with entries := redis.entries.filter (fun kv => kv.1 != key) } : Redis).find other
      = redis.find other := by
  have hput := find_put_other redis key other ⟨.null, none⟩ h
  unfold Redis.find Redis.put at hput
  unfold Redis.find
  simp only [List.find?_cons] at hput
  have hne : (key == other) = false := by simp [Ne.symm h]
  simpa only [hne] using hput

theorem set_reachable (redis : Redis) (now : Nat) (key : String) (value : Json) (t : Nat)
    (hup : redis.reachable = true) :
    RedisService.set redis now key value (some (t + 1))
      = .ok (redis.put key ⟨value, some (now + (t + 1))⟩) := by
  simp [RedisService.set, hup]

theorem reachable_of_set (redis redis' : Redis) (now : Nat) (key : String) (value : Json)
    (ttl : Option Nat) (h : RedisService.set redis now key value ttl = .ok redis') :
    redis.reachable = true ∧ redis'.reachable = true := by
  unfold RedisService.set at h
  cases hup : redis.reachable with
  | false => simp [hup] at h
  | true =>
    simp only [hup, Bool.not_true, Bool.false_eq_true, if_false] at h
    split at h <;> cases h <;> exact ⟨rfl, hup⟩

theorem get_reachable (redis : Redis) (now : Nat) (key : String)
    (hup : redis.reachable = true) :
    RedisService.get redis now key
      = .ok (match redis.find key with
        | none => .null
        | some entry => if entry.expiresAt.any (fun t => t ≤ now) then .null else entry.value) := by
  unfold RedisService.get
  simp only [hup, Bool.not_true, Bool.false_eq_true, if_false]
  cases redis.find key with
  | none => rfl
  | some entry => by_cases h : entry.expiresAt.any (fun t => t ≤ now) = true <;> simp [h]

theorem get_unreachable (redis : Redis) (now : Nat) (key : String)
    (hdown : redis.reachable = false) :
    RedisService.get redis now key = .error redisUnavailable := by
  simp [RedisService.get, hdown]

theorem del_reachable (redis : Redis) (key : String) (hup : redis.reachable = true) :
    RedisService.del redis key
      = .ok ({ redis with entries := redis.entries.filter (fun kv => kv.1 != key) },
          redis.entries.any (fun kv => kv.1 == key)) := by
  simp [RedisService.del, hup]

theorem del_unreachable (redis : Redis) (key : String) (hdown : redis.reachable = false) :
    RedisService.del redis key = .error redisUnavailable := by
  simp [RedisService.del, hdown]

/-- A value stored with a time to live is read back until it expires. -/
theorem get_after_set (redis redis' : Redis) (now later : Nat) (key : String) (value : Json)
    (t : Nat) (hset : RedisService.set redis now key value (some (t + 1)) = .ok redis')
    (hlater : later < now + (t + 1)) : RedisService.get redis' later key = .ok value := by
  have hup := (reachable_of_set _ _ _ _ _ _ hset).1
  rw [set_reachable redis now key value t hup] at hset
  cases hset
  rw [get_reachable _ _ _ (by simpa [Redis.put] using hup), find_put_same]
  have hnot : ¬ (now + (t + 1) ≤ later) := Nat.not_le.mpr hlater
  simp [hnot]

theorem invalidate_reachable (redis : Redis) (id : String) (hup : redis.reachable = true) :
    ProductController.invalidate redis id
      = .ok { redis with
          entries := (redis.entries.filter (fun kv => kv.1 != "product:" ++ id)).filter
            (fun kv => kv.1 != "products:*") } := by
  unfold ProductController.invalidate
  rw [del_reachable redis _ hup]
  simp only []
  rw [del_reachable _ _ (by simpa using hup)]

theorem invalidate_unreachable (redis : Redis) (id : String)
    (hdown : redis.reachable = false) :
    ProductController.invalidate redis id = .error redisUnavailable := by
  unfold ProductController.invalidate
  rw [del_unreachable redis _ hdown]

theorem listCacheKey_data (query : ProductsQuery) :
    ∃ rest, (ProductController.listCacheKey query).data
      = 'p' :: 'r' :: 'o' :: 'd' :: 'u' :: 'c' :: 't' :: 's' :: ':' :: Char.ofNat 123 :: rest := by
  unfold ProductController.listCacheKey ProductsQuery.toJson
  rw [Json.stringify]
  simp only [String.data_append]
  exact ⟨_, rfl⟩

theorem listCacheKey_ne_star (query : ProductsQuery) :
    ProductController.listCacheKey query ≠ "products:*" := by
  intro h
  obtain ⟨rest, hdata⟩ := listCacheKey_data query
  rw [h] at hdata
  have hlit : ("products:*" : String).data
      = ['p', 'r', 'o', 'd', 'u', 'c', 't', 's', ':', '*'] := rfl
  rw [hlit] at hdata
  simp at hdata

theorem listCacheKey_ne_item (query : ProductsQuery) (id : String) :
    ProductController.listCacheKey query ≠ "product:" ++ id := by
  intro h
  obtain ⟨rest, hdata⟩ := listCacheKey_data query
  rw [h, String.data_append] at hdata
  have hlit : ("product:" : String).data = ['p', 'r', 'o', 'd', 'u', 'c', 't', ':'] := rfl
  rw [hlit] at hdata
  simp at hdata

/-! ## Lemmas: the Token service -/

/-- What `verifyToken` answers, by what the library reads in the token. -/
theorem verifyToken_eq (lib : JwtLib) (config : Config) (now : Nat) (token : String) :
    JWTService.verifyToken lib config now token =
      match lib.parse token with
      | none => .error "Token invalide"
      | some jws =>
        if jws.key ≠ config.jwtSecret then .error "Token invalide"
        else if jws.claims.nbf.any (fun nbf => nbf > now) then
          .error "Erreur lors de la vérification du token"
        else if jws.claims.exp.any (fun exp => now ≥ exp) then .error "Token expiré"
        else if jws.claims.aud ≠ some "ecommerce-client" then .error "Token invalide"
        else if jws.claims.iss ≠ some "ecommerce-api" then .error "Token invalide"
        else .ok jws.claims := by
  unfold JWTService.verifyToken jwtVerify
  cases lib.parse token with
  | none => rfl
  | some jws =>
    simp only []
    by_cases hkey : jws.key ≠ config.jwtSecret
    · simp [hkey]
    · by_cases hnbf : jws.claims.nbf.any (fun nbf => nbf > now) = true
      · simp [hkey, hnbf]
      · by_cases hexp : jws.claims.exp.any (fun exp => now ≥ exp) = true
        · simp [hkey, hnbf, hexp]
        · by_cases haud : jws.claims.aud ≠ some "ecommerce-client"
          · simp [hkey, hnbf, hexp, haud]
          · by_cases hiss : jws.claims.iss ≠ some "ecommerce-api"
            · simp [hkey, hnbf, hexp, haud, hiss]
            · simp [hkey, hnbf, hexp, haud, hiss]

theorem verifyToken_serialize (lib : JwtLib) (hlaw : lib.Lawful) (config : Config) (now : Nat)
    (j : Jws) :
    JWTService.verifyToken lib config now (lib.serialize j) =
      if j.key ≠ config.jwtSecret then .error "Token invalide"
      else if j.claims.nbf.any (fun nbf => nbf > now) then
        .error "Erreur lors de la vérification du token"
      else if j.claims.exp.any (fun exp => now ≥ exp) then .error "Token expiré"
      else if j.claims.aud ≠ some "ecommerce-client" then .error "Token invalide"
      else if j.claims.iss ≠ some "ecommerce-api" then .error "Token invalide"
      else .ok j.claims := by
  rw [verifyToken_eq, hlaw j]

/-! ## Theorems: the Token service -/

/-- C11, counterexample: a token signed with the shared secret that is not active before time
5000 fails `verifyToken` at time 10 with a third error, neither expired nor invalid; and a
token with a foreign issuer that expired at time 1000 is reported at time 2000 as expired, not
as invalid. -/
theorem verifyToken_third_error :
    JWTService.verifyToken unaryJwt ⟨"s3cret", 604800⟩ 10 (unaryJwt.serialize embargoedJws)
      = .error "Erreur lors de la vérification du token" ∧
    JWTService.verifyToken unaryJwt ⟨"s3cret", 604800⟩ 2000 (unaryJwt.serialize foreignJws)
      = .error "Token expiré" :=
  ⟨(verifyToken_serialize unaryJwt unaryJwt_lawful ⟨"s3cret", 604800⟩ 10 embargoedJws).trans
      (by simp [embargoedJws]),
    (verifyToken_serialize unaryJwt unaryJwt_lawful ⟨"s3cret", 604800⟩ 2000 foreignJws).trans
      (by simp [foreignJws])⟩

/-- C11, amended: every failure of `verifyToken` is reported as one of three distinct errors,
expired, invalid or a generic verification error.  A malformed token and a token whose
signature does not verify are reported as invalid; a token with a good signature that is not
yet active gets the generic error; an active token with a good signature whose expiry has
passed is reported as expired, whatever its issuer and audience; an active, unexpired token
with a good signature and a wrong or missing audience or issuer is reported as invalid; and
every other token is accepted. -/
theorem verifyToken_failures (lib : JwtLib) (config : Config) (now : Nat) (token : String) :
    (∀ message, JWTService.verifyToken lib config now token = .error message →
        message = "Token expiré" ∨ message = "Token invalide" ∨
          message = "Erreur lors de la vérification du token") ∧
    ("Token expiré" ≠ "Token invalide" ∧
      "Token expiré" ≠ "Erreur lors de la vérification du token" ∧
      "Token invalide" ≠ "Erreur lors de la vérification du token") ∧
    (lib.parse token = none →
        JWTService.verifyToken lib config now token = .error "Token invalide") ∧
    (∀ jws, lib.parse token = some jws → jws.key ≠ config.jwtSecret →
        JWTService.verifyToken lib config now token = .error "Token invalide") ∧
    (∀ jws, lib.parse token = some jws → jws.key = config.jwtSecret →
        jws.claims.nbf.any (fun nbf => nbf > now) = true →
        JWTService.verifyToken lib config now token
          = .error "Erreur lors de la vérification du token") ∧
    (∀ jws, lib.parse token = some jws → jws.key = config.jwtSecret →
        jws.claims.nbf.any (fun nbf => nbf > now) = false →
        jws.claims.exp.any (fun exp => now ≥ exp) = true →
        JWTService.verifyToken lib config now token = .error "Token expiré") ∧
    (∀ jws, lib.parse token = some jws → jws.key = config.jwtSecret →
        jws.claims.nbf.any (fun nbf => nbf > now) = false →
        jws.claims.exp.any (fun exp => now ≥ exp) = false →
        (jws.claims.aud ≠ some "ecommerce-client" ∨ jws.claims.iss ≠ some "ecommerce-api") →
        JWTService.verifyToken lib config now token = .error "Token invalide") ∧
    (∀ jws, lib.parse token = some jws → jws.key = config.jwtSecret →
        jws.claims.nbf.any (fun nbf => nbf > now) = false →
        jws.claims.exp.any (fun exp => now ≥ exp) = false →
        jws.claims.aud = some "ecommerce-client" → jws.claims.iss = some "ecommerce-api" →
        JWTService.verifyToken lib config now token = .ok jws.claims) := by
  rw [verifyToken_eq]
  refine ⟨?_, ⟨by decide, by decide, by decide⟩, ?_, ?_, ?_, ?_, ?_, ?_⟩
  · intro message h
    split at h
    · cases h
      exact Or.inr (Or.inl rfl)
    · split at h
      · cases h
        exact Or.inr (Or.inl rfl)
      · split at h
        · cases h
          exact Or.inr (Or.inr rfl)
        · split at h
          · cases h
            exact Or.inl rfl
          · split at h
            · cases h
              exact Or.inr (Or.inl rfl)
            · split at h
              · cases h
                exact Or.inr (Or.inl rfl)
              · exact Except.noConfusion h
  · intro h
    simp only [h]
  · intro jws h hkey
    simp [h, hkey]
  · intro jws h hkey hnbf
    simp [h, hkey, hnbf]
  · intro jws h hkey hnbf hexp
    simp [h, hkey, hnbf, hexp]
  · intro jws h hkey hnbf hexp hforeign
    rcases hforeign with haud | hiss
    · simp [h, hkey, hnbf, hexp, haud]
    · by_cases haud : jws.claims.aud = some "ecommerce-client"
      · simp [h, hkey, hnbf, hexp, haud, hiss]
      · simp [h, hkey, hnbf, hexp, haud]
  · intro jws h hkey hnbf hexp haud hiss
    simp [h, hkey, hnbf, hexp, haud, hiss]

/-! ## Lemmas: the cache-aside reads -/

theorem reachable_of_get (redis : Redis) (now : Nat) (key : String) (value : Json)
    (hget : RedisService.get redis now key = .ok value) : redis.reachable = true := by
  cases h : redis.reachable with
  | true => rfl
  | false =>
    rw [get_unreachable _ _ _ h] at hget
    exact Except.noConfusion hget

theorem getProductById_hit (now : Nat) (w : World) (id : String) (value : Json)
    (hget : RedisService.get w.redis now ("product:" ++ id) = .ok value)
    (htruthy : value.truthy = true) :
    ProductController.getProductById now w id
      = (w, .reply ⟨200, .obj [("product", value)]⟩) := by
  simp only [ProductController.getProductById, hget, htruthy, if_true]

theorem getProductById_miss (now : Nat) (w : World) (id : String) (cached : Json)
    (hget : RedisService.get w.redis now ("product:" ++ id) = .ok cached)
    (hmiss : cached.truthy = false) :
    ProductController.getProductById now w id
      = match w.db.findProductById id with
        | none => (w, .reply ⟨404, envelope "Not Found" "Produit non trouvé"⟩)
        | some found =>
          ({ w with
              redis := w.redis.put ("product:" ++ id) ⟨found.row, some (now + 600)⟩ },
            .reply ⟨200, .obj [("product", found.row)]⟩) := by
  have hup := reachable_of_get _ _ _ _ hget
  simp only [ProductController.getProductById, hget, hmiss, Bool.false_eq_true, if_false]
  cases w.db.findProductById id with
  | none => rfl
  | some found => simp only [set_reachable w.redis now _ _ 599 hup]

theorem getProducts_hit (now : Nat) (w : World) (query : ProductsQuery) (value : Json)
    (hget : RedisService.get w.redis now (ProductController.listCacheKey query) = .ok value)
    (htruthy : value.truthy = true) :
    ProductController.getProducts now w query = (w, .reply ⟨200, value⟩) := by
  simp only [ProductController.getProducts, hget, htruthy, if_true]

/-- Every natural number up to `2 ^ 53` is a double. -/
theorem roundToDouble_exact (n : Nat) (h : n ≤ 2 ^ 53) : roundToDouble n = n := by
  by_cases hlt : n < 2 ^ 53
  · simp only [roundToDouble, hlt, if_true]
  · have hn : n = 2 ^ 53 := by omega
    subst hn
    decide

theorem jsRound_natCast (n : Nat) : jsRound (n : Int) = ((roundToDouble n : Nat) : Int) := by
  have hneg : ¬ ((n : Int) < 0) := by omega
  simp only [jsRound, hneg, if_false, Int.natAbs_ofNat]

/-- The number `skip` for a page of at least 1 that is a safe integer: the double nearest to
the product `(page - 1) * limit`. -/
theorem listSkip_eq (query : ProductsQuery) (hpage : 1 ≤ query.page)
    (hsafe : query.page ≤ 2 ^ 53) :
    ProductController.listSkip query
      = ((roundToDouble ((query.page - 1) * query.limit) : Nat) : Int) := by
  have hdiff : (query.page : Int) - 1 = ((query.page - 1 : Nat) : Int) := by omega
  unfold ProductController.listSkip
  rw [hdiff, jsRound_natCast, roundToDouble_exact _ (by omega), ← Nat.cast_mul,
    jsRound_natCast]

theorem listSkip_nonneg (query : ProductsQuery) (hpage : 1 ≤ query.page) :
    0 ≤ ProductController.listSkip query := by
  have hdiff : (query.page : Int) - 1 = ((query.page - 1 : Nat) : Int) := by omega
  unfold ProductController.listSkip
  rw [hdiff, jsRound_natCast, ← Nat.cast_mul, jsRound_natCast]
  exact Int.ofNat_nonneg _

theorem getProducts_miss (now : Nat) (w : World) (query : ProductsQuery) (cached : Json)
    (hget : RedisService.get w.redis now (ProductController.listCacheKey query) = .ok cached)
    (hmiss : cached.truthy = false) (hskip : 0 ≤ ProductController.listSkip query) :
    ProductController.getProducts now w query
      = ({ w with
            redis := w.redis.put (ProductController.listCacheKey query)
              ⟨ProductController.listResult w.db query, some (now + 300)⟩ },
          .reply ⟨200, ProductController.listResult w.db query⟩) := by
  have hup := reachable_of_get _ _ _ _ hget
  have hneg : ¬ ProductController.listSkip query < 0 := not_lt.mpr hskip
  simp only [ProductController.getProducts, hget, hmiss, Bool.false_eq_true, if_false, hneg,
    set_reachable w.redis now _ _ 299 hup]

/-- A `getProducts` that missed the cache and replied had a `skip` that is not negative. -/
theorem getProducts_replied_skip (now : Nat) (w w₁ : World) (query : ProductsQuery)
    (cached : Json) (sent : Reply)
    (hget : RedisService.get w.redis now (ProductController.listCacheKey query) = .ok cached)
    (hmiss : cached.truthy = false)
    (hfirst : ProductController.getProducts now w query = (w₁, .reply sent)) :
    0 ≤ ProductController.listSkip query := by
  by_contra hneg
  have hlt : ProductController.listSkip query < 0 := not_le.mp hneg
  simp only [ProductController.getProducts, hget, hmiss, Bool.false_eq_true, if_false, hlt,
    if_true, Prod.mk.injEq] at hfirst
  exact Outcome.noConfusion hfirst.2

theorem row_truthy (product : Product) : product.row.truthy = true := rfl

theorem listResult_truthy (db : Database) (query : ProductsQuery) :
    (ProductController.listResult db query).truthy = true := rfl

/-- An unexpired entry is what `get` returns. -/
theorem get_of_find (redis : Redis) (now expiry : Nat) (key : String) (value : Json)
    (hup : redis.reachable = true) (hfind : redis.find key = some ⟨value, some expiry⟩)
    (hlive : now < expiry) : RedisService.get redis now key = .ok value := by
  rw [get_reachable _ _ _ hup, hfind]
  have hnot : ¬ (expiry ≤ now) := Nat.not_le.mpr hlive
  simp [hnot]

/-! ## Lemmas: the catalog mutations -/

theorem find_map_replace (products : List Product) (id : String) (old new : Product)
    (hfind : products.find? (fun p => p.id == id) = some old) (hid : new.id = id) :
    (products.map (fun p => if p.id == id then new else p)).find? (fun p => p.id == id)
      = some new := by
  induction products with
  | nil => exact Option.noConfusion hfind
  | cons p rest ih =>
    by_cases hp : p.id = id
    · simp [List.find?_cons, hp, hid]
    · have hpb : (p.id == id) = false := by simp [hp]
      rw [List.find?_cons, hpb] at hfind
      simp only [List.map_cons, hpb, Bool.false_eq_true, if_false, List.find?_cons]
      exact ih hfind

theorem find_filter_removed (products : List Product) (id : String) :
    (products.filter (fun p => p.id != id)).find? (fun p => p.id == id) = none := by
  apply List.find?_eq_none.mpr
  intro p hp
  have := (List.mem_filter.mp hp).2
  simpa using this

theorem findProductById_id (db : Database) (id : String) (found : Product)
    (h : db.findProductById id = some found) : found.id = id := by
  have := List.find?_some h
  simpa using this

/-- What a successful `updateProduct` did. -/
theorem updateProduct_ok (now : Nat) (w w' : World) (id : String)
    (request : Request UpdateProductBody) (body : Json)
    (h : ProductController.updateProduct now w id request = (w', .reply ⟨200, body⟩)) :
    ∃ existing, w.db.findProductById id = some existing ∧
      w.redis.reachable = true ∧
      w' = { w with
        db := { w.db with
          products := w.db.products.map
            (fun p => if p.id == id then request.body.apply now existing else p) }
        redis := { w.redis with
          entries := (w.redis.entries.filter (fun kv => kv.1 != "product:" ++ id)).filter
            (fun kv => kv.1 != "products:*") } } ∧
      body = .obj [("message", .str "Produit mis à jour avec succès"),
        ("product", (request.body.apply now existing).row)] := by
  unfold ProductController.updateProduct at h
  split at h
  · simp at h
  · split at h
    · simp only [Prod.mk.injEq, Outcome.reply.injEq, Reply.mk.injEq] at h
      exact absurd h.2.1 (by decide)
    · rename_i existing hfound
      simp only [] at h
      split at h
      · simp only [Prod.mk.injEq, Outcome.reply.injEq, Reply.mk.injEq] at h
        exact absurd h.2.1 (by decide)
      · split at h
        · simp at h
        · rename_i db product hupd
          cases hup : w.redis.reachable with
          | false =>
            rw [invalidate_unreachable _ _ hup] at h
            simp at h
          | true =>
            rw [invalidate_reachable _ _ hup] at h
            simp only [Prod.mk.injEq, Outcome.reply.injEq, Reply.mk.injEq, true_and] at h
            unfold Database.updateProduct at hupd
            rw [hfound] at hupd
            simp only [] at hupd
            split at hupd
            · exact Except.noConfusion hupd
            · simp only [Except.ok.injEq, Prod.mk.injEq] at hupd
              obtain ⟨hdb, hproduct⟩ := hupd
              subst hdb hproduct
              exact ⟨existing, hfound, rfl, h.1.symm, h.2.symm⟩

/-- What a successful `deleteProduct` did. -/
theorem deleteProduct_ok {β : Type} (w w' : World) (id : String) (request : Request β)
    (body : Json)
    (h : ProductController.deleteProduct w id request = (w', .reply ⟨200, body⟩)) :
    w.redis.reachable = true ∧
    w' = { w with
      db := { w.db with products := w.db.products.filter (fun p => p.id != id) }
      redis := { w.redis with
        entries := (w.redis.entries.filter (fun kv => kv.1 != "product:" ++ id)).filter
          (fun kv => kv.1 != "products:*") } } := by
  unfold ProductController.deleteProduct at h
  split at h
  · simp at h
  · split at h
    · simp only [Prod.mk.injEq, Outcome.reply.injEq, Reply.mk.injEq] at h
      exact absurd h.2.1 (by decide)
    · rename_i existing hfound
      split at h
      · simp at h
      · rename_i db hdel
        cases hup : w.redis.reachable with
        | false =>
          rw [invalidate_unreachable _ _ hup] at h
          simp at h
        | true =>
          rw [invalidate_reachable _ _ hup] at h
          simp only [Prod.mk.injEq, Outcome.reply.injEq, Reply.mk.injEq, true_and] at h
          unfold Database.deleteProduct at hdel
          rw [hfound] at hdel
          simp only [Except.ok.injEq] at hdel
          subst hdel
          exact ⟨rfl, h.1.symm⟩

theorem item_ne_star (id : String) : "product:" ++ id ≠ "products:*" := by
  intro h
  have hdata := congrArg String.data h
  rw [String.data_append] at hdata
  have hl : ("product:" : String).data = ['p', 'r', 'o', 'd', 'u', 'c', 't', ':'] := rfl
  have hr : ("products:*" : String).data
      = ['p', 'r', 'o', 'd', 'u', 'c', 't', 's', ':', '*'] := rfl
  rw [hl, hr] at hdata
  simp at hdata

/-- After the two deletions the item key is absent. -/
theorem find_item_invalidated (redis : Redis) (id : String) :
    ({ redis with
      entries := (redis.entries.filter (fun kv => kv.1 != "product:" ++ id)).filter
        (fun kv => kv.1 != "products:*") } : Redis).find ("product:" ++ id) = none := by
  have h₁ := find_erase_other
    { redis with entries := redis.entries.filter (fun kv => kv.1 != "product:" ++ id) }
    "products:*" ("product:" ++ id) (item_ne_star id)
  have h₂ := find_erase_same redis ("product:" ++ id)
  exact h₁.trans h₂

theorem del_ok_inv (redis redis' : Redis) (key : String) (removed : Bool)
    (h : RedisService.del redis key = .ok (redis', removed)) :
    redis' = { redis with entries := redis.entries.filter (fun kv => kv.1 != key) } := by
  by_cases hup : redis.reachable = true
  · rw [del_reachable _ _ hup] at h
    simp only [Except.ok.injEq, Prod.mk.injEq] at h
    exact h.1.symm
  · rw [del_unreachable _ _ (by simpa using hup)] at h
    exact Except.noConfusion h

theorem invalidate_ok_inv (redis redis' : Redis) (id : String)
    (h : ProductController.invalidate redis id = .ok redis') :
    redis' = { redis with
      entries := (redis.entries.filter (fun kv => kv.1 != "product:" ++ id)).filter
        (fun kv => kv.1 != "products:*") } := by
  by_cases hup : redis.reachable = true
  · rw [invalidate_reachable _ _ hup] at h
    simp only [Except.ok.injEq] at h
    exact h.symm
  · rw [invalidate_unreachable _ _ (by simpa using hup)] at h
    exact Except.noConfusion h

/-- The two deletions leave every list-cache entry where it was. -/
theorem find_list_invalidated (redis : Redis) (id : String) (query : ProductsQuery) :
    ({ redis with
      entries := (redis.entries.filter (fun kv => kv.1 != "product:" ++ id)).filter
        (fun kv => kv.1 != "products:*") } : Redis).find (ProductController.listCacheKey query)
      = redis.find (ProductController.listCacheKey query) := by
  have h₁ := find_erase_other
    { redis with entries := redis.entries.filter (fun kv => kv.1 != "product:" ++ id) }
    "products:*" _ (listCacheKey_ne_star query)
  have h₂ := find_erase_other redis ("product:" ++ id) _ (listCacheKey_ne_item query id)
  exact h₁.trans h₂

theorem createProduct_keeps_list (now : Nat) (newId : String) (w : World)
    (request : Request CreateProductBody) (query : ProductsQuery) :
    (ProductController.createProduct now newId w request).1.redis.find
        (ProductController.listCacheKey query)
      = w.redis.find (ProductController.listCacheKey query) ∧
    (ProductController.createProduct now newId w request).1.redis.reachable
      = w.redis.reachable := by
  unfold ProductController.createProduct
  simp only []
  split
  · exact ⟨rfl, rfl⟩
  · split
    · exact ⟨rfl, rfl⟩
    · split
      · exact ⟨rfl, rfl⟩
      · split
        · exact ⟨rfl, rfl⟩
        · rename_i redis removed hdel
          rw [del_ok_inv _ _ _ _ hdel]
          exact ⟨find_erase_other w.redis "products:*" _ (listCacheKey_ne_star query), rfl⟩

theorem updateProduct_keeps_list (now : Nat) (w : World) (id : String)
    (request : Request UpdateProductBody) (query : ProductsQuery) :
    (ProductController.updateProduct now w id request).1.redis.find
        (ProductController.listCacheKey query)
      = w.redis.find (ProductController.listCacheKey query) ∧
    (ProductController.updateProduct now w id request).1.redis.reachable
      = w.redis.reachable := by
  unfold ProductController.updateProduct
  simp only []
  split
  · exact ⟨rfl, rfl⟩
  · split
    · exact ⟨rfl, rfl⟩
    · split
      · exact ⟨rfl, rfl⟩
      · split
        · exact ⟨rfl, rfl⟩
        · split
          · exact ⟨rfl, rfl⟩
          · rename_i redis hinv
            rw [invalidate_ok_inv _ _ _ hinv]
            exact ⟨find_list_invalidated w.redis id query, rfl⟩

theorem deleteProduct_keeps_list {β : Type} (w : World) (id : String) (request : Request β)
    (query : ProductsQuery) :
    (ProductController.deleteProduct w id request).1.redis.find
        (ProductController.listCacheKey query)
      = w.redis.find (ProductController.listCacheKey query) ∧
    (ProductController.deleteProduct w id request).1.redis.reachable
      = w.redis.reachable := by
  unfold ProductController.deleteProduct
  split
  · exact ⟨rfl, rfl⟩
  · split
    · exact ⟨rfl, rfl⟩
    · split
      · exact ⟨rfl, rfl⟩
      · split
        · exact ⟨rfl, rfl⟩
        · rename_i redis hinv
          rw [invalidate_ok_inv _ _ _ hinv]
          exact ⟨find_list_invalidated w.redis id query, rfl⟩

theorem mutation_keeps_list (now : Nat) (w : World) (mutation : CatalogMutation)
    (query : ProductsQuery) :
    (mutation.run now w).1.redis.find (ProductController.listCacheKey query)
      = w.redis.find (ProductController.listCacheKey query) ∧
    (mutation.run now w).1.redis.reachable = w.redis.reachable := by
  cases mutation with
  | createProduct newId request => exact createProduct_keeps_list now newId w request query
  | updateProduct id request => exact updateProduct_keeps_list now w id request query
  | deleteProduct id request => exact deleteProduct_keeps_list w id request query

theorem findProductBySku_of_mem (db : Database) (sku : String)
    (h : ∃ p ∈ db.products, p.sku = sku) : ∃ p, db.findProductBySku sku = some p := by
  obtain ⟨p, hp, hs⟩ := h
  cases hfind : db.findProductBySku sku with
  | some v => exact ⟨v, rfl⟩
  | none =>
    have hnone := List.find?_eq_none.mp hfind p hp
    simp [hs] at hnone

theorem findProductBySku_of_not_mem (db : Database) (sku : String)
    (h : ∀ p ∈ db.products, p.sku ≠ sku) : db.findProductBySku sku = none := by
  apply List.find?_eq_none.mpr
  intro p hp
  simp [h p hp]

theorem any_sku_of_not_mem (db : Database) (sku : String)
    (h : ∀ p ∈ db.products, p.sku ≠ sku) :
    db.products.any (fun p => p.sku == sku) = false := by
  rw [List.any_eq_false]
  intro p hp
  simp [h p hp]

theorem findOtherProductWithSku_of_mem (db : Database) (sku id : String) (other : Product)
    (hmem : other ∈ db.products) (hsku : other.sku = sku) (hid : other.id ≠ id) :
    ∃ p, db.findOtherProductWithSku sku id = some p := by
  cases hfind : db.findOtherProductWithSku sku id with
  | some v => exact ⟨v, rfl⟩
  | none =>
    have hnone := List.find?_eq_none.mp hfind other hmem
    simp [hsku, hid] at hnone

theorem any_other_sku_false (db : Database) (id sku : String)
    (h : ∀ p ∈ db.products, p.id ≠ id → p.sku ≠ sku) :
    db.products.any (fun p => p.id != id && p.sku == sku) = false := by
  rw [List.any_eq_false]
  intro p hp
  by_cases hid : p.id = id
  · simp [hid]
  · simp [h p hp hid]

/-! ## Theorems: the catalog workflow -/

/-- C12: for a page of at least 1 and a limit in 1..100, `getProducts` on a cache miss replies
with `totalPages` the ceiling of `N / limit`, where `N` is the number of rows the filter
matches, `hasNextPage = (page < totalPages)` and `hasPrevPage = (page > 1)`; so
`hasNextPage` is false on the last page and `hasPrevPage` is false on page 1. -/
theorem getProducts_pagination (now : Nat) (w : World) (query : ProductsQuery) (cached : Json)
    (_hpage : 1 ≤ query.page) (hlimit : 1 ≤ query.limit) (_hmax : query.limit ≤ 100)
    (hget : RedisService.get w.redis now (ProductController.listCacheKey query) = .ok cached)
    (hmiss : cached.truthy = false) :
    ∃ products redis,
      ProductController.getProducts now w query
        = ({ w with redis := redis },
            .reply ⟨200, .obj [("products", products),
              ("pagination", .obj [("currentPage", .num query.page),
                ("totalPages", .num (⌈((w.db.countProducts
                    (ProductController.listFilter query) : Nat) : ℚ) / query.limit⌉₊ : Nat)),
                ("totalCount",
                  .num (w.db.countProducts (ProductController.listFilter query))),
                ("limit", .num query.limit),
                ("hasNextPage", .bool (decide (query.page < ⌈((w.db.countProducts
                    (ProductController.listFilter query) : Nat) : ℚ) / query.limit⌉₊))),
                ("hasPrevPage", .bool (decide (query.page > 1)))])]⟩) ∧
      (query.page = ⌈((w.db.countProducts (ProductController.listFilter query) : Nat) : ℚ)
            / query.limit⌉₊ →
        decide (query.page < ⌈((w.db.countProducts
            (ProductController.listFilter query) : Nat) : ℚ) / query.limit⌉₊) = false) ∧
      (query.page = 1 → decide (query.page > 1) = false) := by
  have hup : w.redis.reachable = true := by
    cases h : w.redis.reachable with
    | true => rfl
    | false => rw [get_unreachable _ _ _ h] at hget; exact Except.noConfusion hget
  have hceil := mathCeilDiv_eq_ceil (w.db.countProducts (ProductController.listFilter query))
    query.limit hlimit
  refine ⟨.arr ((w.db.findManyProducts (ProductController.listArgs query)).map Product.row),
    w.redis.put (ProductController.listCacheKey query)
      ⟨ProductController.listResult w.db query, some (now + 300)⟩, ?_, ?_, ?_⟩
  · rw [getProducts_miss now w query cached hget hmiss (listSkip_nonneg query _hpage)]
    simp only [ProductController.listResult, hceil]
  · intro h
    simp [← h]
  · intro h
    simp [h]

/-- C12 at a concrete input: the first page of three products, two a page. -/
theorem getProducts_pagination_witness :
    ∃ products redis,
      ProductController.getProducts 5 demoShop firstPage
        = ({ demoShop with redis := redis },
            .reply ⟨200, .obj [("products", products),
              ("pagination", .obj [("currentPage", .num firstPage.page),
                ("totalPages", .num (⌈((demoShop.db.countProducts
                    (ProductController.listFilter firstPage) : Nat) : ℚ)
                      / firstPage.limit⌉₊ : Nat)),
                ("totalCount",
                  .num (demoShop.db.countProducts (ProductController.listFilter firstPage))),
                ("limit", .num firstPage.limit),
                ("hasNextPage", .bool (decide (firstPage.page < ⌈((demoShop.db.countProducts
                    (ProductController.listFilter firstPage) : Nat) : ℚ)
                      / firstPage.limit⌉₊))),
                ("hasPrevPage", .bool (decide (firstPage.page > 1)))])]⟩) ∧
      (firstPage.page = ⌈((demoShop.db.countProducts
            (ProductController.listFilter firstPage) : Nat) : ℚ) / firstPage.limit⌉₊ →
        decide (firstPage.page < ⌈((demoShop.db.countProducts
            (ProductController.listFilter firstPage) : Nat) : ℚ) / firstPage.limit⌉₊)
          = false) ∧
      (firstPage.page = 1 → decide (firstPage.page > 1) = false) :=
  getProducts_pagination 5 demoShop firstPage .null (by decide) (by decide) (by decide)
    rfl rfl

/-- C13: after a `getProductById` that missed the cache and replied 200, the same call
repeated before the entry expires (600 s) replies with the identical payload, whatever the
store then holds: it reads nothing from the store.  The same holds for `getProducts` and its
entry (300 s). -/
theorem cached_reads_repeat (now₁ now₂ later₁ later₂ : Nat) (w v w₁ v₁ : World) (id : String)
    (query : ProductsQuery) (cached₁ cached₂ payload₁ payload₂ : Json)
    (hget₁ : RedisService.get w.redis now₁ ("product:" ++ id) = .ok cached₁)
    (hmiss₁ : cached₁.truthy = false)
    (hfirst₁ : ProductController.getProductById now₁ w id = (w₁, .reply ⟨200, payload₁⟩))
    (hsoon₁ : later₁ < now₁ + 600)
    (hget₂ : RedisService.get v.redis now₂ (ProductController.listCacheKey query)
      = .ok cached₂)
    (hmiss₂ : cached₂.truthy = false)
    (hfirst₂ : ProductController.getProducts now₂ v query = (v₁, .reply ⟨200, payload₂⟩))
    (hsoon₂ : later₂ < now₂ + 300) :
    (∀ db, ProductController.getProductById later₁ { w₁ with db := db } id
        = ({ w₁ with db := db }, .reply ⟨200, payload₁⟩)) ∧
    (∀ db, ProductController.getProducts later₂ { v₁ with db := db } query
        = ({ v₁ with db := db }, .reply ⟨200, payload₂⟩)) := by
  constructor
  · intro db
    rw [getProductById_miss now₁ w id cached₁ hget₁ hmiss₁] at hfirst₁
    cases hfound : w.db.findProductById id with
    | none =>
      simp only [hfound, Prod.mk.injEq, Outcome.reply.injEq, Reply.mk.injEq] at hfirst₁
      exact absurd hfirst₁.2.1 (by decide)
    | some found =>
      simp only [hfound, Prod.mk.injEq, Outcome.reply.injEq, Reply.mk.injEq, true_and]
        at hfirst₁
      obtain ⟨hw, hpayload⟩ := hfirst₁
      subst hw hpayload
      have hup := reachable_of_get _ _ _ _ hget₁
      refine getProductById_hit later₁ _ id found.row ?_ (row_truthy found)
      exact get_of_find _ later₁ (now₁ + 600) _ _ (by simpa [Redis.put] using hup)
        (find_put_same _ _ _) hsoon₁
  · intro db
    rw [getProducts_miss now₂ v query cached₂ hget₂ hmiss₂
      (getProducts_replied_skip now₂ v v₁ query cached₂ _ hget₂ hmiss₂ hfirst₂)] at hfirst₂
    simp only [Prod.mk.injEq, Outcome.reply.injEq, Reply.mk.injEq, true_and] at hfirst₂
    obtain ⟨hv, hpayload⟩ := hfirst₂
    subst hv hpayload
    have hup := reachable_of_get _ _ _ _ hget₂
    refine getProducts_hit later₂ _ query _ ?_ (listResult_truthy v.db query)
    exact get_of_find _ later₂ (now₂ + 300) _ _ (by simpa [Redis.put] using hup)
      (find_put_same _ _ _) hsoon₂

/-- C13 at a concrete input: the laptop and the first page, read at time 5 and again at time
100. -/
theorem cached_reads_repeat_witness :
    (∀ db, ProductController.getProductById 100
        { (ProductController.getProductById 5 demoShop "p1").1 with db := db } "p1"
        = ({ (ProductController.getProductById 5 demoShop "p1").1 with db := db },
            .reply ⟨200, .obj [("product", laptop.row)]⟩)) ∧
    (∀ db, ProductController.getProducts 100
        { (ProductController.getProducts 5 demoShop firstPage).1 with db := db } firstPage
        = ({ (ProductController.getProducts 5 demoShop firstPage).1 with db := db },
            .reply ⟨200, ProductController.listResult demoShop.db firstPage⟩)) :=
  cached_reads_repeat 5 5 100 100 demoShop demoShop
    (ProductController.getProductById 5 demoShop "p1").1
    (ProductController.getProducts 5 demoShop firstPage).1 "p1" firstPage .null .null
    (.obj [("product", laptop.row)]) (ProductController.listResult demoShop.db firstPage)
    rfl rfl rfl (by decide) rfl rfl rfl (by decide)

/-- C14: after an `updateProduct` that replied 200, the cache entry `product:<id>` is absent and
the next `getProductById` for that id replies 200 with the updated row; after a
`deleteProduct` that replied 200, the entry is absent and the next `getProductById` replies
404; whatever the cache held before. -/
theorem item_cache_invalidated {β : Type} (now later₁ later₂ : Nat) (w w' v v' : World)
    (id id' : String) (request : Request UpdateProductBody) (request' : Request β)
    (body body' : Json)
    (hupdate : ProductController.updateProduct now w id request = (w', .reply ⟨200, body⟩))
    (hdelete : ProductController.deleteProduct v id' request' = (v', .reply ⟨200, body'⟩)) :
    (w'.redis.find ("product:" ++ id) = none ∧
      ∃ existing, w.db.findProductById id = some existing ∧
        body = .obj [("message", .str "Produit mis à jour avec succès"),
          ("product", (request.body.apply now existing).row)] ∧
        ∃ w'', ProductController.getProductById later₁ w' id
          = (w'', .reply ⟨200, .obj [("product", (request.body.apply now existing).row)]⟩)) ∧
    (v'.redis.find ("product:" ++ id') = none ∧
      ProductController.getProductById later₂ v' id'
        = (v', .reply ⟨404, envelope "Not Found" "Produit non trouvé"⟩)) := by
  constructor
  · obtain ⟨existing, hfound, hup, hw', hbody⟩ := updateProduct_ok now w w' id request body hupdate
    subst hw'
    have habsent := find_item_invalidated w.redis id
    refine ⟨habsent, existing, hfound, hbody, ?_⟩
    have hget : RedisService.get
        ({ w.redis with
          entries := (w.redis.entries.filter (fun kv => kv.1 != "product:" ++ id)).filter
            (fun kv => kv.1 != "products:*") } : Redis) later₁ ("product:" ++ id)
        = .ok .null := by
      rw [get_reachable _ _ _ (by simpa using hup), habsent]
    have hnew : (request.body.apply now existing).id = id :=
      findProductById_id w.db id existing hfound
    have hfind := find_map_replace w.db.products id existing _ hfound hnew
    have hrun := getProductById_miss later₁
      { w with
        db := { w.db with
          products := w.db.products.map
            (fun p => if p.id == id then request.body.apply now existing else p) }
        redis := { w.redis with
          entries := (w.redis.entries.filter (fun kv => kv.1 != "product:" ++ id)).filter
            (fun kv => kv.1 != "products:*") } } id .null hget rfl
    simp only [Database.findProductById, hfind] at hrun
    exact ⟨_, hrun⟩
  · obtain ⟨hup, hv'⟩ := deleteProduct_ok v v' id' request' body' hdelete
    subst hv'
    have habsent := find_item_invalidated v.redis id'
    refine ⟨habsent, ?_⟩
    have hget : RedisService.get
        ({ v.redis with
          entries := (v.redis.entries.filter (fun kv => kv.1 != "product:" ++ id')).filter
            (fun kv => kv.1 != "products:*") } : Redis) later₂ ("product:" ++ id')
        = .ok .null := by
      rw [get_reachable _ _ _ (by simpa using hup), habsent]
    rw [getProductById_miss later₂ _ id' .null hget rfl]
    simp only [Database.findProductById, find_filter_removed]

/-- C14 at a concrete input: with the laptop cached, an administrator lowers its price at time
9 and deletes the mouse; both are then read at time 20. -/
theorem item_cache_invalidated_witness :
    ((ProductController.updateProduct 9 demoShopWarm "p1"
          ⟨none, some adminIdentity, { price := some 89900 }⟩).1.redis.find ("product:" ++ "p1")
        = none ∧
      ∃ existing, demoShopWarm.db.findProductById "p1" = some existing ∧
        Json.obj [("message", .str "Produit mis à jour avec succès"),
            ("product", (UpdateProductBody.apply { price := some 89900 } 9 laptop).row)]
          = .obj [("message", .str "Produit mis à jour avec succès"),
            ("product", (UpdateProductBody.apply { price := some 89900 } 9 existing).row)] ∧
        ∃ w'', ProductController.getProductById 20
            (ProductController.updateProduct 9 demoShopWarm "p1"
              ⟨none, some adminIdentity, { price := some 89900 }⟩).1 "p1"
          = (w'', .reply ⟨200, .obj [("product",
              (UpdateProductBody.apply { price := some 89900 } 9 existing).row)]⟩)) ∧
    ((ProductController.deleteProduct demoShopWarm "p2"
          (⟨none, some adminIdentity, ()⟩ : Request Unit)).1.redis.find ("product:" ++ "p2")
        = none ∧
      ProductController.getProductById 20
          (ProductController.deleteProduct demoShopWarm "p2"
            (⟨none, some adminIdentity, ()⟩ : Request Unit)).1 "p2"
        = ((ProductController.deleteProduct demoShopWarm "p2"
            (⟨none, some adminIdentity, ()⟩ : Request Unit)).1,
          .reply ⟨404, envelope "Not Found" "Produit non trouvé"⟩)) :=
  item_cache_invalidated 9 20 20 demoShopWarm _ demoShopWarm _ "p1" "p2"
    ⟨none, some adminIdentity, { price := some 89900 }⟩
    (⟨none, some adminIdentity, ()⟩ : Request Unit)
    (.obj [("message", .str "Produit mis à jour avec succès"),
      ("product", (UpdateProductBody.apply { price := some 89900 } 9 laptop).row)])
    (.obj [("message", .str "Produit supprimé avec succès")])
    rfl rfl

/-- C15: `RedisService.del` removes the entries of the one key it is given and no other; no
list-cache key `products:` + `JSON.stringify(query)` is the literal `products:*`; so
`createProduct`, `updateProduct` and `deleteProduct` leave every list-cache entry as it was,
and a `getProducts` result cached before such a request is what the next identical
`getProducts` replies, unchanged, until the entry expires (300 s). -/
theorem list_cache_survives_mutations (now₀ now₁ now₂ : Nat) (w w₁ : World)
    (query : ProductsQuery) (cached result : Json) (mutation : CatalogMutation)
    (hget : RedisService.get w.redis now₀ (ProductController.listCacheKey query) = .ok cached)
    (hmiss : cached.truthy = false)
    (hfirst : ProductController.getProducts now₀ w query = (w₁, .reply ⟨200, result⟩))
    (hsoon : now₂ < now₀ + 300) :
    (∀ (redis redis' : Redis) (key : String) (removed : Bool),
        RedisService.del redis key = .ok (redis', removed) →
        ∀ kv, kv ∈ redis'.entries ↔ kv ∈ redis.entries ∧ kv.1 ≠ key) ∧
    (∀ q, ProductController.listCacheKey q ≠ "products:*") ∧
    (∀ q, (mutation.run now₁ w₁).1.redis.find (ProductController.listCacheKey q)
        = w₁.redis.find (ProductController.listCacheKey q)) ∧
    ProductController.getProducts now₂ (mutation.run now₁ w₁).1 query
      = ((mutation.run now₁ w₁).1, .reply ⟨200, result⟩) := by
  refine ⟨?_, listCacheKey_ne_star, fun q => (mutation_keeps_list now₁ w₁ mutation q).1, ?_⟩
  · intro redis redis' key removed hdel kv
    rw [del_ok_inv _ _ _ _ hdel]
    simp [List.mem_filter]
  · rw [getProducts_miss now₀ w query cached hget hmiss
      (getProducts_replied_skip now₀ w w₁ query cached _ hget hmiss hfirst)] at hfirst
    simp only [Prod.mk.injEq, Outcome.reply.injEq, Reply.mk.injEq, true_and] at hfirst
    obtain ⟨hw, hresult⟩ := hfirst
    subst hw hresult
    have hup := reachable_of_get _ _ _ _ hget
    obtain ⟨hkeep, hreach⟩ := mutation_keeps_list now₁
      { w with
        redis := w.redis.put (ProductController.listCacheKey query)
          ⟨ProductController.listResult w.db query, some (now₀ + 300)⟩ } mutation query
    refine getProducts_hit now₂ _ query _ ?_ (listResult_truthy w.db query)
    refine get_of_find _ now₂ (now₀ + 300) _ _ ?_ ?_ hsoon
    · rw [hreach]
      simpa [Redis.put] using hup
    · rw [hkeep]
      exact find_put_same _ _ _

/-- C15 at a concrete input: the first page is cached at time 5, a keyboard is added at time 9,
and the first page read at time 100 is still the one computed before the keyboard existed. -/
theorem list_cache_survives_mutations_witness :
    (∀ (redis redis' : Redis) (key : String) (removed : Bool),
        RedisService.del redis key = .ok (redis', removed) →
        ∀ kv, kv ∈ redis'.entries ↔ kv ∈ redis.entries ∧ kv.1 ≠ key) ∧
    (∀ q, ProductController.listCacheKey q ≠ "products:*") ∧
    (∀ q, ((CatalogMutation.createProduct "p4" ⟨none, some adminIdentity, keyboardBody⟩).run 9
          (ProductController.getProducts 5 demoShop firstPage).1).1.redis.find
            (ProductController.listCacheKey q)
        = (ProductController.getProducts 5 demoShop firstPage).1.redis.find
            (ProductController.listCacheKey q)) ∧
    ProductController.getProducts 100
        ((CatalogMutation.createProduct "p4" ⟨none, some adminIdentity, keyboardBody⟩).run 9
          (ProductController.getProducts 5 demoShop firstPage).1).1 firstPage
      = (((CatalogMutation.createProduct "p4" ⟨none, some adminIdentity, keyboardBody⟩).run 9
          (ProductController.getProducts 5 demoShop firstPage).1).1,
        .reply ⟨200, ProductController.listResult demoShop.db firstPage⟩) :=
  list_cache_survives_mutations 5 9 100 demoShop
    (ProductController.getProducts 5 demoShop firstPage).1 firstPage .null
    (ProductController.listResult demoShop.db firstPage)
    (CatalogMutation.createProduct "p4" ⟨none, some adminIdentity, keyboardBody⟩)
    rfl rfl rfl (by decide)

/-- C16: for a create request of an authenticated caller, when a stored product has the SKU
of the request `createProduct` replies 409 Conflict and leaves the store and the cache as
they were; when none has it (and the cache is reachable) it adds exactly one product, with
the fields of the request, and replies 201 with that product. -/
theorem createProduct_contract (now : Nat) (newId : String) (w : World)
    (request : Request CreateProductBody) (identity : Claims)
    (hidentity : request.user = some identity) :
    ((∃ p ∈ w.db.products, p.sku = request.body.sku) →
      ProductController.createProduct now newId w request
        = (w, .reply ⟨409, envelope "Conflict" "Un produit avec ce SKU existe déjà"⟩)) ∧
    ((∀ p ∈ w.db.products, p.sku ≠ request.body.sku) → w.redis.reachable = true →
      ProductController.createProduct now newId w request
        = ({ w with
              db := { w.db with products := w.db.products ++
                [{ id := newId, name := request.body.name,
                   description := request.body.description, price := request.body.price,
                   quantity := request.body.quantity, sku := request.body.sku,
                   category := request.body.category, isActive := request.body.isActive,
                   createdAt := now, updatedAt := now }] }
              redis := { w.redis with
                entries := w.redis.entries.filter (fun kv => kv.1 != "products:*") } },
            .reply ⟨201, .obj [("message", .str "Produit créé avec succès"),
              ("product", Product.row
                { id := newId, name := request.body.name,
                  description := request.body.description, price := request.body.price,
                  quantity := request.body.quantity, sku := request.body.sku,
                  category := request.body.category, isActive := request.body.isActive,
                  createdAt := now, updatedAt := now })]⟩)) := by
  constructor
  · intro hdup
    obtain ⟨p, hfind⟩ := findProductBySku_of_mem w.db request.body.sku hdup
    simp only [ProductController.createProduct, hidentity, hfind]
  · intro hfree hup
    have hfind := findProductBySku_of_not_mem w.db request.body.sku hfree
    have hany := any_sku_of_not_mem w.db request.body.sku hfree
    simp only [ProductController.createProduct, hidentity, hfind, Database.createProduct, hany,
      del_reachable w.redis _ hup]
    rfl

/-- C16 at a concrete input: an administrator adds a keyboard to the three products, and
then tries to add it once more. -/
theorem createProduct_contract_witness :
    ProductController.createProduct 9 "p4" demoShop ⟨none, some adminIdentity, keyboardBody⟩
      = ({ demoShop with
            db := { demoShop.db with products := demoShop.db.products ++
              [{ id := "p4", name := "Keyboard", description := none, price := 4999,
                 quantity := 12, sku := "KEY-1", category := "Accessories", isActive := true,
                 createdAt := 9, updatedAt := 9 }] }
            redis := { demoShop.redis with
              entries := demoShop.redis.entries.filter (fun kv => kv.1 != "products:*") } },
          .reply ⟨201, .obj [("message", .str "Produit créé avec succès"),
            ("product", Product.row
              { id := "p4", name := "Keyboard", description := none, price := 4999,
                quantity := 12, sku := "KEY-1", category := "Accessories", isActive := true,
                createdAt := 9, updatedAt := 9 })]⟩) ∧
    ProductController.createProduct 11 "p5"
        (ProductController.createProduct 9 "p4" demoShop
          ⟨none, some adminIdentity, keyboardBody⟩).1
        ⟨none, some adminIdentity, keyboardBody⟩
      = ((ProductController.createProduct 9 "p4" demoShop
          ⟨none, some adminIdentity, keyboardBody⟩).1,
        .reply ⟨409, envelope "Conflict" "Un produit avec ce SKU existe déjà"⟩) :=
  ⟨(createProduct_contract 9 "p4" demoShop ⟨none, some adminIdentity, keyboardBody⟩
      adminIdentity rfl).2 (by decide) rfl,
    (createProduct_contract 11 "p5" _ ⟨none, some adminIdentity, keyboardBody⟩
      adminIdentity rfl).1 (by decide)⟩

/-- C17: for an update request of an authenticated caller, `updateProduct` replies 404 when no
product has the id, and 409 when the SKU of the body differs from the current SKU of the
product and another product has it; both leave the store and the cache as they were.  An
update whose SKU is the product's own current SKU is not answered 409 (in a store where no
other product has that SKU). -/
theorem updateProduct_rejections (now : Nat) (w : World) (id : String)
    (request : Request UpdateProductBody) (identity : Claims)
    (hidentity : request.user = some identity) :
    (w.db.findProductById id = none →
      ProductController.updateProduct now w id request
        = (w, .reply ⟨404, envelope "Not Found" "Produit non trouvé"⟩)) ∧
    (∀ existing sku other, w.db.findProductById id = some existing →
      request.body.sku = some sku → sku ≠ "" → sku ≠ existing.sku →
      other ∈ w.db.products → other.sku = sku → other.id ≠ id →
      ProductController.updateProduct now w id request
        = (w, .reply ⟨409, envelope "Conflict" "Un produit avec ce SKU existe déjà"⟩)) ∧
    (∀ existing, w.db.findProductById id = some existing →
      request.body.sku = some existing.sku →
      (∀ p ∈ w.db.products, p.id ≠ id → p.sku ≠ existing.sku) →
      (ProductController.updateProduct now w id request).2.response.code ≠ 409) := by
  refine ⟨?_, ?_, ?_⟩
  · intro hnone
    simp only [ProductController.updateProduct, hidentity, hnone]
  · intro existing sku other hfound hsku hne hdiff hmem hother hid
    obtain ⟨p, hdup⟩ := findOtherProductWithSku_of_mem w.db sku id other hmem hother hid
    simp [ProductController.updateProduct, hidentity, hfound, hsku, hne, hdiff, hdup]
  · intro existing hfound hsku hunique
    have hany := any_other_sku_false w.db id existing.sku hunique
    have happly : (request.body.apply now existing).sku = existing.sku := by
      simp [UpdateProductBody.apply, hsku]
    have hupd : w.db.updateProduct now id request.body
        = .ok ({ w.db with
            products := w.db.products.map
              (fun p => if p.id == id then request.body.apply now existing else p) },
          request.body.apply now existing) := by
      simp only [Database.updateProduct, hfound, happly, hany, Bool.false_eq_true, if_false]
    by_cases hup : w.redis.reachable = true
    · simp [ProductController.updateProduct, hidentity, hfound, hsku, hupd,
        invalidate_reachable w.redis id hup, Outcome.response]
    · simp [ProductController.updateProduct, hidentity, hfound, hsku, hupd,
        invalidate_unreachable w.redis id (by simpa using hup), Outcome.response,
        errorHandler, redisUnavailable]

/-- C17 at a concrete input: an administrator updates a product that does not exist, gives
the laptop the SKU of the mouse, and renames the laptop while sending its own SKU. -/
theorem updateProduct_rejections_witness :
    ProductController.updateProduct 9 demoShop "p7"
        ⟨none, some adminIdentity, { name := some "Notebook" }⟩
      = (demoShop, .reply ⟨404, envelope "Not Found" "Produit non trouvé"⟩) ∧
    ProductController.updateProduct 9 demoShop "p1"
        ⟨none, some adminIdentity, { sku := some "MOU-1" }⟩
      = (demoShop, .reply ⟨409, envelope "Conflict" "Un produit avec ce SKU existe déjà"⟩) ∧
    (ProductController.updateProduct 9 demoShop "p1"
        ⟨none, some adminIdentity,
          { name := some "Notebook", sku := some "LAP-1" }⟩).2.response.code ≠ 409 :=
  ⟨(updateProduct_rejections 9 demoShop "p7"
      ⟨none, some adminIdentity, { name := some "Notebook" }⟩ adminIdentity rfl).1 (by decide),
    (updateProduct_rejections 9 demoShop "p1"
      ⟨none, some adminIdentity, { sku := some "MOU-1" }⟩ adminIdentity rfl).2.1
      laptop "MOU-1" mouse (by decide) rfl (by decide) (by decide) (by decide) rfl (by decide),
    (updateProduct_rejections 9 demoShop "p1"
      ⟨none, some adminIdentity, { name := some "Notebook", sku := some "LAP-1" }⟩
      adminIdentity rfl).2.2 laptop (by decide) rfl (by decide)⟩

/-! ## Lemmas: the gate over time -/

/-- A token the gate's check accepts is accepted at any later time before its expiry. -/
theorem jwtVerify_later (lib : JwtLib) (now₁ now₂ : Nat) (token secret : String)
    (claims : Claims) (h : jwtVerify lib now₁ token secret {} = .ok claims)
    (hlater : now₁ ≤ now₂) (hlive : ∀ e, claims.exp = some e → now₂ < e) :
    jwtVerify lib now₂ token secret {} = .ok claims := by
  unfold jwtVerify at h ⊢
  cases hparse : lib.parse token with
  | none => simp [hparse] at h
  | some jws =>
    simp only [hparse] at h ⊢
    by_cases hkey : jws.key ≠ secret
    · simp [hkey] at h
    · by_cases hnbf : jws.claims.nbf.any (fun nbf => nbf > now₁) = true
      · simp [hkey, hnbf] at h
      · by_cases hexp : jws.claims.exp.any (fun exp => now₁ ≥ exp) = true
        · simp [hkey, hnbf, hexp] at h
        · simp [hkey, hnbf, hexp] at h
          subst h
          have hnbf₂ : jws.claims.nbf.any (fun nbf => nbf > now₂) = false := by
            cases hn : jws.claims.nbf with
            | none => rfl
            | some n =>
              simp only [hn, Option.any_some, gt_iff_lt, decide_eq_true_eq, not_lt] at hnbf
              simp only [Option.any_some, gt_iff_lt, decide_eq_false_iff_not, not_lt]
              omega
          have hexp₂ : jws.claims.exp.any (fun exp => now₂ ≥ exp) = false := by
            cases he : jws.claims.exp with
            | none => rfl
            | some e =>
              have := hlive e he
              simp only [Option.any_some, ge_iff_le, decide_eq_false_iff_not, not_le]
              exact this
          simp [hkey, hnbf₂, hexp₂]

theorem authenticate_later {β : Type} (lib : JwtLib) (config : Config) (now₁ now₂ : Nat)
    (request : Request β) (claims : Claims)
    (h : authenticate lib config now₁ request = ({ request with user := some claims }, none))
    (hlater : now₁ ≤ now₂) (hlive : ∀ e, claims.exp = some e → now₂ < e) :
    authenticate lib config now₂ request = ({ request with user := some claims }, none) := by
  rw [authenticate_eq] at h ⊢
  cases htoken : bearerToken request with
  | none => simp [htoken] at h
  | some token =>
    simp only [htoken] at h ⊢
    cases hver : jwtVerify lib now₁ token config.jwtSecret {} with
    | error e => simp [hver] at h
    | ok decoded =>
      simp only [hver, Prod.mk.injEq, and_true] at h
      have hclaims : decoded = claims := by
        have := congrArg Request.user h
        simpa using this
      subst hclaims
      rw [jwtVerify_later lib now₁ now₂ token config.jwtSecret decoded hver hlater hlive]

/-- The gate accepts a token of a lawful library that is signed with the shared secret, active
and not expired. -/
theorem authenticate_accepts {β : Type} (lib : JwtLib) (hlaw : lib.Lawful) (config : Config)
    (now : Nat) (j : Jws) (request : Request β)
    (hreq : request.authorization = some ("Bearer " ++ lib.serialize j))
    (hkey : j.key = config.jwtSecret)
    (hnbf : j.claims.nbf.any (fun nbf => nbf > now) = false)
    (hexp : j.claims.exp.any (fun exp => now ≥ exp) = false) :
    authenticate lib config now request = ({ request with user := some j.claims }, none) := by
  rw [authenticate_eq, bearerToken_bearer_append _ _ hreq]
  simp only []
  rw [jwtVerify_serialize lib hlaw]
  simp [hkey, hnbf, hexp]

/-! ## Theorems: password change, logout and cache failures -/

/-- C18: for an authenticated user, `changePassword` never changes the cache; with a current
password that does not verify against the stored digest it replies 400 and leaves the store as
it was; with a correct one (in a store where no other user has this user's email) it replies
200 and writes the digest of the new password on the rows of that user id and on no other row,
every other column of the user staying as it was but `updatedAt`, which the store sets at
every update. -/
theorem changePassword_frame (env : Env) (now : Nat) (w : World)
    (request : Request ChangePasswordBody) (identity : Claims)
    (hidentity : request.user = some identity) :
    (AuthController.changePassword env now w request).1.redis = w.redis ∧
    (∀ user, w.db.findUniqueById identity.id = some user →
      env.bcrypt.compare request.body.currentPassword user.password = false →
      AuthController.changePassword env now w request
        = (w, .reply ⟨400, envelope "Bad Request" "Mot de passe actuel incorrect"⟩)) ∧
    (∀ user, w.db.findUniqueById identity.id = some user →
      env.bcrypt.compare request.body.currentPassword user.password = true →
      (∀ u ∈ w.db.users, u.id ≠ identity.id → u.email ≠ user.email) →
      AuthController.changePassword env now w request
        = ({ w with
              db := { w.db with
                users := w.db.users.map (fun u =>
                  if u.id == identity.id then
                    { user with
                      password := env.bcrypt.hash request.body.newPassword
                      updatedAt := now }
                  else u) } },
            .reply ⟨200, .obj [("message", .str "Mot de passe changé avec succès")]⟩)) := by
  refine ⟨?_, ?_, ?_⟩
  · unfold AuthController.changePassword
    simp only [hidentity]
    split
    · rfl
    · split
      · rfl
      · split <;> rfl
  · intro user hfound hwrong
    simp [AuthController.changePassword, hidentity, hfound, HashService.verifyPassword, hwrong]
  · intro user hfound hright hunique
    have hany : w.db.users.any (fun u => u.id != identity.id && u.email == user.email)
        = false := by
      rw [List.any_eq_false]
      intro u hu
      by_cases hid : u.id = identity.id
      · simp [hid]
      · simp [hunique u hu hid]
    simp [AuthController.changePassword, hidentity, hfound, HashService.verifyPassword,
      hright, HashService.hashPassword, Database.update, Database.applyData, hany]

/-- C18 at a concrete input: Ann changes her password at time 9, first with a wrong current
password, then with the right one. -/
theorem changePassword_frame_witness :
    AuthController.changePassword demoEnv 9 demoWorld
        ⟨none, some ⟨"u1", "ann@x.com", "USER", 7, none, none, none, none⟩,
          ⟨"guess", "N3wPassw0rd!"⟩⟩
      = (demoWorld, .reply ⟨400, envelope "Bad Request" "Mot de passe actuel incorrect"⟩) ∧
    AuthController.changePassword demoEnv 9 demoWorld
        ⟨none, some ⟨"u1", "ann@x.com", "USER", 7, none, none, none, none⟩,
          ⟨"Passw0rd!", "N3wPassw0rd!"⟩⟩
      = ({ demoWorld with
            db := { demoWorld.db with
              users := demoWorld.db.users.map (fun u =>
                if u.id == "u1" then
                  { ann with
                    password := demoEnv.bcrypt.hash "N3wPassw0rd!"
                    updatedAt := 9 }
                else u) } },
          .reply ⟨200, .obj [("message", .str "Mot de passe changé avec succès")]⟩) :=
  ⟨(changePassword_frame demoEnv 9 demoWorld
      ⟨none, some ⟨"u1", "ann@x.com", "USER", 7, none, none, none, none⟩,
        ⟨"guess", "N3wPassw0rd!"⟩⟩ _ rfl).2.1 ann (by decide) (by decide),
    (changePassword_frame demoEnv 9 demoWorld
      ⟨none, some ⟨"u1", "ann@x.com", "USER", 7, none, none, none, none⟩,
        ⟨"Passw0rd!", "N3wPassw0rd!"⟩⟩ _ rfl).2.2 ann (by decide) (by decide) (by decide)⟩

/-- C19: `logout` leaves the store as it was, adds nothing to the cache and keeps every entry
whose key is not `user:<id>` of the caller; with the cache reachable it replies 200 and no
entry is left under that key.  The gate `authenticate` takes the header, the secret and the
clock, and neither the store nor the cache: a request it accepts is accepted at any later
time before the expiry of its token, whatever was logged out or changed in between. -/
theorem logout_frame {β γ : Type} (lib : JwtLib) (config : Config) (now₁ now₂ : Nat)
    (w : World) (request : Request β) (identity : Claims) (bearer : Request γ)
    (claims : Claims)
    (hidentity : request.user = some identity)
    (haccepted : authenticate lib config now₁ bearer
      = ({ bearer with user := some claims }, none))
    (hlater : now₁ ≤ now₂) (hlive : ∀ e, claims.exp = some e → now₂ < e) :
    (AuthController.logout w request).1.db = w.db ∧
    (∀ kv, kv ∈ (AuthController.logout w request).1.redis.entries → kv ∈ w.redis.entries) ∧
    (∀ kv, kv ∈ w.redis.entries → kv.1 ≠ "user:" ++ identity.id →
      kv ∈ (AuthController.logout w request).1.redis.entries) ∧
    (w.redis.reachable = true →
      (AuthController.logout w request).2
          = .reply ⟨200, .obj [("message", .str "Déconnexion réussie")]⟩ ∧
        (AuthController.logout w request).1.redis.find ("user:" ++ identity.id) = none) ∧
    authenticate lib config now₂ bearer = ({ bearer with user := some claims }, none) := by
  refine ⟨?_, ?_, ?_, ?_, authenticate_later lib config now₁ now₂ bearer claims haccepted
    hlater hlive⟩
  · unfold AuthController.logout
    simp only [hidentity]
    split <;> rfl
  · intro kv hkv
    unfold AuthController.logout at hkv
    simp only [hidentity] at hkv
    split at hkv
    · exact hkv
    · rename_i redis removed hdel
      exact mem_del _ _ _ _ hdel kv.1 kv.2 hkv
  · intro kv hkv hne
    unfold AuthController.logout
    simp only [hidentity]
    split
    · exact hkv
    · rename_i redis removed hdel
      rw [del_ok_inv _ _ _ _ hdel]
      simp only [List.mem_filter]
      exact ⟨hkv, by simpa using hne⟩
  · intro hup
    simp only [AuthController.logout, hidentity, del_reachable w.redis _ hup, true_and]
    exact find_erase_same w.redis _

/-- C19 at a concrete input: Ann's token is accepted at time 8, she logs out, and the token is
still accepted at time 5000; the other cache entry stays. -/
theorem logout_frame_witness :
    (AuthController.logout demoWorldSession
        (⟨none, some annJws.claims, ()⟩ : Request Unit)).1.db = demoWorldSession.db ∧
    (∀ kv, kv ∈ (AuthController.logout demoWorldSession
          (⟨none, some annJws.claims, ()⟩ : Request Unit)).1.redis.entries →
        kv ∈ demoWorldSession.redis.entries) ∧
    (∀ kv, kv ∈ demoWorldSession.redis.entries → kv.1 ≠ "user:" ++ annJws.claims.id →
      kv ∈ (AuthController.logout demoWorldSession
        (⟨none, some annJws.claims, ()⟩ : Request Unit)).1.redis.entries) ∧
    (demoWorldSession.redis.reachable = true →
      (AuthController.logout demoWorldSession
          (⟨none, some annJws.claims, ()⟩ : Request Unit)).2
          = .reply ⟨200, .obj [("message", .str "Déconnexion réussie")]⟩ ∧
        (AuthController.logout demoWorldSession
          (⟨none, some annJws.claims, ()⟩ : Request Unit)).1.redis.find
            ("user:" ++ annJws.claims.id) = none) ∧
    authenticate unaryJwt ⟨"s3cret", 604800⟩ 5000
        (⟨some ("Bearer " ++ unaryJwt.serialize annJws), none, ()⟩ : Request Unit)
      = ({ (⟨some ("Bearer " ++ unaryJwt.serialize annJws), none, ()⟩ : Request Unit) with
            user := some annJws.claims }, none) :=
  logout_frame unaryJwt ⟨"s3cret", 604800⟩ 8 5000 demoWorldSession
    (⟨none, some annJws.claims, ()⟩ : Request Unit) annJws.claims
    (⟨some ("Bearer " ++ unaryJwt.serialize annJws), none, ()⟩ : Request Unit) annJws.claims
    rfl
    (authenticate_accepts unaryJwt unaryJwt_lawful ⟨"s3cret", 604800⟩ 8 annJws
      (⟨some ("Bearer " ++ unaryJwt.serialize annJws), none, ()⟩ : Request Unit)
      rfl rfl rfl rfl)
    (by decide)
    (fun e he => by
      have h : e = 604807 := (Option.some.inj he).symm
      omega)

/-- C20, counterexample: with the cache out of reach, `getProductById` for the laptop, which
the store holds, does not reply with it: the handler throws the error of the cache read and
the client receives 500. -/
theorem getProductById_cache_failure_fatal :
    demoShopOffline.db.findProductById "p1" = some laptop ∧
    ProductController.getProductById 5 demoShopOffline "p1"
      = (demoShopOffline, .throw redisUnavailable) ∧
    (ProductController.getProductById 5 demoShopOffline "p1").2.response
      = ⟨500, envelope "Error" "Erreur interne du serveur"⟩ := by
  refine ⟨by decide, rfl, rfl⟩

/-- C20, amended: on the cache-aside read paths (`getProductById`, `getProducts`,
`getProductStats`, `getProfile`) a failure of the cache read is fatal: when the cache is out of
reach the handler throws the error of the read without reading the store, the state is as it
was, and the client receives the error handler's reply, 500 with the generic message. -/
theorem cache_read_failure_fatal {β γ : Type} (now : Nat) (w : World) (id : String)
    (query : ProductsQuery) (statsRequest : Request β) (profileRequest : Request γ)
    (admin user : Claims)
    (hdown : w.redis.reachable = false)
    (hadmin : statsRequest.user = some admin) (huser : profileRequest.user = some user) :
    ProductController.getProductById now w id = (w, .throw redisUnavailable) ∧
    ProductController.getProducts now w query = (w, .throw redisUnavailable) ∧
    ProductController.getProductStats now w statsRequest = (w, .throw redisUnavailable) ∧
    AuthController.getProfile now w profileRequest = (w, .throw redisUnavailable) ∧
    (Outcome.throw redisUnavailable).response
      = ⟨500, envelope "Error" "Erreur interne du serveur"⟩ := by
  refine ⟨?_, ?_, ?_, ?_, rfl⟩
  · simp only [ProductController.getProductById, get_unreachable _ _ _ hdown]
  · simp only [ProductController.getProducts, get_unreachable _ _ _ hdown]
  · simp only [ProductController.getProductStats, hadmin, get_unreachable _ _ _ hdown]
  · simp only [AuthController.getProfile, huser, get_unreachable _ _ _ hdown]

/-- C20, amended, at a concrete input: the four reads with the cache out of reach. -/
theorem cache_read_failure_fatal_witness :
    ProductController.getProductById 5 demoShopOffline "p1"
      = (demoShopOffline, .throw redisUnavailable) ∧
    ProductController.getProducts 5 demoShopOffline firstPage
      = (demoShopOffline, .throw redisUnavailable) ∧
    ProductController.getProductStats 5 demoShopOffline
        (⟨none, some adminIdentity, ()⟩ : Request Unit)
      = (demoShopOffline, .throw redisUnavailable) ∧
    AuthController.getProfile 5 demoShopOffline
        (⟨none, some annJws.claims, ()⟩ : Request Unit)
      = (demoShopOffline, .throw redisUnavailable) ∧
    (Outcome.throw redisUnavailable).response
      = ⟨500, envelope "Error" "Erreur interne du serveur"⟩ :=
  cache_read_failure_fatal 5 demoShopOffline "p1" firstPage
    (⟨none, some adminIdentity, ()⟩ : Request Unit)
    (⟨none, some annJws.claims, ()⟩ : Request Unit) adminIdentity annJws.claims rfl rfl rfl

/-! ## Theorems: cache failures on the write path -/

/-- C21, counterexample: with the cache out of reach, `createProduct` for a keyboard whose SKU
no product has adds the row to the store and then throws the error of the cache delete; the
client receives 500, not the 201 reply. -/
theorem createProduct_cache_failure_fatal :
    demoShopOffline.db.findProductBySku keyboardBody.sku = none ∧
    ProductController.createProduct 9 "p4" demoShopOffline
        ⟨none, some adminIdentity, keyboardBody⟩
      = ({ demoShopOffline with
            db := { demoShopOffline.db with products := demoShopOffline.db.products ++
              [{ id := "p4", name := "Keyboard", description := none, price := 4999,
                 quantity := 12, sku := "KEY-1", category := "Accessories", isActive := true,
                 createdAt := 9, updatedAt := 9 }] } },
          .throw redisUnavailable) ∧
    (ProductController.createProduct 9 "p4" demoShopOffline
        ⟨none, some adminIdentity, keyboardBody⟩).2.response
      = ⟨500, envelope "Error" "Erreur interne du serveur"⟩ := by
  refine ⟨by decide, rfl, rfl⟩

/-- C21, amended: a failure of a cache write or delete is not swallowed.  With the cache out
of reach, each workflow that writes or deletes a cache entry after its store operation
succeeded (`register`, `login`, `updateProfile`, `createProduct`, `updateProduct`,
`deleteProduct`) throws the error of the cache operation and keeps the change already made to
the store; the client receives the error handler's reply, 500 with the generic message. -/
theorem cache_write_failure_fatal {β : Type} (env : Env) (now : Nat) (newId id : String)
    (w : World) (registration : Request RegisterBody) (credentials : Request LoginBody)
    (profile : Request (List (String × Json))) (creation : Request CreateProductBody)
    (change : Request UpdateProductBody) (removal : Request β) (identity admin : Claims)
    (hdown : w.redis.reachable = false)
    (hidentity : profile.user = some identity)
    (hcreation : creation.user = some admin) (hchange : change.user = some admin)
    (hremoval : removal.user = some admin) :
    (∀ db created, w.db.findUniqueByEmail registration.body.email = none →
      w.db.create now newId registration.body.email
          (env.bcrypt.hash registration.body.password) registration.body.name
          (jsOrString registration.body.role "USER") = .ok (db, created) →
      AuthController.register env now newId w registration
        = ({ w with db := db }, .throw redisUnavailable)) ∧
    (∀ user, w.db.findUniqueByEmail credentials.body.email = some user →
      env.bcrypt.compare credentials.body.password user.password = true →
      AuthController.login env now w credentials = (w, .throw redisUnavailable)) ∧
    (∀ db updated, AuthController.emailConflict w identity.id profile.body = none →
      w.db.update now identity.id profile.body = .ok (db, updated) →
      AuthController.updateProfile now w profile
        = ({ w with db := db }, .throw redisUnavailable)) ∧
    (∀ db product, w.db.findProductBySku creation.body.sku = none →
      w.db.createProduct now newId creation.body = .ok (db, product) →
      ProductController.createProduct now newId w creation
        = ({ w with db := db }, .throw redisUnavailable)) ∧
    (∀ existing db product, w.db.findProductById id = some existing →
      (∀ sku, change.body.sku = some sku → sku ≠ "" → sku ≠ existing.sku →
        w.db.findOtherProductWithSku sku id = none) →
      w.db.updateProduct now id change.body = .ok (db, product) →
      ProductController.updateProduct now w id change
        = ({ w with db := db }, .throw redisUnavailable)) ∧
    (∀ existing db, w.db.findProductById id = some existing →
      w.db.deleteProduct id = .ok db →
      ProductController.deleteProduct w id removal
        = ({ w with db := db }, .throw redisUnavailable)) ∧
    (Outcome.throw redisUnavailable).response
      = ⟨500, envelope "Error" "Erreur interne du serveur"⟩ := by
  have hset : ∀ key value ttl, RedisService.set w.redis now key value ttl
      = .error redisUnavailable := by
    intro key value ttl
    simp [RedisService.set, hdown]
  refine ⟨?_, ?_, ?_, ?_, ?_, ?_, rfl⟩
  · intro db created hfree hcreate
    simp only [AuthController.register, hfree, HashService.hashPassword, hcreate, hset]
  · intro user hfound hright
    simp [AuthController.login, hfound, HashService.verifyPassword, hright, hset]
  · intro db updated hfree hupdate
    simp only [AuthController.updateProfile, hidentity, hfree, hupdate, hset]
  · intro db product hfree hcreate
    simp only [ProductController.createProduct, hcreation, hfree, hcreate,
      del_unreachable w.redis _ hdown]
  · intro existing db product hfound hsku hupdate
    cases hbody : change.body.sku with
    | none =>
      simp only [ProductController.updateProduct, hchange, hfound, hbody, hupdate,
        invalidate_unreachable w.redis id hdown]
    | some sku =>
      by_cases hnew : sku ≠ "" ∧ sku ≠ existing.sku
      · simp only [ProductController.updateProduct, hchange, hfound, hbody,
          hsku sku hbody hnew.1 hnew.2, hupdate, invalidate_unreachable w.redis id hdown,
          ite_self]
      · simp only [ProductController.updateProduct, hchange, hfound, hbody, hnew, if_false,
          hupdate, invalidate_unreachable w.redis id hdown]
  · intro existing db hfound hdelete
    simp only [ProductController.deleteProduct, hremoval, hfound, hdelete,
      invalidate_unreachable w.redis id hdown]

/-- C21, amended, at a concrete input: with the cache out of reach, Bob registers and an
administrator deletes the cable; both rows change and both requests throw. -/
theorem cache_write_failure_fatal_witness :
    AuthController.register demoEnv 9 "u2" demoShopOffline
        ⟨none, none, ⟨"bob@x.com", "Secr3t!pass", "Bob", none⟩⟩
      = ({ demoShopOffline with
            db := { demoShopOffline.db with users := demoShopOffline.db.users ++
              [{ id := "u2", email := "bob@x.com", password := "$2a$12$Secr3t!pass",
                 name := "Bob", role := "USER", createdAt := 9, updatedAt := 9 }] } },
          .throw redisUnavailable) ∧
    ProductController.deleteProduct demoShopOffline "p3"
        (⟨none, some adminIdentity, ()⟩ : Request Unit)
      = ({ demoShopOffline with
            db := { demoShopOffline.db with
              products := demoShopOffline.db.products.filter (fun p => p.id != "p3") } },
          .throw redisUnavailable) :=
  ⟨(cache_write_failure_fatal demoEnv 9 "u2" "p3" demoShopOffline
      ⟨none, none, ⟨"bob@x.com", "Secr3t!pass", "Bob", none⟩⟩
      ⟨none, none, ⟨"ann@x.com", "Passw0rd!"⟩⟩
      ⟨none, some annJws.claims, [("name", .str "Anna")]⟩
      ⟨none, some adminIdentity, keyboardBody⟩
      ⟨none, some adminIdentity, { price := some 399 }⟩
      (⟨none, some adminIdentity, ()⟩ : Request Unit)
      annJws.claims adminIdentity rfl rfl rfl rfl rfl).1 _ _ (by decide) rfl,
    (cache_write_failure_fatal demoEnv 9 "u2" "p3" demoShopOffline
      ⟨none, none, ⟨"bob@x.com", "Secr3t!pass", "Bob", none⟩⟩
      ⟨none, none, ⟨"ann@x.com", "Passw0rd!"⟩⟩
      ⟨none, some annJws.claims, [("name", .str "Anna")]⟩
      ⟨none, some adminIdentity, keyboardBody⟩
      ⟨none, some adminIdentity, { price := some 399 }⟩
      (⟨none, some adminIdentity, ()⟩ : Request Unit)
      annJws.claims adminIdentity rfl rfl rfl rfl rfl).2.2.2.2.2.1 cable _ (by decide) rfl⟩

/-! ## Theorems: the error translator -/

/-- C22, counterexample: an error that is neither a unique-constraint violation, nor a missing
record, nor a validation error is not always answered 500.  Fastify's error for an unsupported
media type, which carries the status code 415, is answered 415 with its own message, and a
JSON parse failure is answered 400 Bad Request. -/
theorem errorHandler_keeps_status :
    errorHandler
        { name := "FastifyError", message := "Unsupported Media Type: text/plain",
          code := some "FST_ERR_CTP_INVALID_MEDIA_TYPE", statusCode := some 415 }
      = ⟨415, envelope "FastifyError" "Unsupported Media Type: text/plain"⟩ ∧
    errorHandler
        { name := "SyntaxError", message := "Unexpected token", type := some "entity.parse.failed" }
      = ⟨400, envelope "Bad Request" "Format JSON invalide"⟩ := by
  constructor <;> simp [errorHandler]

/-- C22, amended: `errorHandler` answers an error with the code P2002 by 409 Conflict; one
with the code P2025 by 404 Not Found; any other error with a truthy `validation` by 400 with
these details; any other error of type `entity.parse.failed` by 400 Bad Request; any other
error that carries a status code other than 0 and 500 by that status code, with the name of the
error and its own message (a default one when it is empty); and everything else by 500 with
the generic message.  The body of every reply starts with a string `error` field and a string
`message` field. -/
theorem errorHandler_taxonomy (error : JsError) :
    (error.code = some "P2002" →
      errorHandler error = ⟨409, envelope "Conflict" "Cette ressource existe déjà"⟩) ∧
    (error.code = some "P2025" →
      errorHandler error = ⟨404, envelope "Not Found" "Ressource non trouvée"⟩) ∧
    (error.code ≠ some "P2002" → error.code ≠ some "P2025" →
      (∀ details, error.validation = some details → details.truthy = true →
        errorHandler error
          = ⟨400, .obj [("error", .str "Validation Error"), ("message", .str "Données invalides"),
              ("details", details)]⟩) ∧
      (error.validation.any Json.truthy = false →
        (error.type = some "entity.parse.failed" →
          errorHandler error = ⟨400, envelope "Bad Request" "Format JSON invalide"⟩) ∧
        (error.type ≠ some "entity.parse.failed" →
          (∀ c, error.statusCode = some c → c ≠ 0 → c ≠ 500 →
            errorHandler error
              = ⟨c, envelope (if error.name = "" then "Error" else error.name)
                  (if error.message = "" then "Une erreur est survenue" else error.message)⟩) ∧
          (error.statusCode = none ∨ error.statusCode = some 0 ∨ error.statusCode = some 500 →
            errorHandler error
              = ⟨500, envelope (if error.name = "" then "Error" else error.name)
                  "Erreur interne du serveur"⟩)))) ∧
    (∃ kind message rest,
      (errorHandler error).body = .obj (("error", .str kind) :: ("message", .str message) :: rest))
    := by
  refine ⟨?_, ?_, ?_, ?_⟩
  · intro h
    simp [errorHandler, h]
  · intro h
    simp [errorHandler, h]
  · intro h₁ h₂
    refine ⟨?_, ?_⟩
    · intro details hv ht
      simp [errorHandler, h₁, h₂, hv, ht]
    · intro hv
      refine ⟨?_, ?_⟩
      · intro ht
        simp [errorHandler, h₁, h₂, hv, ht]
      · intro ht
        refine ⟨?_, ?_⟩
        · intro c hc h0 h500
          simp [errorHandler, h₁, h₂, hv, ht, hc, h0, h500]
        · intro hc
          rcases hc with hc | hc | hc <;> simp [errorHandler, h₁, h₂, hv, ht, hc]
  · unfold errorHandler
    split
    · exact ⟨_, _, _, rfl⟩
    · split
      · exact ⟨_, _, _, rfl⟩
      · split
        · exact ⟨_, _, _, rfl⟩
        · split
          · exact ⟨_, _, _, rfl⟩
          · exact ⟨_, _, _, rfl⟩

/-- C30: whenever `errorHandler` answers 500, the message of the reply is the generic
`Erreur interne du serveur`.  The reply does not depend on the message of the error when the
error is one of the specially mapped kinds or carries no status code, the status code 0 or the
status code 500; in every other case the reply has the status code of the error and its
message (a default one when it is empty). -/
theorem errorHandler_message_disclosure (error : JsError) :
    ((errorHandler error).code = 500 →
      (errorHandler error).body
        = envelope (if error.name = "" then "Error" else error.name)
            "Erreur interne du serveur") ∧
    ((error.code = some "P2002" ∨ error.code = some "P2025" ∨
        error.validation.any Json.truthy = true ∨ error.type = some "entity.parse.failed" ∨
        error.statusCode = none ∨ error.statusCode = some 0 ∨ error.statusCode = some 500) →
      ∀ message, errorHandler { error with message := message } = errorHandler error) ∧
    (∀ c, error.code ≠ some "P2002" → error.code ≠ some "P2025" →
      error.validation.any Json.truthy = false → error.type ≠ some "entity.parse.failed" →
      error.statusCode = some c → c ≠ 0 → c ≠ 500 →
      errorHandler error
        = ⟨c, envelope (if error.name = "" then "Error" else error.name)
            (if error.message = "" then "Une erreur est survenue" else error.message)⟩) := by
  refine ⟨?_, ?_, ?_⟩
  · unfold errorHandler
    split
    · intro h; simp at h
    · split
      · intro h; simp at h
      · split
        · intro h; simp at h
        · split
          · intro h; simp at h
          · intro h
            simp only at h
            simp only [h, if_true]
  · intro h message
    unfold errorHandler
    simp only
    by_cases h₁ : error.code = some "P2002"
    · simp [h₁]
    · by_cases h₂ : error.code = some "P2025"
      · simp [h₂]
      · by_cases h₃ : error.validation.any Json.truthy = true
        · simp [h₁, h₂, h₃]
        · by_cases h₄ : error.type = some "entity.parse.failed"
          · simp [h₁, h₂, h₃, h₄]
          · rcases h with h | h | h | h | h | h | h
            · exact absurd h h₁
            · exact absurd h h₂
            · exact absurd h h₃
            · exact absurd h h₄
            · simp [h₁, h₂, h₃, h₄, h]
            · simp [h₁, h₂, h₃, h₄, h]
            · simp [h₁, h₂, h₃, h₄, h]
  · intro c h₁ h₂ h₃ h₄ hc h0 h500
    simp [errorHandler, h₁, h₂, h₃, h₄, hc, h0, h500]

/-! ## Theorems: request validation and the order of the hooks -/

/-- C23: `validateSchema(schema, source)` calls `schema.validate` on the data of the source
with `abortEarly: false` and `stripUnknown: true`.  When the schema reports errors the hook
replies 400 `Validation Error` with one `{ field, message }` item for each reported error, in
order, `field` being the path joined by `.`, and leaves the request as it was; when
`validate` throws it replies 500 and leaves the request as it was; otherwise it sends no reply
and replaces `request.body`, `request.query` or `request.params`, whichever the source names,
by the validated value. -/
theorem validateSchema_contract (schema : JoiSchema) (request : Request Payload) :
    (∀ source data, (source = "body" ∧ data = request.body.body ∨
        source = "query" ∧ data = request.body.query ∨
        source = "params" ∧ data = request.body.params) →
      (∀ result details,
        schema data { abortEarly := false, stripUnknown := true } = .ok result →
        result.error = some details →
        validateSchema schema source request
          = (request,
              some ⟨400, .obj [("error", .str "Validation Error"),
                ("message", .str "Données invalides"),
                ("details", .arr (details.map (fun detail =>
                  .obj [("field", .str (".".intercalate
                      (detail.path.map PathSegment.toString))),
                    ("message", .str detail.message)])))]⟩)) ∧
      (∀ e, schema data { abortEarly := false, stripUnknown := true } = .error e →
        validateSchema schema source request
          = (request,
              some ⟨500, envelope "Internal Server Error" "Erreur lors de la validation"⟩))) ∧
    (∀ result, schema request.body.body { abortEarly := false, stripUnknown := true }
        = .ok result → result.error = none →
      validateSchema schema "body" request
        = ({ request with body := { request.body with body := result.value } }, none)) ∧
    (∀ result, schema request.body.query { abortEarly := false, stripUnknown := true }
        = .ok result → result.error = none →
      validateSchema schema "query" request
        = ({ request with body := { request.body with query := result.value } }, none)) ∧
    (∀ result, schema request.body.params { abortEarly := false, stripUnknown := true }
        = .ok result → result.error = none →
      validateSchema schema "params" request
        = ({ request with body := { request.body with params := result.value } }, none)) := by
  refine ⟨?_, ?_, ?_, ?_⟩
  · intro source data hsource
    have hread : request.body.read source = data := by
      rcases hsource with ⟨hs, hd⟩ | ⟨hs, hd⟩ | ⟨hs, hd⟩ <;> subst hs hd <;> rfl
    refine ⟨?_, ?_⟩
    · intro result details hrun herror
      simp only [validateSchema, hread, hrun, herror, joinPath]
    · intro e hrun
      simp only [validateSchema, hread, hrun]
  · intro result hrun herror
    have hread : request.body.read "body" = request.body.body := rfl
    simp only [validateSchema, hread, hrun, herror]
    rfl
  · intro result hrun herror
    have hread : request.body.read "query" = request.body.query := rfl
    simp only [validateSchema, hread, hrun, herror]
    rfl
  · intro result hrun herror
    have hread : request.body.read "params" = request.body.params := rfl
    simp only [validateSchema, hread, hrun, herror]
    rfl

/-- C23 at a concrete input: `updateProfileSchema` on a body with two faulty fields and an
unknown one, and on a body with a good name and an unknown field. -/
theorem validateSchema_contract_witness :
    validateSchema (updateProfileSchema demoEmail) "body"
        ⟨none, none, ⟨.obj [("name", .str "R"), ("email", .str "ann"), ("role", .str "ADMIN")],
          .obj [], .obj []⟩⟩
      = (⟨none, none, ⟨.obj [("name", .str "R"), ("email", .str "ann"),
            ("role", .str "ADMIN")], .obj [], .obj []⟩⟩,
          some ⟨400, .obj [("error", .str "Validation Error"),
            ("message", .str "Données invalides"),
            ("details", .arr ([(⟨"Le nom doit contenir au moins 2 caractères", [.key "name"]⟩
                : JoiDetail),
              ⟨"L'email doit être valide", [.key "email"]⟩].map (fun detail =>
                .obj [("field", .str (".".intercalate
                    (detail.path.map PathSegment.toString))),
                  ("message", .str detail.message)])))]⟩) ∧
    validateSchema (updateProfileSchema demoEmail) "body"
        ⟨none, none, ⟨.obj [("name", .str "Anna"), ("role", .str "ADMIN")], .obj [], .obj []⟩⟩
      = (⟨none, none, ⟨.obj [("name", .str "Anna")], .obj [], .obj []⟩⟩, none) :=
  ⟨((validateSchema_contract (updateProfileSchema demoEmail)
      ⟨none, none, ⟨.obj [("name", .str "R"), ("email", .str "ann"), ("role", .str "ADMIN")],
        .obj [], .obj []⟩⟩).1 "body" _ (Or.inl ⟨rfl, rfl⟩)).1
      ⟨some [⟨"Le nom doit contenir au moins 2 caractères", [.key "name"]⟩,
        ⟨"L'email doit être valide", [.key "email"]⟩],
        .obj [("name", .str "R"), ("email", .str "ann")]⟩ _ rfl rfl,
    (validateSchema_contract (updateProfileSchema demoEmail)
      ⟨none, none, ⟨.obj [("name", .str "Anna"), ("role", .str "ADMIN")], .obj [],
        .obj []⟩⟩).2.1 ⟨none, .obj [("name", .str "Anna")]⟩ rfl rfl⟩

theorem runPreHandlers_replied {β : Type} (hook : Hook β) (rest : List (Hook β))
    (request : Request β) (reply : Reply) (h : (hook request).2 = some reply) :
    runPreHandlers (hook :: rest) request = .replied reply := by
  unfold runPreHandlers
  cases hrun : hook request with
  | mk request' sent =>
    rw [hrun] at h
    simp only at h
    subst h
    rfl

theorem runPreHandlers_passed {β : Type} (hook : Hook β) (rest : List (Hook β))
    (request request' : Request β) (h : hook request = (request', none)) :
    runPreHandlers (hook :: rest) request = runPreHandlers rest request' := by
  conv_lhs => unfold runPreHandlers
  simp only [h]

theorem protectedAuthPreHandlers_shape {β : Type} (lib : JwtLib) (config : Config) (now : Nat)
    (authHooks : AuthSchema → Hook β) (route : ProtectedAuthRoute) :
    ∃ validators, protectedAuthPreHandlers lib config now authHooks route
        = authenticate lib config now :: validators ∧
      ∀ hook ∈ validators, ∃ schema, hook = authHooks schema := by
  cases route
  · exact ⟨[], rfl, by simp⟩
  · exact ⟨[authHooks .updateProfileSchema], rfl, by simp⟩
  · exact ⟨[authHooks .changePasswordSchema], rfl, by simp⟩
  · exact ⟨[], rfl, by simp⟩

theorem adminPreHandlers_validators {β : Type} (lib : JwtLib) (config : Config) (now : Nat)
    (productHooks : ProductSchema → Hook β) (route : AdminRoute) :
    ∃ validators, adminPreHandlers lib config now productHooks route
        = authenticate lib config now :: authorizeHook ["ADMIN"] :: validators ∧
      ∀ hook ∈ validators, ∃ schema, hook = productHooks schema := by
  cases route
  · exact ⟨[productHooks .createProductSchema], rfl, by simp⟩
  · exact ⟨[productHooks .productParamsSchema, productHooks .updateProductSchema], rfl,
      by simp⟩
  · exact ⟨[productHooks .productParamsSchema], rfl, by simp⟩
  · exact ⟨[], rfl, by simp⟩

theorem authenticate_reply_code {β : Type} (lib : JwtLib) (config : Config) (now : Nat)
    (request : Request β) (reply : Reply)
    (h : (authenticate lib config now request).2 = some reply) : reply.code = 401 := by
  rw [authenticate_eq] at h
  split at h
  · cases h
    rfl
  · split at h
    · exact Option.noConfusion h
    · cases h
      rfl

/-- C24, counterexample: a request to `PUT /auth/profile` with no token and the name `R2`.
The validator alone rejects the body with 400 (the name has a digit), but the preHandler
hooks of the route answer 401: `authenticate` runs first. -/
theorem validator_runs_after_gate :
    validateSchema (updateProfileSchema demoEmail) "body" anonymousRename
      = (anonymousRename,
          some ⟨400, .obj [("error", .str "Validation Error"),
            ("message", .str "Données invalides"),
            ("details", .arr [.obj [("field", .str "name"),
              ("message",
                .str "Le nom ne peut contenir que des lettres, espaces et tirets")]])]⟩) ∧
    runPreHandlers
        (protectedAuthPreHandlers unaryJwt ⟨"s3cret", 604800⟩ 10
          (fun _ => validateSchema (updateProfileSchema demoEmail) "body") .putProfile)
        anonymousRename
      = .replied ⟨401, envelope "Unauthorized" "Token d'authentification manquant"⟩ := by
  refine ⟨rfl, rfl⟩

/-- C24, amended: on every protected route the hooks run in the order `authenticate`, then
`authorize(['ADMIN'])` on the admin routes, then the `validateSchema` hooks, and the handler
is called only when none replied.  So a request that `authenticate` rejects is answered by
the 401 of `authenticate` whatever the validators would say of its body, a request that
`authenticate` accepts and `authorize` rejects is answered by `authorize`, and the handler is
reached only when `authenticate` sent no reply. -/
theorem protected_routes_hook_order {β : Type} (lib : JwtLib) (config : Config) (now : Nat)
    (productHooks : ProductSchema → Hook β) (authHooks : AuthSchema → Hook β)
    (request : Request β) :
    (∀ route, ∃ validators, adminPreHandlers lib config now productHooks route
        = authenticate lib config now :: authorizeHook ["ADMIN"] :: validators ∧
      ∀ hook ∈ validators, ∃ schema, hook = productHooks schema) ∧
    (∀ route, ∃ validators, protectedAuthPreHandlers lib config now authHooks route
        = authenticate lib config now :: validators ∧
      ∀ hook ∈ validators, ∃ schema, hook = authHooks schema) ∧
    (∀ reply, (authenticate lib config now request).2 = some reply →
      reply.code = 401 ∧
      (∀ route, runPreHandlers (adminPreHandlers lib config now productHooks route) request
        = .replied reply) ∧
      (∀ route, runPreHandlers (protectedAuthPreHandlers lib config now authHooks route)
          request = .replied reply)) ∧
    (∀ request' reply, authenticate lib config now request = (request', none) →
      authorize ["ADMIN"] request' = some reply →
      ∀ route, runPreHandlers (adminPreHandlers lib config now productHooks route) request
        = .replied reply) ∧
    (∀ request',
      ((∃ route, runPreHandlers (adminPreHandlers lib config now productHooks route) request
          = .handler request') ∨
        (∃ route, runPreHandlers (protectedAuthPreHandlers lib config now authHooks route)
          request = .handler request')) →
      (authenticate lib config now request).2 = none) := by
  have hfirst : ∀ reply, (authenticate lib config now request).2 = some reply →
      (∀ route, runPreHandlers (adminPreHandlers lib config now productHooks route) request
        = .replied reply) ∧
      (∀ route, runPreHandlers (protectedAuthPreHandlers lib config now authHooks route)
          request = .replied reply) := by
    intro reply hreply
    refine ⟨?_, ?_⟩
    · intro route
      obtain ⟨validators, hshape, _⟩ := adminPreHandlers_validators lib config now
        productHooks route
      rw [hshape]
      exact runPreHandlers_replied _ _ _ _ hreply
    · intro route
      obtain ⟨validators, hshape, _⟩ := protectedAuthPreHandlers_shape lib config now
        authHooks route
      rw [hshape]
      exact runPreHandlers_replied _ _ _ _ hreply
  refine ⟨adminPreHandlers_validators lib config now productHooks,
    protectedAuthPreHandlers_shape lib config now authHooks, ?_, ?_, ?_⟩
  · intro reply hreply
    exact ⟨authenticate_reply_code lib config now request reply hreply,
      (hfirst reply hreply).1, (hfirst reply hreply).2⟩
  · intro request' reply hpass hdenied route
    obtain ⟨validators, hshape, _⟩ := adminPreHandlers_validators lib config now
      productHooks route
    rw [hshape, runPreHandlers_passed _ _ _ _ hpass]
    exact runPreHandlers_replied _ _ _ _ (by simpa [authorizeHook] using hdenied)
  · intro request' hreached
    cases hreply : (authenticate lib config now request).2 with
    | none => rfl
    | some reply =>
      rcases hreached with ⟨route, hrun⟩ | ⟨route, hrun⟩
      · rw [(hfirst reply hreply).1 route] at hrun
        exact Served.noConfusion hrun
      · rw [(hfirst reply hreply).2 route] at hrun
        exact Served.noConfusion hrun

/-! ## Theorems: the catalog queries -/

theorem hasNext_iff (page limit count : Nat) (hlimit : 1 ≤ limit) :
    page < mathCeilDiv count limit ↔ page * limit < count := by
  unfold mathCeilDiv
  rw [Nat.lt_iff_add_one_le, Nat.le_div_iff_mul_le (by omega), Nat.add_mul]
  omega

/-- C25, counterexample: the page 3002399751580332 with three products a page is a validated
query (a safe integer of at least 1, a limit in 1..100), and `(page - 1) * limit` is
9007199254740993, which no double holds: on a cache miss `getProducts` asks the store to skip
9007199254740992 rows. -/
theorem getProducts_skip_rounded :
    1 ≤ deepPage.page ∧ deepPage.page < 2 ^ 53 ∧ 1 ≤ deepPage.limit ∧ deepPage.limit ≤ 100 ∧
    (deepPage.page - 1) * deepPage.limit = 9007199254740993 ∧
    ProductController.listSkip deepPage = 9007199254740992 ∧
    (ProductController.listArgs deepPage).skip ≠ (deepPage.page - 1) * deepPage.limit ∧
    (ProductController.getProducts 5 demoShop deepPage).2
      = .reply ⟨200, .obj [("products", .arr ((demoShop.db.findManyProducts
            { filter := ProductController.listFilter deepPage, skip := 9007199254740992,
              take := 3, orderBy := (.createdAt, .desc) }).map Product.row)),
          ("pagination", .obj [("currentPage", .num 3002399751580332),
            ("totalPages", .num 1), ("totalCount", .num 3), ("limit", .num 3),
            ("hasNextPage", .bool false), ("hasPrevPage", .bool true)])]⟩ := by
  refine ⟨by decide, by decide, by decide, by decide, by decide, by decide, by decide, ?_⟩
  rfl

/-- C25, amended: on a cache miss `getProducts` builds its store request from the validated
query (a page of at least 1 that is a safe integer) as follows.  The filter has an `OR`
exactly when `search` is a non-empty string, and the `OR` is then `contains search` over
`name`, `description` and `sku`; it has a `category contains` condition exactly when
`category` is a non-empty string; its `isActive` condition is the `isActive` of the query,
`false` included; and it has no other condition.  The fetch skips the double nearest to
`(page - 1) * limit`, which is `(page - 1) * limit` itself whenever that product is at most
`2 ^ 53`, takes `limit` and orders by the pair `sortBy`, `sortOrder`; the count uses the same
filter. -/
theorem getProducts_store_request (now : Nat) (w : World) (query : ProductsQuery)
    (cached : Json) (hpage : 1 ≤ query.page) (hsafe : query.page < 2 ^ 53)
    (hget : RedisService.get w.redis now (ProductController.listCacheKey query) = .ok cached)
    (hmiss : cached.truthy = false) :
    (∀ conditions, (ProductController.listFilter query).OR = some conditions ↔
      ∃ search, query.search = some search ∧ search ≠ "" ∧
        conditions = [("name", search), ("description", search), ("sku", search)]) ∧
    (∀ category, (ProductController.listFilter query).category = some category ↔
      query.category = some category ∧ category ≠ "") ∧
    (ProductController.listFilter query).isActive = query.isActive ∧
    (ProductController.listFilter query).quantityLt = none ∧
    ((query.page - 1) * query.limit ≤ 2 ^ 53 →
      roundToDouble ((query.page - 1) * query.limit) = (query.page - 1) * query.limit) ∧
    ∃ redis,
      ProductController.getProducts now w query
        = ({ w with redis := redis },
            .reply ⟨200, .obj [("products", .arr ((w.db.findManyProducts
                { filter := ProductController.listFilter query,
                  skip := roundToDouble ((query.page - 1) * query.limit),
                  take := query.limit,
                  orderBy := (query.sortBy, query.sortOrder) }).map Product.row)),
              ("pagination", .obj [("currentPage", .num query.page),
                ("totalPages", .num (mathCeilDiv
                  (w.db.countProducts (ProductController.listFilter query)) query.limit)),
                ("totalCount",
                  .num (w.db.countProducts (ProductController.listFilter query))),
                ("limit", .num query.limit),
                ("hasNextPage", .bool (decide (query.page < mathCeilDiv
                  (w.db.countProducts (ProductController.listFilter query)) query.limit))),
                ("hasPrevPage", .bool (decide (query.page > 1)))])]⟩) := by
  refine ⟨?_, ?_, rfl, rfl, roundToDouble_exact _, ?_⟩
  · intro conditions
    unfold ProductController.listFilter
    cases hs : query.search with
    | none => simp
    | some search =>
      by_cases he : search = ""
      · simp [he]
      · simp [he]
        constructor
        · intro h; exact h.symm
        · intro h; exact h.symm
  · intro category
    unfold ProductController.listFilter
    cases hs : query.category with
    | none => simp
    | some c =>
      by_cases he : c = ""
      · simp [he]
        intro h
        exact h.symm
      · simp [he]
        intro h
        exact h ▸ he
  · rw [getProducts_miss now w query cached hget hmiss (listSkip_nonneg query hpage)]
    refine ⟨w.redis.put (ProductController.listCacheKey query)
      ⟨ProductController.listResult w.db query, some (now + 300)⟩, ?_⟩
    simp only [ProductController.listResult, ProductController.listArgs,
      listSkip_eq query hpage (Nat.le_of_lt hsafe), Int.toNat_ofNat]

/-- C25 at a concrete input: the first page of the three products. -/
theorem getProducts_store_request_witness :
    (∀ conditions, (ProductController.listFilter firstPage).OR = some conditions ↔
      ∃ search, firstPage.search = some search ∧ search ≠ "" ∧
        conditions = [("name", search), ("description", search), ("sku", search)]) ∧
    (∀ category, (ProductController.listFilter firstPage).category = some category ↔
      firstPage.category = some category ∧ category ≠ "") ∧
    (ProductController.listFilter firstPage).isActive = firstPage.isActive ∧
    (ProductController.listFilter firstPage).quantityLt = none ∧
    ((firstPage.page - 1) * firstPage.limit ≤ 2 ^ 53 →
      roundToDouble ((firstPage.page - 1) * firstPage.limit)
        = (firstPage.page - 1) * firstPage.limit) ∧
    ∃ redis,
      ProductController.getProducts 5 demoShop firstPage
        = ({ demoShop with redis := redis },
            .reply ⟨200, .obj [("products", .arr ((demoShop.db.findManyProducts
                { filter := ProductController.listFilter firstPage,
                  skip := roundToDouble ((firstPage.page - 1) * firstPage.limit),
                  take := firstPage.limit,
                  orderBy := (firstPage.sortBy, firstPage.sortOrder) }).map Product.row)),
              ("pagination", .obj [("currentPage", .num firstPage.page),
                ("totalPages", .num (mathCeilDiv
                  (demoShop.db.countProducts (ProductController.listFilter firstPage))
                  firstPage.limit)),
                ("totalCount",
                  .num (demoShop.db.countProducts (ProductController.listFilter firstPage))),
                ("limit", .num firstPage.limit),
                ("hasNextPage", .bool (decide (firstPage.page < mathCeilDiv
                  (demoShop.db.countProducts (ProductController.listFilter firstPage))
                  firstPage.limit))),
                ("hasPrevPage", .bool (decide (firstPage.page > 1)))])]⟩) :=
  getProducts_store_request 5 demoShop firstPage .null (by decide) (by decide) rfl rfl

theorem countProducts_all (db : Database) : db.countProducts {} = db.products.length := by
  simp [Database.countProducts, ProductWhere.holds]

theorem countProducts_active (db : Database) :
    db.countProducts { isActive := some true } = db.products.countP (fun p => p.isActive) := by
  unfold Database.countProducts
  rw [List.countP_eq_length_filter]
  congr 1
  refine List.filter_congr ?_
  intro p _
  simp [ProductWhere.holds]

theorem countProducts_inactive (db : Database) :
    db.countProducts { isActive := some false }
      = db.products.countP (fun p => !p.isActive) := by
  unfold Database.countProducts
  rw [List.countP_eq_length_filter]
  congr 1
  refine List.filter_congr ?_
  intro p _
  simp [ProductWhere.holds]

theorem countProducts_lowStock (db : Database) :
    db.countProducts { quantityLt := some 10, isActive := some true }
      = db.products.countP (fun p => decide (p.quantity < 10) && p.isActive) := by
  unfold Database.countProducts
  rw [List.countP_eq_length_filter]
  congr 1
  refine List.filter_congr ?_
  intro p _
  simp [ProductWhere.holds, Bool.and_comm]

theorem sum_eq_sumProductPrices (db : Database) :
    (db.products.map (fun p => p.price)).sum = db.sumProductPrices.getD 0 := by
  unfold Database.sumProductPrices
  cases h : db.products with
  | nil => simp
  | cons p rest => simp

/-- C26: on a cache miss, for an authenticated caller, `getProductStats` replies 200 with
`totalProducts` the number of products, `activeProducts` and `inactiveProducts` the numbers
of products whose `isActive` is true and false, `totalValue` the sum of the prices (0 for no
product), `categories` the categories that occur, each once with the number of its products,
`categoriesCount` their number and `lowStockProducts` the number of active products with a
quantity below 10; and it stores these statistics under `product:stats` for 900 seconds. -/
theorem getProductStats_contract {β : Type} (now : Nat) (w : World) (request : Request β)
    (identity : Claims) (cached : Json)
    (hidentity : request.user = some identity)
    (hget : RedisService.get w.redis now "product:stats" = .ok cached)
    (hmiss : cached.truthy = false) :
    ∃ (categories : List (String × Nat)) (stats : Json),
      (categories.map Prod.fst).Nodup ∧
      (∀ name, name ∈ categories.map Prod.fst ↔ ∃ p ∈ w.db.products, p.category = name) ∧
      (∀ entry ∈ categories,
        entry.2 = w.db.products.countP (fun p => p.category == entry.1)) ∧
      categories.length = (w.db.products.map (fun p => p.category)).toFinset.card ∧
      stats = .obj [("totalProducts", .num w.db.products.length),
        ("activeProducts", .num (w.db.products.countP (fun p => p.isActive))),
        ("inactiveProducts", .num (w.db.products.countP (fun p => !p.isActive))),
        ("totalValue", .num ((w.db.products.map (fun p => p.price)).sum : Nat)),
        ("categoriesCount", .num categories.length),
        ("categories", .arr (categories.map (fun entry =>
          .obj [("name", .str entry.1), ("count", .num entry.2)]))),
        ("lowStockProducts",
          .num (w.db.products.countP (fun p => decide (p.quantity < 10) && p.isActive)))] ∧
      ProductController.getProductStats now w request
        = ({ w with redis := w.redis.put "product:stats" ⟨stats, some (now + 900)⟩ },
            .reply ⟨200, .obj [("stats", stats)]⟩) := by
  have hup := reachable_of_get _ _ _ _ hget
  refine ⟨w.db.groupProductsByCategory, _, ?_, ?_, ?_, ?_, rfl, ?_⟩
  · have hnames : w.db.groupProductsByCategory.map Prod.fst
        = (w.db.products.map (fun p => p.category)).dedup := by
      simp [Database.groupProductsByCategory, List.map_map, Function.comp_def]
    rw [hnames]
    exact List.nodup_dedup _
  · intro name
    simp [Database.groupProductsByCategory]
  · intro entry hentry
    simp only [Database.groupProductsByCategory, List.mem_map] at hentry
    obtain ⟨category, _, rfl⟩ := hentry
    rfl
  · simp [Database.groupProductsByCategory, List.card_toFinset]
  · simp only [ProductController.getProductStats, hidentity, hget, hmiss, Bool.false_eq_true,
      if_false, set_reachable w.redis now _ _ 899 hup]
    simp only [ProductController.statsResult, countProducts_all, countProducts_active,
      countProducts_inactive, countProducts_lowStock]
    rw [sum_eq_sumProductPrices]
    cases w.db.sumProductPrices <;> rfl

/-- C26 at a concrete input: the statistics of the three products, asked at time 5. -/
theorem getProductStats_contract_witness :
    ∃ (categories : List (String × Nat)) (stats : Json),
      (categories.map Prod.fst).Nodup ∧
      (∀ name, name ∈ categories.map Prod.fst ↔
        ∃ p ∈ demoShop.db.products, p.category = name) ∧
      (∀ entry ∈ categories,
        entry.2 = demoShop.db.products.countP (fun p => p.category == entry.1)) ∧
      categories.length = (demoShop.db.products.map (fun p => p.category)).toFinset.card ∧
      stats = .obj [("totalProducts", .num demoShop.db.products.length),
        ("activeProducts", .num (demoShop.db.products.countP (fun p => p.isActive))),
        ("inactiveProducts", .num (demoShop.db.products.countP (fun p => !p.isActive))),
        ("totalValue", .num ((demoShop.db.products.map (fun p => p.price)).sum : Nat)),
        ("categoriesCount", .num categories.length),
        ("categories", .arr (categories.map (fun entry =>
          .obj [("name", .str entry.1), ("count", .num entry.2)]))),
        ("lowStockProducts", .num (demoShop.db.products.countP
          (fun p => decide (p.quantity < 10) && p.isActive)))] ∧
      ProductController.getProductStats 5 demoShop
          (⟨none, some adminIdentity, ()⟩ : Request Unit)
        = ({ demoShop with
              redis := demoShop.redis.put "product:stats" ⟨stats, some (5 + 900)⟩ },
            .reply ⟨200, .obj [("stats", stats)]⟩) :=
  getProductStats_contract 5 demoShop (⟨none, some adminIdentity, ()⟩ : Request Unit)
    adminIdentity .null rfl rfl rfl

/-- C27: for a page of at least 1 and a limit of at least 1, the flag `hasNextPage` that
`getProducts` computes on a cache miss is true exactly when `page * limit` is less than the
number `N` of matching rows, that is, exactly when a matching row lies at or beyond the end
`skip + limit` of the window, with `skip = (page - 1) * limit`; it is false when `N = 0` and
on every page past the last one. -/
theorem hasNextPage_iff_beyond_window (now : Nat) (w : World) (query : ProductsQuery)
    (cached : Json) (hpage : 1 ≤ query.page) (hlimit : 1 ≤ query.limit)
    (hget : RedisService.get w.redis now (ProductController.listCacheKey query) = .ok cached)
    (hmiss : cached.truthy = false) :
    ∃ products redis,
      ProductController.getProducts now w query
        = ({ w with redis := redis },
            .reply ⟨200, .obj [("products", products),
              ("pagination", .obj [("currentPage", .num query.page),
                ("totalPages", .num (mathCeilDiv
                  (w.db.countProducts (ProductController.listFilter query)) query.limit)),
                ("totalCount",
                  .num (w.db.countProducts (ProductController.listFilter query))),
                ("limit", .num query.limit),
                ("hasNextPage", .bool (decide (query.page * query.limit
                  < w.db.countProducts (ProductController.listFilter query)))),
                ("hasPrevPage", .bool (decide (query.page > 1)))])]⟩) ∧
      (query.page * query.limit < w.db.countProducts (ProductController.listFilter query) ↔
        ∃ index, (query.page - 1) * query.limit + query.limit ≤ index ∧
          index < w.db.countProducts (ProductController.listFilter query)) ∧
      (w.db.countProducts (ProductController.listFilter query) = 0 →
        decide (query.page * query.limit
          < w.db.countProducts (ProductController.listFilter query)) = false) ∧
      (mathCeilDiv (w.db.countProducts (ProductController.listFilter query)) query.limit
          < query.page →
        decide (query.page * query.limit
          < w.db.countProducts (ProductController.listFilter query)) = false) := by
  have hwindow : (query.page - 1) * query.limit + query.limit = query.page * query.limit := by
    obtain ⟨k, hk⟩ := Nat.exists_eq_add_of_le hpage
    rw [hk, Nat.add_sub_cancel_left, Nat.add_mul, Nat.one_mul, Nat.add_comm]
  refine ⟨.arr ((w.db.findManyProducts (ProductController.listArgs query)).map Product.row),
    w.redis.put (ProductController.listCacheKey query)
      ⟨ProductController.listResult w.db query, some (now + 300)⟩, ?_, ?_, ?_, ?_⟩
  · rw [getProducts_miss now w query cached hget hmiss (listSkip_nonneg query hpage)]
    simp only [ProductController.listResult, hasNext_iff _ _ _ hlimit]
  · rw [hwindow]
    constructor
    · intro h
      exact ⟨_, Nat.le_refl _, h⟩
    · rintro ⟨index, hle, hlt⟩
      exact Nat.lt_of_le_of_lt hle hlt
  · intro h
    simp [h]
  · intro h
    have hn := (hasNext_iff query.page query.limit
      (w.db.countProducts (ProductController.listFilter query)) hlimit).not.mp (by omega)
    simp [hn]

/-- C27 at a concrete input: the first page of the three products, two a page. -/
theorem hasNextPage_iff_beyond_window_witness :
    ∃ products redis,
      ProductController.getProducts 5 demoShop firstPage
        = ({ demoShop with redis := redis },
            .reply ⟨200, .obj [("products", products),
              ("pagination", .obj [("currentPage", .num firstPage.page),
                ("totalPages", .num (mathCeilDiv
                  (demoShop.db.countProducts (ProductController.listFilter firstPage))
                  firstPage.limit)),
                ("totalCount",
                  .num (demoShop.db.countProducts (ProductController.listFilter firstPage))),
                ("limit", .num firstPage.limit),
                ("hasNextPage", .bool (decide (firstPage.page * firstPage.limit
                  < demoShop.db.countProducts (ProductController.listFilter firstPage)))),
                ("hasPrevPage", .bool (decide (firstPage.page > 1)))])]⟩) ∧
      (firstPage.page * firstPage.limit
          < demoShop.db.countProducts (ProductController.listFilter firstPage) ↔
        ∃ index, (firstPage.page - 1) * firstPage.limit + firstPage.limit ≤ index ∧
          index < demoShop.db.countProducts (ProductController.listFilter firstPage)) ∧
      (demoShop.db.countProducts (ProductController.listFilter firstPage) = 0 →
        decide (firstPage.page * firstPage.limit
          < demoShop.db.countProducts (ProductController.listFilter firstPage)) = false) ∧
      (mathCeilDiv (demoShop.db.countProducts (ProductController.listFilter firstPage))
          firstPage.limit < firstPage.page →
        decide (firstPage.page * firstPage.limit
          < demoShop.db.countProducts (ProductController.listFilter firstPage)) = false) :=
  hasNextPage_iff_beyond_window 5 demoShop firstPage .null (by decide) (by decide) rfl rfl

/-! ## Lemmas: reading back what `JSON.stringify` wrote -/

theorem digitChar_toNat (k : Nat) (h : k < 10) : (Nat.digitChar k).toNat = 48 + k := by
  interval_cases k <;> rfl

theorem toDigitsCore_spec (fuel : Nat) : ∀ (n : Nat) (ds : List Char), n < fuel →
    ∃ body : List Char, Nat.toDigitsCore 10 fuel n ds = body ++ ds ∧
      (∀ c ∈ body, 48 ≤ c.toNat ∧ c.toNat ≤ 57) ∧
      body.foldl (fun acc c => acc * 10 + (c.toNat - 48)) 0 = n := by
  induction fuel with
  | zero => intro n ds h; omega
  | succ fuel ih =>
    intro n ds h
    unfold Nat.toDigitsCore
    simp only
    have hd := digitChar_toNat (n % 10) (Nat.mod_lt _ (by decide))
    by_cases hz : n / 10 = 0
    · simp only [hz, if_true]
      refine ⟨[Nat.digitChar (n % 10)], rfl, ?_, ?_⟩
      · intro c hc
        simp only [List.mem_singleton] at hc
        subst hc
        omega
      · simp only [List.foldl, hd]
        omega
    · simp only [hz, if_false]
      obtain ⟨body, hbody, hdigits, hvalue⟩ := ih (n / 10) (Nat.digitChar (n % 10) :: ds)
        (by omega)
      refine ⟨body ++ [Nat.digitChar (n % 10)], ?_, ?_, ?_⟩
      · rw [hbody]
        simp
      · intro c hc
        simp only [List.mem_append, List.mem_singleton] at hc
        rcases hc with hc | hc
        · exact hdigits c hc
        · subst hc
          omega
      · rw [List.foldl_append, hvalue]
        simp only [List.foldl, hd]
        omega

theorem repr_spec (n : Nat) :
    (∀ c ∈ (Nat.repr n).data, 48 ≤ c.toNat ∧ c.toNat ≤ 57) ∧
    (Nat.repr n).data.foldl (fun acc c => acc * 10 + (c.toNat - 48)) 0 = n := by
  obtain ⟨body, hbody, hdigits, hvalue⟩ := toDigitsCore_spec (n + 1) n [] (Nat.lt_succ_self n)
  have hdata : (Nat.repr n).data = body := by
    simp only [Nat.repr, Nat.toDigits, List.asString, hbody, List.append_nil]
  rw [hdata]
  exact ⟨hdigits, hvalue⟩

/-- Two runs of digits, each followed by a character that is not a digit, are equal when the
texts they start are. -/
theorem digits_append_inj (xs ys r s : List Char) (c d : Char)
    (hxs : ∀ a ∈ xs, 48 ≤ a.toNat ∧ a.toNat ≤ 57) (hys : ∀ a ∈ ys, 48 ≤ a.toNat ∧ a.toNat ≤ 57)
    (hc : ¬ (48 ≤ c.toNat ∧ c.toNat ≤ 57)) (hd : ¬ (48 ≤ d.toNat ∧ d.toNat ≤ 57))
    (h : xs ++ c :: r = ys ++ d :: s) : xs = ys ∧ c :: r = d :: s := by
  induction xs generalizing ys with
  | nil =>
    cases ys with
    | nil => exact ⟨rfl, h⟩
    | cons y ys =>
      simp only [List.nil_append, List.cons_append, List.cons.injEq] at h
      exact absurd (h.1 ▸ hys y (List.mem_cons_self _ _)) hc
  | cons x xs ih =>
    cases ys with
    | nil =>
      simp only [List.nil_append, List.cons_append, List.cons.injEq] at h
      exact absurd (h.1 ▸ hxs x (List.mem_cons_self _ _)) hd
    | cons y ys =>
      simp only [List.cons_append, List.cons.injEq] at h
      obtain ⟨hxy, hrest⟩ := h
      obtain ⟨h₁, h₂⟩ := ih ys (fun a ha => hxs a (List.mem_cons_of_mem _ ha))
        (fun a ha => hys a (List.mem_cons_of_mem _ ha)) hrest
      exact ⟨by rw [hxy, h₁], h₂⟩

theorem repr_append_inj (n m : Nat) (r s : List Char) (c d : Char)
    (hc : ¬ (48 ≤ c.toNat ∧ c.toNat ≤ 57)) (hd : ¬ (48 ≤ d.toNat ∧ d.toNat ≤ 57))
    (h : (Nat.repr n).data ++ c :: r = (Nat.repr m).data ++ d :: s) :
    n = m ∧ c :: r = d :: s := by
  obtain ⟨hn, hvn⟩ := repr_spec n
  obtain ⟨hm, hvm⟩ := repr_spec m
  obtain ⟨h₁, h₂⟩ := digits_append_inj _ _ r s c d hn hm hc hd h
  refine ⟨?_, h₂⟩
  rw [← hvn, ← hvm, h₁]


theorem hexValue_hexDigit (n : Nat) (h : n < 16) : hexValue (hexDigit n) = n := by
  interval_cases n <;> rfl

theorem char_of_toNat (c : Char) (n : Nat) (h : c.toNat = n) : Char.ofNat n = c := by
  subst h
  exact Char.ofNat_toNat c

theorem jsonUnescape_escape (x : Char) (rest : List Char) :
    jsonUnescape (jsonEscapeChar x ++ rest) = some (x, rest) := by
  unfold jsonEscapeChar
  have hbs : (Char.ofNat 92).toNat = 92 := rfl
  have hq : (Char.ofNat 34).toNat = 34 := rfl
  by_cases h34 : x.toNat = 34
  · simp [h34, jsonUnescape, hbs, hq]
    exact char_of_toNat x 34 h34
  · by_cases h92 : x.toNat = 92
    · simp [h34, h92, jsonUnescape, hbs]
      exact char_of_toNat x 92 h92
    · by_cases h10 : x.toNat = 10
      · simp [h34, h92, h10, jsonUnescape, hbs]
        exact char_of_toNat x 10 h10
      · by_cases h13 : x.toNat = 13
        · simp [h34, h92, h10, h13, jsonUnescape, hbs]
          exact char_of_toNat x 13 h13
        · by_cases h9 : x.toNat = 9
          · simp [h34, h92, h10, h13, h9, jsonUnescape, hbs]
            exact char_of_toNat x 9 h9
          · by_cases h8 : x.toNat = 8
            · simp [h34, h92, h10, h13, h9, h8, jsonUnescape, hbs]
              exact char_of_toNat x 8 h8
            · by_cases h12 : x.toNat = 12
              · simp [h34, h92, h10, h13, h9, h8, h12, jsonUnescape, hbs]
                exact char_of_toNat x 12 h12
              · by_cases h32 : x.toNat < 32
                · have hhigh := hexValue_hexDigit (x.toNat / 16) (by omega)
                  have hlow := hexValue_hexDigit (x.toNat % 16) (Nat.mod_lt _ (by decide))
                  have hsum : 16 * (x.toNat / 16) + x.toNat % 16 = x.toNat :=
                    Nat.div_add_mod _ _
                  simp [h34, h92, h10, h13, h9, h8, h12, h32, jsonUnescape, hbs, hhigh, hlow,
                    hsum]
                · simp [h34, h92, h10, h13, h9, h8, h12, h32, jsonUnescape]


theorem jsonUnescape_quote (rest : List Char) : jsonUnescape (Char.ofNat 34 :: rest) = none :=
  rfl

theorem escaped_append_inj (xs ys r s : List Char)
    (h : xs.flatMap jsonEscapeChar ++ Char.ofNat 34 :: r
      = ys.flatMap jsonEscapeChar ++ Char.ofNat 34 :: s) : xs = ys ∧ r = s := by
  induction xs generalizing ys with
  | nil =>
    cases ys with
    | nil => simpa using h
    | cons y ys =>
      have hd := congrArg jsonUnescape h
      simp only [List.flatMap_nil, List.nil_append, List.flatMap_cons, List.append_assoc,
        jsonUnescape_quote, jsonUnescape_escape] at hd
      exact Option.noConfusion hd
  | cons x xs ih =>
    cases ys with
    | nil =>
      have hd := congrArg jsonUnescape h
      simp only [List.flatMap_nil, List.nil_append, List.flatMap_cons, List.append_assoc,
        jsonUnescape_quote, jsonUnescape_escape] at hd
      exact Option.noConfusion hd
    | cons y ys =>
      have hd := congrArg jsonUnescape h
      simp only [List.flatMap_cons, List.append_assoc, jsonUnescape_escape, Option.some.injEq,
        Prod.mk.injEq] at hd
      obtain ⟨hxy, hrest⟩ := hd
      obtain ⟨h₁, h₂⟩ := ih ys hrest
      exact ⟨by rw [hxy, h₁], h₂⟩

theorem jsonQuote_append_inj (a b : String) (r s : List Char)
    (h : (jsonQuote a).data ++ r = (jsonQuote b).data ++ s) : a = b ∧ r = s := by
  unfold jsonQuote at h
  simp only [List.cons_append, List.append_assoc, List.singleton_append, List.cons.injEq,
    true_and] at h
  obtain ⟨h₁, h₂⟩ := escaped_append_inj _ _ _ _ h
  exact ⟨String.ext h₁, h₂⟩


/-- A field of an object after the first, as `JSON.stringify` writes it. -/
theorem stringifyFields_data (k : String) (v : Json) (rest : List (String × Json)) :
    ',' :: (Json.stringifyFields ((k, v) :: rest)).data
      = ((k, v) :: rest).flatMap
          (fun kv => ',' :: ((jsonQuote kv.1).data ++ ':' :: (Json.stringify kv.2).data)) := by
  induction rest generalizing k v with
  | nil =>
    rw [Json.stringifyFields]
    simp [String.data_append]
  | cons kv rest ih =>
    obtain ⟨k', v'⟩ := kv
    rw [Json.stringifyFields]
    have := ih k' v'
    simp only [String.data_append, List.flatMap_cons, List.append_assoc] at this ⊢
    rw [← this]
    simp


theorem fields_tail_head (fields : List (String × Json)) :
    ∃ c r, fields.flatMap
        (fun kv => ',' :: ((jsonQuote kv.1).data ++ ':' :: (Json.stringify kv.2).data))
          ++ [Char.ofNat 125] = c :: r ∧
      (c = ',' ∨ c = Char.ofNat 125) := by
  cases fields with
  | nil => exact ⟨_, _, rfl, Or.inr rfl⟩
  | cons kv rest => exact ⟨_, _, rfl, Or.inl rfl⟩

theorem natValue_append_inj (n m : Nat) (r s : List Char) (c d : Char)
    (hc : c = ',' ∨ c = Char.ofNat 125) (hd : d = ',' ∨ d = Char.ofNat 125)
    (h : (Json.stringify (.num n)).data ++ c :: r = (Json.stringify (.num m)).data ++ d :: s) :
    n = m ∧ c :: r = d :: s := by
  have hn : (Json.stringify (.num n)).data = (Nat.repr n).data := rfl
  have hm : (Json.stringify (.num m)).data = (Nat.repr m).data := rfl
  rw [hn, hm] at h
  refine repr_append_inj n m r s c d ?_ ?_ h
  · rcases hc with hc | hc <;> subst hc <;> decide
  · rcases hd with hd | hd <;> subst hd <;> decide


theorem natValue_head (n : Nat) (r rest : List Char) (c e : Char)
    (hc : c = ',' ∨ c = Char.ofNat 125)
    (he : e = Char.ofNat 34 ∨ e = 't' ∨ e = 'f')
    (h : (Json.stringify (.num n)).data ++ c :: r = e :: rest) : False := by
  have hn : (Json.stringify (.num n)).data = (Nat.repr n).data := rfl
  rw [hn] at h
  obtain ⟨hdigits, _⟩ := repr_spec n
  cases hdata : (Nat.repr n).data with
  | nil =>
    rw [hdata] at h
    simp only [List.nil_append, List.cons.injEq] at h
    rcases hc with hc | hc <;> rcases he with he | he | he <;> subst hc he <;>
      exact absurd h.1 (by decide)
  | cons x xs =>
    rw [hdata] at h hdigits
    simp only [List.cons_append, List.cons.injEq] at h
    have hx := hdigits x (List.mem_cons_self _ _)
    rw [h.1] at hx
    rcases he with he | he | he <;> subst he <;> exact absurd hx (by decide)

theorem bool_data (b : Bool) :
    (Json.stringify (.bool b)).data = if b then ['t', 'r', 'u', 'e'] else ['f', 'a', 'l', 's', 'e'] := by
  cases b <;> rfl

theorem str_data (t : String) :
    (Json.stringify (.str t)).data = (jsonQuote t).data := rfl

theorem jsonQuote_head (t : String) :
    ∃ rest, (jsonQuote t).data = Char.ofNat 34 :: rest := ⟨_, rfl⟩

/-- A value that is a natural number, a string or a boolean can be read back from the text
`JSON.stringify` writes, when a comma or a closing brace follows. -/
theorem value_append_inj (v v' : Json) (r s : List Char) (c d : Char)
    (hv : (∃ n : Nat, v = .num n) ∨ (∃ t, v = .str t) ∨ (∃ b, v = .bool b))
    (hv' : (∃ n : Nat, v' = .num n) ∨ (∃ t, v' = .str t) ∨ (∃ b, v' = .bool b))
    (hc : c = ',' ∨ c = Char.ofNat 125) (hd : d = ',' ∨ d = Char.ofNat 125)
    (h : (Json.stringify v).data ++ c :: r = (Json.stringify v').data ++ d :: s) :
    v = v' ∧ c :: r = d :: s := by
  rcases hv with ⟨n, rfl⟩ | ⟨t, rfl⟩ | ⟨b, rfl⟩ <;>
    rcases hv' with ⟨n', rfl⟩ | ⟨t', rfl⟩ | ⟨b', rfl⟩
  · obtain ⟨h₁, h₂⟩ := natValue_append_inj n n' r s c d hc hd h
    exact ⟨by rw [h₁], h₂⟩
  · obtain ⟨rest, hq⟩ := jsonQuote_head t'
    rw [str_data, hq, List.cons_append] at h
    exact (natValue_head n r _ c _ hc (Or.inl rfl) h).elim
  · rw [bool_data] at h
    cases b' <;> simp only [if_true, if_false, Bool.false_eq_true, List.cons_append] at h
    · exact (natValue_head n r _ c _ hc (Or.inr (Or.inr rfl)) h).elim
    · exact (natValue_head n r _ c _ hc (Or.inr (Or.inl rfl)) h).elim
  · obtain ⟨rest, hq⟩ := jsonQuote_head t
    rw [str_data, hq, List.cons_append] at h
    exact (natValue_head n' s _ d _ hd (Or.inl rfl) h.symm).elim
  · rw [str_data, str_data] at h
    obtain ⟨h₁, h₂⟩ := jsonQuote_append_inj t t' _ _ h
    exact ⟨by rw [h₁], h₂⟩
  · obtain ⟨rest, hq⟩ := jsonQuote_head t
    rw [str_data, hq, bool_data] at h
    cases b' <;> simp at h
  · rw [bool_data] at h
    cases b <;> simp only [if_true, if_false, Bool.false_eq_true, List.cons_append] at h
    · exact (natValue_head n' s _ d _ hd (Or.inr (Or.inr rfl)) h.symm).elim
    · exact (natValue_head n' s _ d _ hd (Or.inr (Or.inl rfl)) h.symm).elim
  · obtain ⟨rest, hq⟩ := jsonQuote_head t'
    rw [str_data, hq, bool_data] at h
    cases b <;> simp at h
  · rw [bool_data, bool_data] at h
    cases b <;> cases b' <;> simp at h
    · exact ⟨rfl, by simpa using h⟩
    · exact ⟨rfl, by simpa using h⟩


/-- The text `JSON.stringify` writes for the fields of a flat object of natural numbers,
strings and booleans determines the fields. -/
theorem flatFields_inj (fields fields' : List (String × Json))
    (hfields : ∀ kv ∈ fields,
      (∃ n : Nat, kv.2 = .num n) ∨ (∃ t, kv.2 = .str t) ∨ (∃ b, kv.2 = .bool b))
    (hfields' : ∀ kv ∈ fields',
      (∃ n : Nat, kv.2 = .num n) ∨ (∃ t, kv.2 = .str t) ∨ (∃ b, kv.2 = .bool b))
    (h : fields.flatMap
          (fun kv => ',' :: ((jsonQuote kv.1).data ++ ':' :: (Json.stringify kv.2).data))
          ++ [Char.ofNat 125]
      = fields'.flatMap
          (fun kv => ',' :: ((jsonQuote kv.1).data ++ ':' :: (Json.stringify kv.2).data))
          ++ [Char.ofNat 125]) : fields = fields' := by
  induction fields generalizing fields' with
  | nil =>
    cases fields' with
    | nil => rfl
    | cons kv rest =>
      simp only [List.flatMap_nil, List.nil_append, List.flatMap_cons, List.cons_append,
        List.cons.injEq] at h
      exact absurd h.1 (by decide)
  | cons kv rest ih =>
    cases fields' with
    | nil =>
      simp only [List.flatMap_nil, List.nil_append, List.flatMap_cons, List.cons_append,
        List.cons.injEq] at h
      exact absurd h.1 (by decide)
    | cons kv' rest' =>
      obtain ⟨k, v⟩ := kv
      obtain ⟨k', v'⟩ := kv'
      simp only [List.flatMap_cons, List.cons_append, List.append_assoc, List.cons.injEq,
        true_and] at h
      obtain ⟨hk, hvalue⟩ := jsonQuote_append_inj k k' _ _ h
      simp only [List.cons.injEq, true_and] at hvalue
      obtain ⟨c, r, hr, hc⟩ := fields_tail_head rest
      obtain ⟨d, s, hs, hd⟩ := fields_tail_head rest'
      rw [hr, hs] at hvalue
      obtain ⟨hv, htail⟩ := value_append_inj v v' r s c d
        (hfields (k, v) (List.mem_cons_self _ _)) (hfields' (k', v') (List.mem_cons_self _ _))
        hc hd hvalue
      rw [← hr, ← hs] at htail
      have hrest := ih rest' (fun kv hkv => hfields kv (List.mem_cons_of_mem _ hkv))
        (fun kv hkv => hfields' kv (List.mem_cons_of_mem _ hkv)) htail
      rw [hk, hv, hrest]

theorem sortField_toString_inj (a b : SortField) (h : a.toString = b.toString) : a = b := by
  cases a <;> cases b <;> first | rfl | exact absurd h (by decide)

theorem sortOrder_toString_inj (a b : SortOrder) (h : a.toString = b.toString) : a = b := by
  cases a <;> cases b <;> first | rfl | exact absurd h (by decide)


theorem sortField_toString_eq_iff (a b : SortField) : a.toString = b.toString ↔ a = b :=
  ⟨sortField_toString_inj a b, fun h => by rw [h]⟩

theorem sortOrder_toString_eq_iff (a b : SortOrder) : a.toString = b.toString ↔ a = b :=
  ⟨sortOrder_toString_inj a b, fun h => by rw [h]⟩

theorem string_append_left_inj (pre a b : String) (h : pre ++ a = pre ++ b) : a = b := by
  have hdata := congrArg String.data h
  simp only [String.data_append] at hdata
  exact String.ext (List.append_cancel_left hdata)

theorem queryKey_toString_inj (a b : QueryKey) (h : a.toString = b.toString) : a = b := by
  cases a <;> cases b <;> first | rfl | exact absurd h (by decide)

theorem value_simple (query : ProductsQuery) (key : QueryKey) (value : Json)
    (h : query.value key = some value) :
    (∃ n : Nat, value = .num n) ∨ (∃ t, value = .str t) ∨ (∃ b, value = .bool b) := by
  cases key
  · exact Or.inl ⟨query.page, (Option.some.inj h).symm⟩
  · exact Or.inl ⟨query.limit, (Option.some.inj h).symm⟩
  · cases hs : query.search with
    | none => simp [ProductsQuery.value, hs] at h
    | some t =>
      simp only [ProductsQuery.value, hs, Option.map_some', Option.some.injEq] at h
      exact Or.inr (Or.inl ⟨t, h.symm⟩)
  · cases hs : query.category with
    | none => simp [ProductsQuery.value, hs] at h
    | some t =>
      simp only [ProductsQuery.value, hs, Option.map_some', Option.some.injEq] at h
      exact Or.inr (Or.inl ⟨t, h.symm⟩)
  · cases hs : query.isActive with
    | none => simp [ProductsQuery.value, hs] at h
    | some t =>
      simp only [ProductsQuery.value, hs, Option.map_some', Option.some.injEq] at h
      exact Or.inr (Or.inr ⟨t, h.symm⟩)
  · exact Or.inr (Or.inl ⟨_, (Option.some.inj h).symm⟩)
  · exact Or.inr (Or.inl ⟨_, (Option.some.inj h).symm⟩)

theorem toJson_simple (query : ProductsQuery) :
    ∀ kv ∈ query.toJson.ownFields,
      (∃ n : Nat, kv.2 = .num n) ∨ (∃ t, kv.2 = .str t) ∨ (∃ b, kv.2 = .bool b) := by
  intro kv hkv
  unfold ProductsQuery.toJson at hkv
  simp only [Json.ownFields, List.mem_filterMap] at hkv
  obtain ⟨key, _, hkey⟩ := hkv
  cases hvalue : query.value key with
  | none => simp [hvalue] at hkey
  | some value =>
    simp only [hvalue, Option.map_some', Option.some.injEq] at hkey
    subst hkey
    exact value_simple query key value hvalue

/-- What the object `request.query` holds under the name of a key. -/
theorem toJson_lookup (query : ProductsQuery) (key : QueryKey) :
    query.toJson.ownFields.lookup key.toString
      = if key ∈ query.order then query.value key else none := by
  unfold ProductsQuery.toJson
  simp only [Json.ownFields]
  induction query.order with
  | nil => rfl
  | cons k rest ih =>
    by_cases hk : key = k
    · subst hk
      cases hvalue : query.value key with
      | none =>
        simp only [List.filterMap_cons, hvalue, Option.map_none', ih]
        simp
      | some value =>
        simp [List.filterMap_cons, hvalue, List.lookup]
    · have hname : (key.toString == k.toString) = false := by
        simpa using fun h => hk (queryKey_toString_inj key k h)
      have hmem : key ∈ k :: rest ↔ key ∈ rest := by simp [hk]
      cases hvalue : query.value k with
      | none =>
        simp only [List.filterMap_cons, hvalue, Option.map_none', ih, hmem]
      | some value =>
        simp only [List.filterMap_cons, hvalue, Option.map_some', List.lookup, hname, ih,
          hmem]

/-- The object of a complete query holds, under the name of each key, the value of the
query. -/
theorem toJson_value (query : ProductsQuery) (hcomplete : query.Complete) (key : QueryKey) :
    query.toJson.ownFields.lookup key.toString = query.value key := by
  rw [toJson_lookup]
  by_cases hmem : key ∈ query.order
  · simp only [hmem, if_true]
  · simp only [hmem, if_false]
    cases hvalue : query.value key with
    | none => rfl
    | some value => exact absurd (hcomplete key (by simp [hvalue])) hmem

/-- The text `JSON.stringify` writes for a flat object of natural numbers, strings and
booleans determines its fields, their order included. -/
theorem stringify_flat_inj (fields fields' : List (String × Json))
    (hfields : ∀ kv ∈ fields,
      (∃ n : Nat, kv.2 = .num n) ∨ (∃ t, kv.2 = .str t) ∨ (∃ b, kv.2 = .bool b))
    (hfields' : ∀ kv ∈ fields',
      (∃ n : Nat, kv.2 = .num n) ∨ (∃ t, kv.2 = .str t) ∨ (∃ b, kv.2 = .bool b))
    (h : (Json.obj fields).stringify = (Json.obj fields').stringify) : fields = fields' := by
  have hdata := congrArg String.data h
  rw [Json.stringify, Json.stringify] at hdata
  simp only [String.data_append] at hdata
  rw [List.append_assoc, List.append_assoc] at hdata
  have hsame : (Json.stringifyFields fields).data = (Json.stringifyFields fields').data :=
    List.append_cancel_right (List.append_cancel_left hdata)
  cases fields with
  | nil =>
    cases fields' with
    | nil => rfl
    | cons kv rest =>
      obtain ⟨k, v⟩ := kv
      have hrest := stringifyFields_data k v rest
      rw [← hsame] at hrest
      obtain ⟨tail, htail⟩ := jsonQuote_head k
      rw [Json.stringifyFields] at hrest
      simp [htail] at hrest
  | cons kv rest =>
    cases fields' with
    | nil =>
      obtain ⟨k, v⟩ := kv
      have hrest := stringifyFields_data k v rest
      rw [hsame] at hrest
      obtain ⟨tail, htail⟩ := jsonQuote_head k
      rw [Json.stringifyFields] at hrest
      simp [htail] at hrest
    | cons kv' rest' =>
      obtain ⟨k, v⟩ := kv
      obtain ⟨k', v'⟩ := kv'
      have hl := stringifyFields_data k v rest
      have hr := stringifyFields_data k' v' rest'
      rw [hsame, hr] at hl
      exact flatFields_inj _ _ hfields hfields' (by rw [hl])

/-- Two queries with the same list-cache key have the same object `request.query`. -/
theorem listCacheKey_toJson (query query' : ProductsQuery)
    (h : ProductController.listCacheKey query = ProductController.listCacheKey query') :
    query.toJson = query'.toJson := by
  have htext := string_append_left_inj "products:" _ _ h
  have hfields := stringify_flat_inj (query.toJson.ownFields) (query'.toJson.ownFields)
    (toJson_simple query) (toJson_simple query') htext
  exact congrArg Json.obj hfields

/-- Two complete queries with the same list-cache key have the same value under every key. -/
theorem listCacheKey_values (query query' : ProductsQuery) (hcomplete : query.Complete)
    (hcomplete' : query'.Complete)
    (h : ProductController.listCacheKey query = ProductController.listCacheKey query')
    (key : QueryKey) : query.value key = query'.value key := by
  rw [← toJson_value query hcomplete key, ← toJson_value query' hcomplete' key,
    listCacheKey_toJson query query' h]

theorem listCacheKey_fields (query query' : ProductsQuery) (hcomplete : query.Complete)
    (hcomplete' : query'.Complete)
    (h : ProductController.listCacheKey query = ProductController.listCacheKey query') :
    query.page = query'.page ∧ query.limit = query'.limit ∧ query.search = query'.search ∧
      query.category = query'.category ∧ query.isActive = query'.isActive ∧
      query.sortBy = query'.sortBy ∧ query.sortOrder = query'.sortOrder := by
  have hvalues := listCacheKey_values query query' hcomplete hcomplete' h
  refine ⟨?_, ?_, ?_, ?_, ?_, ?_, ?_⟩
  · simpa [ProductsQuery.value] using hvalues .page
  · simpa [ProductsQuery.value] using hvalues .limit
  · have hv := hvalues .search
    simp only [ProductsQuery.value] at hv
    cases hs : query.search <;> cases hs' : query'.search <;> simp_all
  · have hv := hvalues .category
    simp only [ProductsQuery.value] at hv
    cases hs : query.category <;> cases hs' : query'.category <;> simp_all
  · have hv := hvalues .isActive
    simp only [ProductsQuery.value] at hv
    cases hs : query.isActive <;> cases hs' : query'.isActive <;> simp_all
  · have hv := hvalues .sortBy
    simp only [ProductsQuery.value, Option.some.injEq, Json.str.injEq] at hv
    exact sortField_toString_inj _ _ hv
  · have hv := hvalues .sortOrder
    simp only [ProductsQuery.value, Option.some.injEq, Json.str.injEq] at hv
    exact sortOrder_toString_inj _ _ hv

/-- A query whose `order` names every key is complete. -/
theorem complete_of_all (query : ProductsQuery) (h : ∀ key, key ∈ query.order) :
    query.Complete := fun key _ => h key


theorem lookup_filter_of (fields : List (String × Json)) (key : String)
    (p : String × Json → Bool) (hp : ∀ v, p (key, v) = true) :
    (fields.filter p).lookup key = fields.lookup key := by
  induction fields with
  | nil => rfl
  | cons kv rest ih =>
    obtain ⟨k, v⟩ := kv
    by_cases hkeep : p (k, v) = true
    · rw [List.filter_cons_of_pos hkeep]
      by_cases hk : key = k
      · subst hk
        simp [List.lookup]
      · have hne : (key == k) = false := by simpa using hk
        simp only [List.lookup, hne, ih]
    · have hk : key ≠ k := by
        intro hk
        subst hk
        exact hkeep (hp v)
      have hne : (key == k) = false := by simpa using hk
      rw [List.filter_cons_of_neg hkeep]
      simp only [List.lookup, hne, ih]

/-- A request that passes `validateSchema(productParamsSchema, 'params')` carries an `id`
that is a text the UUID test accepts. -/
theorem productParams_passed (isUuid : String → Bool) (request request' : Request Payload)
    (h : validateSchema (productParamsSchema isUuid) "params" request = (request', none)) :
    ∃ id, request'.body.params.ownFields.lookup "id" = some (.str id) ∧
      isUuid id = true := by
  unfold validateSchema at h
  have hread : request.body.read "params" = request.body.params := rfl
  simp only [hread] at h
  unfold productParamsSchema joiObject at h
  cases hparams : request.body.params with
  | obj fields =>
    simp only [hparams, if_true, List.flatMap_cons, List.flatMap_nil, List.append_nil,
      Bool.false_eq_true, if_false] at h
    cases hlookup : fields.lookup "id" with
    | none => simp [JoiStringKey.check, hlookup] at h
    | some value =>
      cases value with
      | str id =>
        by_cases hempty : id = ""
        · simp [JoiStringKey.check, hlookup, hempty] at h
        · by_cases hid : isUuid id = true
          · refine ⟨id, ?_, hid⟩
            simp [JoiStringKey.check, hlookup, hempty, hid] at h
            have hreplace : ∀ value, request.body.replace "params" value
                = { request.body with params := value } := fun _ => rfl
            rw [← h, hreplace]
            simp only [Json.ownFields]
            rw [lookup_filter_of fields "id" _ (by simp)]
            exact hlookup
          · simp [JoiStringKey.check, hlookup, hempty, hid] at h
      | null => simp [JoiStringKey.check, hlookup] at h
      | bool b => simp [JoiStringKey.check, hlookup] at h
      | num n => simp [JoiStringKey.check, hlookup] at h
      | arr items => simp [JoiStringKey.check, hlookup] at h
      | obj inner => simp [JoiStringKey.check, hlookup] at h
  | null => simp [hparams] at h
  | bool b => simp [hparams] at h
  | num n => simp [hparams] at h
  | str t => simp [hparams] at h
  | arr items => simp [hparams] at h


theorem user_ne_product (userId rest : String) : "user:" ++ userId ≠ "product" ++ rest := by
  intro h
  have hdata := congrArg String.data h
  simp only [String.data_append] at hdata
  simp at hdata

theorem demoUuid_length (text : String) (h : demoUuid text = true) : 32 ≤ text.length := by
  simp only [demoUuid, Bool.and_eq_true, beq_iff_eq] at h
  omega

/-! ## Theorems: the cache keys -/

/-- C28: the cache keys do not collide.  A request that passes
`validateSchema(productParamsSchema, 'params')` carries an id the UUID test accepts; for every
user id, every product id the UUID test accepts and every query object, whatever the order
of its keys, the keys `user:<id>`, `product:<id>`, `product:stats` and `products:` +
`JSON.stringify(query)` are pairwise distinct; two user keys or two product keys are equal
only for equal ids; two list keys are equal only for the same query object (the same keys in
the same order with the same values), so two queries that differ in the value of `page`,
`limit`, `search`, `category`, `isActive`, `sortBy` or `sortOrder` have distinct keys; and a
value written under one key leaves what is found under every other key as it was.  The UUID
test of Joi is a parameter, of which the proof uses that a text it accepts has at least 32
characters. -/
theorem cache_keys_collision_free (isUuid : String → Bool)
    (huuid : ∀ text, isUuid text = true → 32 ≤ text.length) :
    (∀ request request' : Request Payload,
      validateSchema (productParamsSchema isUuid) "params" request = (request', none) →
      ∃ id, request'.body.params.ownFields.lookup "id" = some (.str id) ∧
        isUuid id = true) ∧
    (∀ userId productId query, isUuid productId = true →
      "user:" ++ userId ≠ "product:" ++ productId ∧
      "user:" ++ userId ≠ "product:stats" ∧
      "user:" ++ userId ≠ ProductController.listCacheKey query ∧
      "product:" ++ productId ≠ "product:stats" ∧
      "product:" ++ productId ≠ ProductController.listCacheKey query ∧
      "product:stats" ≠ ProductController.listCacheKey query) ∧
    (∀ a b, "user:" ++ a = "user:" ++ b → a = b) ∧
    (∀ a b, "product:" ++ a = "product:" ++ b → a = b) ∧
    (∀ query query',
      ProductController.listCacheKey query = ProductController.listCacheKey query' →
      query.toJson = query'.toJson) ∧
    (∀ query query', query.Complete → query'.Complete →
      ProductController.listCacheKey query = ProductController.listCacheKey query' →
      query.page = query'.page ∧ query.limit = query'.limit ∧
        query.search = query'.search ∧ query.category = query'.category ∧
        query.isActive = query'.isActive ∧ query.sortBy = query'.sortBy ∧
        query.sortOrder = query'.sortOrder) ∧
    (∀ (redis : Redis) (key other : String) (entry : CacheEntry), other ≠ key →
      (redis.put key entry).find other = redis.find other) := by
  refine ⟨productParams_passed isUuid, ?_, string_append_left_inj "user:",
    string_append_left_inj "product:", listCacheKey_toJson, listCacheKey_fields,
    fun redis key other entry h => find_put_other redis key other entry h⟩
  intro userId productId query hid
  refine ⟨user_ne_product userId (":" ++ productId), user_ne_product userId ":stats",
    ?_, ?_, fun h => listCacheKey_ne_item query productId h.symm,
    fun h => listCacheKey_ne_item query "stats" h.symm⟩
  · unfold ProductController.listCacheKey
    exact user_ne_product userId ("s:" ++ query.toJson.stringify)
  · intro h
    have hstats : productId = "stats" := string_append_left_inj "product:" productId "stats" h
    have hlength := huuid productId hid
    rw [hstats] at hlength
    exact absurd hlength (by decide)

/-- C28 at a concrete input: the key of a product with a canonical UUID, the key of the
statistics, the key of the user `u1`, and the keys of the first page as `?page=1&limit=2` and
as `?limit=2&page=1` write it: the second key starts with `limit`, and the two would be equal
only for queries of the same values. -/
theorem cache_keys_collision_free_witness :
    "product:" ++ "123e4567-e89b-12d3-a456-426614174000" ≠ "product:stats" ∧
    "product:" ++ "123e4567-e89b-12d3-a456-426614174000"
      ≠ ProductController.listCacheKey limitFirst ∧
    "user:" ++ "u1" ≠ ProductController.listCacheKey limitFirst ∧
    ProductController.listCacheKey limitFirst
      = "products:\x7b\"limit\":2,\"page\":1,\"sortBy\":\"createdAt\",\"sortOrder\":\"desc\"\x7d" ∧
    (ProductController.listCacheKey limitFirst = ProductController.listCacheKey firstPage →
      limitFirst.page = firstPage.page ∧ limitFirst.limit = firstPage.limit ∧
        limitFirst.search = firstPage.search ∧ limitFirst.category = firstPage.category ∧
        limitFirst.isActive = firstPage.isActive ∧ limitFirst.sortBy = firstPage.sortBy ∧
        limitFirst.sortOrder = firstPage.sortOrder) :=
  ⟨((cache_keys_collision_free demoUuid demoUuid_length).2.1 "u1"
      "123e4567-e89b-12d3-a456-426614174000" limitFirst rfl).2.2.2.1,
    ((cache_keys_collision_free demoUuid demoUuid_length).2.1 "u1"
      "123e4567-e89b-12d3-a456-426614174000" limitFirst rfl).2.2.2.2.1,
    ((cache_keys_collision_free demoUuid demoUuid_length).2.1 "u1"
      "123e4567-e89b-12d3-a456-426614174000" limitFirst rfl).2.2.1,
    by decide,
    (cache_keys_collision_free demoUuid demoUuid_length).2.2.2.2.2.1 limitFirst firstPage
      (fun key h => by cases key <;> first | decide | exact absurd h (by decide))
      (complete_of_all firstPage (fun key => by cases key <;> decide))⟩

/-! ## Theorems: the profile update behind its validator -/

theorem applyData_frame (data : List (String × Json)) (user changed : User)
    (hkeys : ∀ kv ∈ data, kv.1 = "name" ∨ kv.1 = "email")
    (h : Database.applyData data user = .ok changed) :
    changed.id = user.id ∧ changed.role = user.role ∧ changed.password = user.password ∧
      changed.createdAt = user.createdAt := by
  induction data generalizing user with
  | nil =>
    unfold Database.applyData at h
    cases h
    exact ⟨rfl, rfl, rfl, rfl⟩
  | cons kv rest ih =>
    unfold Database.applyData at h
    split at h
    · rename_i heq
      cases heq
    all_goals first
      | (rename_i heq; cases heq
         have hk := hkeys _ (List.mem_cons_self _ _)
         simp at hk
         done)
      | (rename_i heq; cases heq
         have hrest : ∀ kv ∈ rest, kv.1 = "name" ∨ kv.1 = "email" :=
           fun kv hkv => hkeys kv (List.mem_cons_of_mem _ hkv)
         have hih := ih _ hrest h
         exact hih)
      | (cases h)

theorem updateProfile_frame (now : Nat) (w : World)
    (request : Request (List (String × Json)))
    (hkeys : ∀ kv ∈ request.body, kv.1 = "name" ∨ kv.1 = "email") :
    (AuthController.updateProfile now w request).1.db.products = w.db.products ∧
    ((AuthController.updateProfile now w request).1.db.users = w.db.users ∨
      ∃ identity old new, request.user = some identity ∧
        w.db.findUniqueById identity.id = some old ∧
        new.id = old.id ∧ new.role = old.role ∧ new.password = old.password ∧
        new.createdAt = old.createdAt ∧
        (AuthController.updateProfile now w request).1.db.users
          = w.db.users.map (fun u => if u.id == identity.id then new else u)) := by
  unfold AuthController.updateProfile
  cases huser : request.user with
  | none => exact ⟨rfl, Or.inl rfl⟩
  | some identity =>
    simp only []
    cases hconflict : AuthController.emailConflict w identity.id request.body with
    | some ended => exact ⟨rfl, Or.inl rfl⟩
    | none =>
      simp only []
      cases hupdate : w.db.update now identity.id request.body with
      | error e => exact ⟨rfl, Or.inl rfl⟩
      | ok pair =>
        obtain ⟨db, updated⟩ := pair
        have hdb : db.products = w.db.products ∧
            ∃ old new, w.db.findUniqueById identity.id = some old ∧
              new.id = old.id ∧ new.role = old.role ∧ new.password = old.password ∧
              new.createdAt = old.createdAt ∧
              db.users = w.db.users.map (fun u => if u.id == identity.id then new else u) := by
          unfold Database.update at hupdate
          cases hfound : w.db.findUniqueById identity.id with
          | none => simp [hfound] at hupdate
          | some old =>
            simp only [hfound] at hupdate
            cases happly : Database.applyData request.body old with
            | error e => simp [happly] at hupdate
            | ok changed =>
              simp only [happly] at hupdate
              split at hupdate
              · exact Except.noConfusion hupdate
              · cases hupdate
                obtain ⟨h₁, h₂, h₃, h₄⟩ := applyData_frame _ _ _ hkeys happly
                exact ⟨rfl, old, { changed with updatedAt := now }, rfl, h₁, h₂, h₃, h₄, rfl⟩
        obtain ⟨hproducts, old, new, hfound, h₁, h₂, h₃, h₄, husers⟩ := hdb
        simp only []
        split
        · exact ⟨hproducts, Or.inr ⟨identity, old, new, rfl, hfound, h₁, h₂, h₃, h₄, husers⟩⟩
        · exact ⟨hproducts, Or.inr ⟨identity, old, new, rfl, hfound, h₁, h₂, h₃, h₄, husers⟩⟩

theorem updateProfileSchema_keys (isEmail : String → Bool) (data : Json) (result : JoiResult)
    (h : updateProfileSchema isEmail data { abortEarly := false, stripUnknown := true }
      = .ok result) (herror : result.error = none) :
    ∀ kv ∈ result.value.ownFields, kv.1 = "name" ∨ kv.1 = "email" := by
  unfold updateProfileSchema joiObject at h
  cases data with
  | obj fields =>
    simp only [Except.ok.injEq] at h
    subst h
    intro kv hkv
    simp only [if_true, Json.ownFields, List.mem_filter] at hkv
    have hnamed := hkv.2
    simp only [List.any_cons, List.any_nil, Bool.or_false, Bool.or_eq_true, beq_iff_eq]
      at hnamed
    rcases hnamed with hn | hn
    · exact Or.inl hn.symm
    · exact Or.inr hn.symm
  | null => simp at h; subst h; simp at herror
  | bool b => simp at h; subst h; simp at herror
  | num n => simp at h; subst h; simp at herror
  | str t => simp at h; subst h; simp at herror
  | arr items => simp at h; subst h; simp at herror

/-- C29: for every request body, the hook `validateSchema(updateProfileSchema)` followed by
`updateProfile` leaves the product table as it was and either leaves the user table as it was
or replaces the rows of the caller's id by a row with the same `id`, `role`, `password` and
`createdAt` as the caller's stored row, every row of another id staying as it was; so only the
name and the email of the caller can change (and `updatedAt`, which the store sets at every
update), whatever other fields the body carries. -/
theorem putProfile_frame (isEmail : String → Bool) (now : Nat) (w : World)
    (request : Request Payload) :
    (putProfile isEmail now w request).1.db.products = w.db.products ∧
    ((putProfile isEmail now w request).1.db.users = w.db.users ∨
      ∃ identity old new, request.user = some identity ∧
        w.db.findUniqueById identity.id = some old ∧
        new.id = old.id ∧ new.role = old.role ∧ new.password = old.password ∧
        new.createdAt = old.createdAt ∧
        (putProfile isEmail now w request).1.db.users
          = w.db.users.map (fun u => if u.id == identity.id then new else u)) := by
  unfold putProfile validateSchema
  simp only []
  cases hrun : updateProfileSchema isEmail (request.body.read "body")
      { abortEarly := false, stripUnknown := true } with
  | error e => exact ⟨rfl, Or.inl rfl⟩
  | ok result =>
    simp only []
    cases herror : result.error with
    | some details => exact ⟨rfl, Or.inl rfl⟩
    | none =>
      simp only []
      have hkeys := updateProfileSchema_keys isEmail _ result hrun herror
      exact updateProfile_frame now w
        ⟨request.authorization, request.user, result.value.ownFields⟩ hkeys

/-- C29 at a concrete input: Ann sends a new name together with `role: 'ADMIN'` and a
`password`; her row keeps its role and its digest, and only the name changes (and
`updatedAt`). -/
theorem putProfile_frame_witness :
    ((putProfile demoEmail 9 demoWorld
        ⟨none, some annJws.claims,
          ⟨.obj [("name", .str "Anna"), ("role", .str "ADMIN"), ("password", .str "x")],
            .obj [], .obj []⟩⟩).1.db.products = demoWorld.db.products ∧
      ((putProfile demoEmail 9 demoWorld
          ⟨none, some annJws.claims,
            ⟨.obj [("name", .str "Anna"), ("role", .str "ADMIN"), ("password", .str "x")],
              .obj [], .obj []⟩⟩).1.db.users = demoWorld.db.users ∨
        ∃ identity old new, some annJws.claims = some identity ∧
          demoWorld.db.findUniqueById identity.id = some old ∧
          new.id = old.id ∧ new.role = old.role ∧ new.password = old.password ∧
          new.createdAt = old.createdAt ∧
          (putProfile demoEmail 9 demoWorld
            ⟨none, some annJws.claims,
              ⟨.obj [("name", .str "Anna"), ("role", .str "ADMIN"), ("password", .str "x")],
                .obj [], .obj []⟩⟩).1.db.users
            = demoWorld.db.users.map (fun u => if u.id == identity.id then new else u))) ∧
    (putProfile demoEmail 9 demoWorld
        ⟨none, some annJws.claims,
          ⟨.obj [("name", .str "Anna"), ("role", .str "ADMIN"), ("password", .str "x")],
            .obj [], .obj []⟩⟩).1.db.users
      = [{ ann with name := "Anna", updatedAt := 9 }] :=
  ⟨putProfile_frame demoEmail 9 demoWorld
    ⟨none, some annJws.claims,
      ⟨.obj [("name", .str "Anna"), ("role", .str "ADMIN"), ("password", .str "x")],
        .obj [], .obj []⟩⟩, rfl⟩

end Ecommerce
